import Mathlib

/-! Environment arena of the kernel (`kern/env.c`).

A shallow embedding of the environment table, its free list and the lifecycle
operations (`envid2env`, `env_init`, `env_alloc`, `env_guest_alloc`,
`env_free`, `env_destroy`, `env_run`), followed by theorems about them.

Conventions of the embedding:

* a `struct Env *` is the index of the record in `envs` (`e - envs`), `NULL` is
  `none`;
* a `struct PageInfo *` is the index of the page in `pages`, `NULL` is `none`;
* `int32_t` values are integers, every arithmetic or bitwise operation on them
  goes through the 32-bit two's complement pattern (`toU32` / `ofU32`);
* `return 0` is `Except.ok`, `return -E_X` is `Except.error Errno.E_X`;
* functions of the repository that are not part of `kern/env.c`
  (`page_alloc`, `vmx_init_vmcs`, the page-table memory walked by `env_free`)
  appear as explicit arguments giving their result.
-/

namespace Jos

/-! ## Machine integers -/

/-- The 32-bit pattern of an integer (two's complement). -/
def toU32 (x : Int) : Nat := (x % 4294967296).toNat

/-- The signed 32-bit value of a bit pattern. -/
def ofU32 (n : Nat) : Int :=
  if n % 4294967296 < 2147483648 then ((n % 4294967296 : Nat) : Int)
  else ((n % 4294967296 : Nat) : Int) - 4294967296

/-- Wrap-around of `int32_t` arithmetic. -/
def wrap32 (x : Int) : Int := ofU32 (toU32 x)

/-- C `a & b` on `int32_t`. -/
def and32 (a b : Int) : Int := ofU32 (toU32 a &&& toU32 b)

/-- C `a | b` on `int32_t`. -/
def or32 (a b : Int) : Int := ofU32 (toU32 a ||| toU32 b)

/-- C `~a` on `int32_t`. -/
def not32 (a : Int) : Int := ofU32 (4294967295 - toU32 a)

/-! ## Constants -/

/-- Macro `#define ENVGENSHIFT 12  // >= LOGNENV`. -/
def ENVGENSHIFT : Nat := 12

/-- Modelled from the spec: the page size `PGSIZE` of `inc/mmu.h`, a header that
is not among the sources; 4096 bytes on this architecture. -/
def PGSIZE : Nat := 4096

/-- User code segment selector: the comment of the `gdt` table places it at `0x18`. -/
def GD_UT : Nat := 0x18

/-- User data segment selector: the comment of the `gdt` table places it at `0x20`. -/
def GD_UD : Nat := 0x20

/-- Modelled from the spec: constants of headers that are not among the sources
(`inc/env.h`, `inc/memlayout.h`, `inc/mmu.h`), taken as parameters.  `LOG2NENV` is the binary logarithm of the
capacity of the environment table; the comment next to `ENVGENSHIFT` requires
`ENVGENSHIFT >= LOGNENV`. -/
structure Cfg where
  /-- Binary logarithm of the number of environments. -/
  LOG2NENV : Nat
  /-- The requirement `ENVGENSHIFT >= LOGNENV`. -/
  LOG2NENV_le : LOG2NENV ≤ ENVGENSHIFT
  /-- Top of the normal user stack. -/
  USTACKTOP : Nat
  /-- Interrupt-enable bit of the flags register. -/
  FL_IF : Nat

/-- Modelled from the spec: the capacity `NENV` of the environment table, a
macro of `inc/env.h` (not among the sources): `#define NENV (1 << LOG2NENV)`.
The mask `~(NENV - 1)` of `env_alloc` needs it to be a power of two. -/
def NENV (c : Cfg) : Nat := 1 <<< c.LOG2NENV

/-- Modelled from the spec: the slot index recoverable from an identity, the
macro `ENVX` of `inc/env.h` (not among the sources):
`#define ENVX(envid) ((envid) & (NENV - 1))`. -/
def ENVX (c : Cfg) (envid : Int) : Int := and32 envid ((NENV c : Int) - 1)

/-! ## Data model -/

/-- Modelled from the spec: the kinds of environment (`enum EnvType` of
`inc/env.h`, not among the sources), as far as the sources use them. -/
inductive EnvType where
  | ENV_TYPE_USER
  | ENV_TYPE_FS
  | ENV_TYPE_GUEST
  deriving DecidableEq, Repr

/-- Modelled from the spec: the values of `env_status` (`inc/env.h`, not among
the sources): free, dying, runnable, running, not runnable. -/
inductive EnvStatus where
  | ENV_FREE
  | ENV_DYING
  | ENV_RUNNABLE
  | ENV_RUNNING
  | ENV_NOT_RUNNABLE
  deriving DecidableEq, Repr

/-- Modelled from the spec: the error codes of `inc/error.h` (not among the
sources) that the functions below return negated. -/
inductive Errno where
  | E_BAD_ENV
  | E_NO_MEM
  | E_NO_FREE_ENV
  deriving DecidableEq, Repr

/-- Modelled from the spec: general purpose registers saved in a trap frame
(`struct PushRegs` of `inc/trap.h`, not among the sources), those the sources
name. -/
structure PushRegs where
  reg_rax : Nat
  reg_rbx : Nat
  reg_rcx : Nat
  reg_rdx : Nat
  reg_rsi : Nat
  deriving DecidableEq, Repr

/-- Modelled from the spec: the saved register state of an environment
(`struct Trapframe` of `inc/trap.h`, not among the sources), with the fields
the sources name. -/
structure Trapframe where
  tf_regs : PushRegs
  tf_es : Nat
  tf_ds : Nat
  tf_rip : Nat
  tf_cs : Nat
  tf_eflags : Nat
  tf_rsp : Nat
  tf_ss : Nat
  deriving DecidableEq, Repr

/-- Result of `memset(&tf, 0, sizeof(tf))`. -/
def Trapframe.zero : Trapframe :=
  { tf_regs := { reg_rax := 0, reg_rbx := 0, reg_rcx := 0, reg_rdx := 0, reg_rsi := 0 },
    tf_es := 0, tf_ds := 0, tf_rip := 0, tf_cs := 0, tf_eflags := 0, tf_rsp := 0, tf_ss := 0 }

/-- Modelled from the spec: the guest control block (`struct VmxGuestInfo` of
`vmm/vmx.h`, not among the sources), with the fields the sources name.
Pointers to pages are page indices; `msr_guest_area` is a page together with a
byte offset. -/
structure VmxGuestInfo where
  phys_sz : Nat
  vmcs : Option Nat
  msr_count : Int
  msr_host_area : Option Nat
  msr_guest_area : Option (Nat × Nat)
  io_bmap_a : Option Nat
  io_bmap_b : Option Nat
  vcpunum : Int
  deriving DecidableEq, Repr

/-- Result of `memset(&info, 0, sizeof(struct VmxGuestInfo))`. -/
def VmxGuestInfo.zero : VmxGuestInfo :=
  { phys_sz := 0, vmcs := none, msr_count := 0, msr_host_area := none,
    msr_guest_area := none, io_bmap_a := none, io_bmap_b := none, vcpunum := 0 }

/-- Modelled from the spec: one record of the environment table (`struct Env`
of `inc/env.h`, not among the sources), with the fields `kern/env.c` names. -/
structure Env where
  env_tf : Trapframe
  env_link : Option Nat
  env_id : Int
  env_parent_id : Int
  env_type : EnvType
  env_status : EnvStatus
  env_runs : Nat
  env_cpunum : Int
  env_pml4e : Option Nat
  env_cr3 : Nat
  env_pgfault_upcall : Nat
  env_ipc_recving : Bool
  env_vmxinfo : VmxGuestInfo
  deriving DecidableEq, Repr

/-- An all-zero record, the content of the table when it has just been
allocated and cleared. -/
def Env.zero : Env :=
  { env_tf := Trapframe.zero, env_link := none, env_id := 0, env_parent_id := 0,
    env_type := EnvType.ENV_TYPE_USER, env_status := EnvStatus.ENV_FREE, env_runs := 0,
    env_cpunum := 0, env_pml4e := none, env_cr3 := 0, env_pgfault_upcall := 0,
    env_ipc_recving := false, env_vmxinfo := VmxGuestInfo.zero }

/-- Kernel state touched by `kern/env.c`: the table `envs` (only the indices
below `NENV` are records of the table), `env_free_list`, `curenv` of the
processor executing the code, `vcpu_count`, the reference counts `pp_ref`
of the physical pages, the page-table base register `cr3` of the processor
(written by `lcr3`) and the kernel's own page-table root `boot_cr3`. -/
structure KState where
  envs : Nat → Env
  env_free_list : Option Nat
  curenv : Option Nat
  vcpu_count : Int
  pp_ref : Nat → Nat
  cr3 : Nat
  boot_cr3 : Nat

/-- Assignment to fields of the record `envs[i]`. -/
def KState.setEnv (s : KState) (i : Nat) (e : Env) : KState :=
  { s with envs := Function.update s.envs i e }

/-! ## `envid2env` -/

/-- Function `envid2env(envid, env_store, checkperm)`: the returned code and the value
written to `*env_store`.  The result is `none` when the permission check
reads `curenv->env_id` through a `NULL` `curenv`. -/
def envid2env (c : Cfg) (s : KState) (envid : Int) (checkperm : Bool) :
    Option (Except Errno Unit × Option Nat) :=
  if envid = 0 then
    some (Except.ok (), s.curenv)
  else
    let i := (ENVX c envid).toNat
    let e := s.envs i
    if e.env_status = EnvStatus.ENV_FREE ∨ e.env_id ≠ envid then
      some (Except.error Errno.E_BAD_ENV, none)
    else if checkperm then
      match s.curenv with
      | none => none
      | some cur =>
        if i ≠ cur ∧ e.env_parent_id ≠ (s.envs cur).env_id then
          some (Except.error Errno.E_BAD_ENV, none)
        else
          some (Except.ok (), some i)
    else
      some (Except.ok (), some i)

/-! ## `env_init` -/

/-- The loop of `env_init`: for `i = 0 .. n-1`, `envs[i].env_status = ENV_FREE`
and `envs[i].env_link = &envs[i+1]`. -/
def env_init_loop (n : Nat) (envs : Nat → Env) : Nat → Env :=
  (List.range n).foldl
    (fun es i => Function.update es i
      { es i with env_status := EnvStatus.ENV_FREE, env_link := some (i + 1) })
    envs

/-- Function `env_init()`.  The per-processor part (`env_init_percpu`) loads segment
registers only and does not touch the state modelled here. -/
def env_init (c : Cfg) (s : KState) : KState :=
  let envs1 := env_init_loop (NENV c) s.envs
  let envs2 := Function.update envs1 (NENV c - 1) { envs1 (NENV c - 1) with env_link := none }
  { s with envs := envs2, env_free_list := some 0 }

/-! ## Pages -/

/-- Modelled from the spec: `page2pa(pp)` of `kern/pmap.h` (not among the
sources), the physical address of a page. -/
def page2pa (p : Nat) : Nat := p * PGSIZE

/-- Modelled from the spec: `pa2page(pa)` of `kern/pmap.h` (not among the
sources), the page of a physical address. -/
def pa2page (pa : Nat) : Nat := pa / PGSIZE

/-- Modelled from the spec: `page_decref` of the page allocator (`kern/pmap.c`
is not part of the sources at hand).  The reference count of the page drops
by one; handing the page back to the free pool when the count reaches zero
concerns the allocator only. -/
def page_decref (s : KState) (p : Nat) : KState :=
  { s with pp_ref := Function.update s.pp_ref p (s.pp_ref p - 1) }

/-- Call `page_decref(pa2page(PADDR(ptr)))` for a pointer field of the guest control
block; a `NULL` field designates no page. -/
def page_decref_at (s : KState) (ptr : Option Nat) : KState :=
  match ptr with
  | some p => page_decref s p
  | none => s

/-- Statement `pp->pp_ref += 1`. -/
def page_incref (s : KState) (p : Nat) : KState :=
  { s with pp_ref := Function.update s.pp_ref p (s.pp_ref p + 1) }

/-! ## Allocation -/

/-- Function `env_setup_vm(e)`.  `pg` is the result of `page_alloc(ALLOC_ZERO)`.  The
writes into the new page table page itself are memory contents outside the
state modelled here. -/
def env_setup_vm (s : KState) (e : Nat) (pg : Option Nat) : Except Errno Unit × KState :=
  match pg with
  | none => (Except.error Errno.E_NO_MEM, s)
  | some p =>
    let s1 := page_incref s p
    (Except.ok (), s1.setEnv e { s1.envs e with env_pml4e := some p, env_cr3 := page2pa p })

/-- The local variable `generation` of `env_alloc` and `env_guest_alloc` once
the block "Generate an env_id for this environment" has adjusted it:
`generation = (e->env_id + (1 << ENVGENSHIFT)) & ~(NENV - 1);`
`if (generation <= 0) generation = 1 << ENVGENSHIFT;` -/
def generation (c : Cfg) (old_id : Int) : Int :=
  let generation := and32 (wrap32 (old_id + ((1 <<< ENVGENSHIFT : Nat) : Int)))
    (not32 ((NENV c : Int) - 1))
  if generation ≤ 0 then ((1 <<< ENVGENSHIFT : Nat) : Int) else generation

/-- The identity assigned by `env_alloc` and `env_guest_alloc` (the same three
lines in both): `e->env_id = generation | (e - envs);` -/
def mkenvid (c : Cfg) (old_id : Int) (e : Nat) : Int :=
  or32 (generation c old_id) (e : Int)

/-- Function `env_alloc(newenv_store, parent_id)`: the returned code with the record
stored in `*newenv_store` on success, and the new state.  `pg` is the result
of the `page_alloc` call made by `env_setup_vm`. -/
def env_alloc (c : Cfg) (s : KState) (parent_id : Int) (pg : Option Nat) :
    Except Errno Nat × KState :=
  match s.env_free_list with
  | none => (Except.error Errno.E_NO_FREE_ENV, s)
  | some e =>
    match env_setup_vm s e pg with
    | (Except.error r, s1) => (Except.error r, s1)
    | (Except.ok (), s1) =>
      let old := s1.envs e
      let tf : Trapframe :=
        { Trapframe.zero with
          tf_ds := GD_UD ||| 3, tf_es := GD_UD ||| 3, tf_ss := GD_UD ||| 3,
          tf_rsp := c.USTACKTOP, tf_cs := GD_UT ||| 3, tf_eflags := c.FL_IF }
      let new : Env :=
        { old with
          env_id := mkenvid c old.env_id e,
          env_parent_id := parent_id,
          env_type := EnvType.ENV_TYPE_USER,
          env_status := EnvStatus.ENV_RUNNABLE,
          env_tf := tf,
          env_pgfault_upcall := 0,
          env_ipc_recving := false }
      (Except.ok e, { s1.setEnv e new with env_free_list := old.env_link })

/-- Function `env_guest_alloc(newenv_store, parent_id)`.  `p`, `r`, `a`, `b` are the
results of the four `page_alloc(ALLOC_ZERO)` calls (EPT root, MSR area, the two
I/O bitmaps) and `q` the result of `vmx_init_vmcs()`; a result is only
consulted when the calls before it succeeded. -/
def env_guest_alloc (c : Cfg) (s : KState) (parent_id : Int)
    (p q r a b : Option Nat) : Except Errno Nat × KState :=
  match s.env_free_list with
  | none => (Except.error Errno.E_NO_FREE_ENV, s)
  | some e =>
    let s := s.setEnv e { s.envs e with env_vmxinfo := VmxGuestInfo.zero }
    match p with
    | none => (Except.error Errno.E_NO_MEM, s)
    | some p =>
      -- memset(p, 0, sizeof(struct PageInfo)); p->pp_ref += 1;
      let s := { s with pp_ref := Function.update s.pp_ref p (0 + 1) }
      let s := s.setEnv e { s.envs e with env_pml4e := some p, env_cr3 := page2pa p }
      match q with
      | none => (Except.error Errno.E_NO_MEM, page_decref s p)
      | some q =>
        let s := page_incref s q
        let s := s.setEnv e
          { s.envs e with env_vmxinfo := { (s.envs e).env_vmxinfo with vmcs := some q } }
        match r with
        | none => (Except.error Errno.E_NO_MEM, page_decref (page_decref s p) q)
        | some r =>
          let s := page_incref s r
          let s := s.setEnv e
            { s.envs e with env_vmxinfo :=
                { (s.envs e).env_vmxinfo with
                  msr_host_area := some r, msr_guest_area := some (r, PGSIZE / 2) } }
          match a with
          | none =>
            (Except.error Errno.E_NO_MEM, page_decref (page_decref (page_decref s p) q) r)
          | some a =>
            let s := page_incref s a
            let s := s.setEnv e
              { s.envs e with env_vmxinfo := { (s.envs e).env_vmxinfo with io_bmap_a := some a } }
            match b with
            | none =>
              (Except.error Errno.E_NO_MEM,
                page_decref (page_decref (page_decref (page_decref s p) q) r) a)
            | some b =>
              let s := page_incref s b
              let s := s.setEnv e
                { s.envs e with env_vmxinfo :=
                    { (s.envs e).env_vmxinfo with io_bmap_b := some b } }
              let old := s.envs e
              let new : Env :=
                { old with
                  env_id := mkenvid c old.env_id e,
                  env_parent_id := parent_id,
                  env_type := EnvType.ENV_TYPE_GUEST,
                  env_status := EnvStatus.ENV_RUNNABLE,
                  env_vmxinfo := { old.env_vmxinfo with vcpunum := s.vcpu_count },
                  env_tf := Trapframe.zero,
                  env_pgfault_upcall := 0,
                  env_ipc_recving := false }
              (Except.ok e,
                { s.setEnv e new with
                  vcpu_count := wrap32 (s.vcpu_count + 1),
                  env_free_list := old.env_link })

/-! ## Release -/

/-- Function `env_guest_free(e)`.  `walk` lists the pages released by
`free_guest_mem(e->env_pml4e)` (`vmm/ept.c`, not part of the sources at hand),
in order. -/
def env_guest_free (s : KState) (e : Nat) (walk : List Nat) : KState :=
  let s := page_decref_at s (s.envs e).env_vmxinfo.vmcs
  let s := page_decref_at s (s.envs e).env_vmxinfo.msr_host_area
  let s := page_decref_at s (s.envs e).env_vmxinfo.io_bmap_a
  let s := page_decref_at s (s.envs e).env_vmxinfo.io_bmap_b
  let s := walk.foldl page_decref s
  let s := page_decref s (pa2page (s.envs e).env_cr3)
  let s := s.setEnv e { s.envs e with env_pml4e := none, env_cr3 := 0 }
  let s := s.setEnv e
    { s.envs e with env_status := EnvStatus.ENV_FREE, env_link := s.env_free_list }
  { s with env_free_list := some e }

/-- Function `env_free(e)`.  Which pages the flush of the user portion of the
address space releases is read from page-table memory, which the state does
not model: `walk` lists, in order, the pages released by the loop (mapped
pages, page tables, page directories) and `pdpt` is the page
`pa2page(PTE_ADDR(e->env_pml4e[0]))` of the page directory pointer table,
released after the loop.  For a guest, `walk` is handed to `env_guest_free`. -/
def env_free (s : KState) (e : Nat) (walk : List Nat) (pdpt : Nat) : KState :=
  if (s.envs e).env_type = EnvType.ENV_TYPE_GUEST then
    env_guest_free s e walk
  else
    -- if (e == curenv) lcr3(boot_cr3);
    let s := if s.curenv = some e then { s with cr3 := s.boot_cr3 } else s
    let s := walk.foldl page_decref s
    let s := page_decref s pdpt
    let pa := (s.envs e).env_cr3
    let s := s.setEnv e { s.envs e with env_pml4e := none, env_cr3 := 0 }
    let s := page_decref s (pa2page pa)
    let s := s.setEnv e
      { s.envs e with env_status := EnvStatus.ENV_FREE, env_link := s.env_free_list }
    { s with env_free_list := some e }

/-- Function `env_destroy(e)`.  When `e` is the current environment the
function ends in `sched_yield()`, which does not return: the state is the one
handed to the scheduler. -/
def env_destroy (s : KState) (e : Nat) (walk : List Nat) (pdpt : Nat) : KState :=
  if (s.envs e).env_status = EnvStatus.ENV_RUNNING ∧ s.curenv ≠ some e then
    s.setEnv e { s.envs e with env_status := EnvStatus.ENV_DYING }
  else
    let s := env_free s e walk pdpt
    if s.curenv = some e then { s with curenv := none } else s

/-! ## Dispatch -/

/-- Function `env_run(e)` up to the point where control leaves the kernel.  `cpu` is the
value of `cpunum()` recorded by `env_pop_tf`.  The result is `none` when
`assert(e->env_status == ENV_RUNNING)` fails. -/
def env_run (s : KState) (e : Nat) (cpu : Int) : Option KState :=
  let s :=
    if s.curenv ≠ some e then
      let s :=
        match s.curenv with
        | some cur =>
          if (s.envs cur).env_status = EnvStatus.ENV_RUNNING then
            s.setEnv cur { s.envs cur with env_status := EnvStatus.ENV_RUNNABLE }
          else s
        | none => s
      let s := { s with curenv := some e }
      let s := s.setEnv e { s.envs e with env_status := EnvStatus.ENV_RUNNING }
      let s := s.setEnv e { s.envs e with env_runs := ((s.envs e).env_runs + 1) % 4294967296 }
      -- if (e->env_type != ENV_TYPE_GUEST) lcr3(e->env_cr3);
      if (s.envs e).env_type ≠ EnvType.ENV_TYPE_GUEST then
        { s with cr3 := (s.envs e).env_cr3 }
      else s
    else s
  if (s.envs e).env_status ≠ EnvStatus.ENV_RUNNING then none
  else if (s.envs e).env_type = EnvType.ENV_TYPE_GUEST then some s
  else
    match s.curenv with
    | some cur => some (s.setEnv cur { s.envs cur with env_cpunum := cpu })
    | none => none

/-! ## Records left by the operations -/

/-- The record `env_alloc` leaves in the slot it allocates. -/
def env_alloc_record (c : Cfg) (old : Env) (e : Nat) (parent_id : Int) (p : Nat) : Env :=
  { old with
    env_pml4e := some p, env_cr3 := page2pa p,
    env_id := mkenvid c old.env_id e,
    env_parent_id := parent_id,
    env_type := EnvType.ENV_TYPE_USER,
    env_status := EnvStatus.ENV_RUNNABLE,
    env_tf :=
      { Trapframe.zero with
        tf_ds := GD_UD ||| 3, tf_es := GD_UD ||| 3, tf_ss := GD_UD ||| 3,
        tf_rsp := c.USTACKTOP, tf_cs := GD_UT ||| 3, tf_eflags := c.FL_IF },
    env_pgfault_upcall := 0,
    env_ipc_recving := false }

/-- The record a successful `env_guest_alloc` leaves in the slot it allocates. -/
def env_guest_alloc_record (c : Cfg) (old : Env) (e : Nat) (parent_id : Int)
    (p q r a b : Nat) (vcpu : Int) : Env :=
  { old with
    env_pml4e := some p, env_cr3 := page2pa p,
    env_vmxinfo :=
      { VmxGuestInfo.zero with
        vmcs := some q, msr_host_area := some r, msr_guest_area := some (r, PGSIZE / 2),
        io_bmap_a := some a, io_bmap_b := some b, vcpunum := vcpu },
    env_id := mkenvid c old.env_id e,
    env_parent_id := parent_id,
    env_type := EnvType.ENV_TYPE_GUEST,
    env_status := EnvStatus.ENV_RUNNABLE,
    env_tf := Trapframe.zero,
    env_pgfault_upcall := 0,
    env_ipc_recving := false }

/-- The record `env_free` and `env_guest_free` leave in the slot they release. -/
def env_free_record (old : Env) (head : Option Nat) : Env :=
  { old with
    env_pml4e := none, env_cr3 := 0,
    env_status := EnvStatus.ENV_FREE, env_link := head }

/-! ## Free list, calls and reachable states -/

/-- The list `l` enumerates the records met when the links `env_link` are
followed from the pointer `p` until `NULL`. -/
def FreeChain (s : KState) : Option Nat → List Nat → Prop
  | p, [] => p = none
  | p, a :: l => p = some a ∧ FreeChain s (s.envs a).env_link l

/-- Decision procedure for `FreeChain`. -/
def FreeChain.dec (s : KState) : (p : Option Nat) → (l : List Nat) → Decidable (FreeChain s p l)
  | p, [] => inferInstanceAs (Decidable (p = none))
  | p, a :: l =>
    have := FreeChain.dec s (s.envs a).env_link l
    inferInstanceAs (Decidable (p = some a ∧ FreeChain s (s.envs a).env_link l))

instance (s : KState) (p : Option Nat) (l : List Nat) : Decidable (FreeChain s p l) :=
  FreeChain.dec s p l

/-- The free list is well formed: `env_free_list` leads through `env_link` to
`NULL`, without repetition, through records of the table, and a record of the
table is met on the way exactly when its status is `ENV_FREE`. -/
def FreeListInv (c : Cfg) (s : KState) : Prop :=
  ∃ l : List Nat, FreeChain s s.env_free_list l ∧ l.Nodup ∧ (∀ a ∈ l, a < NENV c) ∧
    ∀ i, i < NENV c → (i ∈ l ↔ (s.envs i).env_status = EnvStatus.ENV_FREE)

/-- The generation component of an identity, the bits above the slot index:
`id & ~(NENV - 1)`. -/
def gen_part (c : Cfg) (id : Int) : Int := and32 id (not32 ((NENV c : Int) - 1))

/-- A value of type `int32_t`. -/
def isInt32 (x : Int) : Prop := -2147483648 ≤ x ∧ x < 2147483648

instance (x : Int) : Decidable (isInt32 x) :=
  inferInstanceAs (Decidable (-2147483648 ≤ x ∧ x < 2147483648))

/-- A call of one of the lifecycle operations, with the results of the
functions it consults. -/
inductive Call where
  | alloc (parent_id : Int) (pg : Option Nat)
  | guest_alloc (parent_id : Int) (p q r a b : Option Nat)
  | free (e : Nat) (walk : List Nat) (pdpt : Nat)
  | destroy (e : Nat) (walk : List Nat) (pdpt : Nat)
  | run (e : Nat) (cpu : Int)

/-- The kernel hands `env_free`, `env_destroy` and `env_run` a record of the
table that is not free, and the assertion of `env_run` holds. -/
def Call.valid (c : Cfg) (s : KState) : Call → Prop
  | Call.alloc _ _ => True
  | Call.guest_alloc _ _ _ _ _ _ => True
  | Call.free e _ _ => e < NENV c ∧ (s.envs e).env_status ≠ EnvStatus.ENV_FREE
  | Call.destroy e _ _ => e < NENV c ∧ (s.envs e).env_status ≠ EnvStatus.ENV_FREE
  | Call.run e cpu =>
    e < NENV c ∧ (s.envs e).env_status ≠ EnvStatus.ENV_FREE ∧ (env_run s e cpu).isSome = true

/-- The state after a call. -/
def Call.apply (c : Cfg) (s : KState) : Call → KState
  | Call.alloc parent_id pg => (env_alloc c s parent_id pg).2
  | Call.guest_alloc parent_id p q r a b => (env_guest_alloc c s parent_id p q r a b).2
  | Call.free e walk pdpt => env_free s e walk pdpt
  | Call.destroy e walk pdpt => env_destroy s e walk pdpt
  | Call.run e cpu => (env_run s e cpu).getD s

/-- The record a call allocates, if it allocates one. -/
def Call.allocated (c : Cfg) (s : KState) : Call → Option Nat
  | Call.alloc parent_id pg =>
    match (env_alloc c s parent_id pg).1 with
    | Except.ok e => some e
    | Except.error _ => none
  | Call.guest_alloc parent_id p q r a b =>
    match (env_guest_alloc c s parent_id p q r a b).1 with
    | Except.ok e => some e
    | Except.error _ => none
  | _ => none

/-- The state after a sequence of calls. -/
def run_calls (c : Cfg) : KState → List Call → KState
  | s, [] => s
  | s, k :: ks => run_calls c (k.apply c s) ks

/-- Every call of the sequence is valid in the state it is made in. -/
def valid_calls (c : Cfg) : KState → List Call → Prop
  | _, [] => True
  | s, k :: ks => k.valid c s ∧ valid_calls c (k.apply c s) ks

/-- The number of calls of the sequence that allocate the record `e`. -/
def alloc_count (c : Cfg) (e : Nat) : KState → List Call → Nat
  | _, [] => 0
  | s, k :: ks =>
    (if k.allocated c s = some e then 1 else 0) + alloc_count c e (k.apply c s) ks

/-- The states the kernel reaches: `env_init` on any prior content, followed
by valid calls. -/
inductive Reachable (c : Cfg) : KState → Prop where
  | init (s0 : KState) : Reachable c (env_init c s0)
  | step (s : KState) (k : Call) : Reachable c s → k.valid c s → Reachable c (k.apply c s)

/-- Consecutive `env_alloc` calls whose page allocation succeeds; each entry
of the list gives the `parent_id` argument and the page obtained.  The result
lists the return values of the calls, in order, with the final state. -/
def env_alloc_seq (c : Cfg) : KState → List (Int × Nat) → List (Except Errno Nat) × KState
  | s, [] => ([], s)
  | s, (parent_id, pg) :: rest =>
    ((env_alloc c s parent_id (some pg)).1 ::
        (env_alloc_seq c (env_alloc c s parent_id (some pg)).2 rest).1,
      (env_alloc_seq c (env_alloc c s parent_id (some pg)).2 rest).2)

/-- The records `k .. NENV-1` are linked as `env_init` left them and the free
list starts at record `k` (it is empty when `k = NENV`). -/
def FreshFrom (c : Cfg) (s : KState) (k : Nat) : Prop :=
  s.env_free_list = (if k < NENV c then some k else none) ∧
  ∀ i, k ≤ i → i < NENV c →
    (s.envs i).env_link = if i = NENV c - 1 then none else some (i + 1)

/-- Allocate an environment with `env_alloc` and release the record `e` with
`env_free` right away (no user mapping was added in between, so
`env_pml4e[0]` is still zero and names page 0). -/
def alloc_free (c : Cfg) (e : Nat) (s : KState) : KState :=
  env_free (env_alloc c s 0 (some 1)).2 e [] 0

/-- The record a call hands to a new guest: the record stored by a successful
`env_guest_alloc`. -/
def Call.guest_created (c : Cfg) (s : KState) : Call → Option Nat
  | Call.guest_alloc parent_id p q r a b =>
    match (env_guest_alloc c s parent_id p q r a b).1 with
    | Except.ok e => some e
    | Except.error _ => none
  | _ => none

/-- The number of guests the calls of a sequence create. -/
def guest_count (c : Cfg) : KState → List Call → Nat
  | _, [] => 0
  | s, k :: ks =>
    (if (k.guest_created c s).isSome then 1 else 0) + guest_count c (k.apply c s) ks

/-- Create a guest with `env_guest_alloc` and release the record `e` with
`env_free` right away. -/
def guest_round (c : Cfg) (e : Nat) (s : KState) : KState :=
  env_free (env_guest_alloc c s 0 (some 1) (some 2) (some 3) (some 4) (some 5)).2 e [] 0

/-- Every record of the table with status `ENV_RUNNING` is `curenv`. -/
def RunningIsCurrent (c : Cfg) (s : KState) : Prop :=
  ∀ i, i < NENV c → (s.envs i).env_status = EnvStatus.ENV_RUNNING → s.curenv = some i

instance (c : Cfg) (s : KState) : Decidable (RunningIsCurrent c s) :=
  inferInstanceAs (Decidable (∀ i, i < NENV c →
    (s.envs i).env_status = EnvStatus.ENV_RUNNING → s.curenv = some i))

/-- The pages a sequence of acquisitions obtains before the first one that
fails, in order of acquisition. -/
def pages_acquired : List (Option Nat) → List Nat
  | some x :: l => x :: pages_acquired l
  | _ => []

/-- Function `env_guest_alloc(newenv_store, parent_id)` with a record of its calls of
`page_decref`: the same statements as `env_guest_alloc`, the second component
listing the pages handed to `page_decref`, in the order of the calls. -/
def env_guest_alloc_trace (c : Cfg) (s : KState) (parent_id : Int)
    (p q r a b : Option Nat) : (Except Errno Nat × KState) × List Nat :=
  match s.env_free_list with
  | none => ((Except.error Errno.E_NO_FREE_ENV, s), [])
  | some e =>
    let s := s.setEnv e { s.envs e with env_vmxinfo := VmxGuestInfo.zero }
    match p with
    | none => ((Except.error Errno.E_NO_MEM, s), [])
    | some p =>
      let s := { s with pp_ref := Function.update s.pp_ref p (0 + 1) }
      let s := s.setEnv e { s.envs e with env_pml4e := some p, env_cr3 := page2pa p }
      match q with
      | none =>
        -- page_decref(p);
        ((Except.error Errno.E_NO_MEM, page_decref s p), [p])
      | some q =>
        let s := page_incref s q
        let s := s.setEnv e
          { s.envs e with env_vmxinfo := { (s.envs e).env_vmxinfo with vmcs := some q } }
        match r with
        | none =>
          -- page_decref(p); page_decref(q);
          ((Except.error Errno.E_NO_MEM, page_decref (page_decref s p) q), [p, q])
        | some r =>
          let s := page_incref s r
          let s := s.setEnv e
            { s.envs e with env_vmxinfo :=
                { (s.envs e).env_vmxinfo with
                  msr_host_area := some r, msr_guest_area := some (r, PGSIZE / 2) } }
          match a with
          | none =>
            -- page_decref(p); page_decref(q); page_decref(r);
            ((Except.error Errno.E_NO_MEM, page_decref (page_decref (page_decref s p) q) r),
              [p, q, r])
          | some a =>
            let s := page_incref s a
            let s := s.setEnv e
              { s.envs e with env_vmxinfo := { (s.envs e).env_vmxinfo with io_bmap_a := some a } }
            match b with
            | none =>
              -- page_decref(p); page_decref(q); page_decref(r); page_decref(s);
              ((Except.error Errno.E_NO_MEM,
                page_decref (page_decref (page_decref (page_decref s p) q) r) a),
                [p, q, r, a])
            | some b =>
              let s := page_incref s b
              let s := s.setEnv e
                { s.envs e with env_vmxinfo :=
                    { (s.envs e).env_vmxinfo with io_bmap_b := some b } }
              let old := s.envs e
              let new : Env :=
                { old with
                  env_id := mkenvid c old.env_id e,
                  env_parent_id := parent_id,
                  env_type := EnvType.ENV_TYPE_GUEST,
                  env_status := EnvStatus.ENV_RUNNABLE,
                  env_vmxinfo := { old.env_vmxinfo with vcpunum := s.vcpu_count },
                  env_tf := Trapframe.zero,
                  env_pgfault_upcall := 0,
                  env_ipc_recving := false }
              ((Except.ok e,
                { s.setEnv e new with
                  vcpu_count := wrap32 (s.vcpu_count + 1),
                  env_free_list := old.env_link }), [])

/-! ## VM exits (`vmm/vmexits.c`) -/

/-- Modelled from the spec: constants and macros that `vmm/vmexits.c` takes
from headers that are not among the sources (`kern/kclock.h`, `vmm/vmx.h`,
`vmm/ept.h`, `kern/multiboot.h`, `inc/memlayout.h`, `kern/console.h`), as
parameters.  The six `VMX_VMCALL_*` numbers are the case labels of one
`switch` statement, hence pairwise distinct. -/
structure VmmCfg where
  /-- Port of the index register of the real-time clock. -/
  IO_RTC : Nat
  NVRAM_BASELO : Nat
  NVRAM_BASEHI : Nat
  NVRAM_EXTLO : Nat
  NVRAM_EXTHI : Nat
  EFER_MSR : Nat
  EFER_LME : Nat
  /-- Physical address of the CGA text buffer. -/
  CGA_BUF : Nat
  KERNBASE : Nat
  /-- Permission bits `__EPTE_FULL`. -/
  EPTE_FULL : Nat
  IOPHYSMEM : Nat
  EXTPHYSMEM : Nat
  MB_TYPE_USABLE : Nat
  MB_TYPE_RESERVED : Nat
  MB_FLAG_MMAP : Nat
  /-- Value of `sizeof(multiboot_info_t)`. -/
  SIZEOF_MBINFO : Nat
  /-- Value of `sizeof(memory_map_t)`. -/
  SIZEOF_MMAP : Nat
  VMX_VMCALL_MBMAP : Nat
  VMX_VMCALL_IPCSEND : Nat
  VMX_VMCALL_IPCRECV : Nat
  VMX_VMCALL_LAPICEOI : Nat
  VMX_VMCALL_BACKTOHOST : Nat
  VMX_VMCALL_GETDISKIMGNUM : Nat
  VMX_HOST_FS_ENV : Int
  /-- Flag bits `FL_IOPL_3` of `inc/mmu.h`. -/
  FL_IOPL_3 : Nat
  /-- The case labels of the `switch` of `handle_vmcall` are distinct. -/
  vmcall_distinct :
    [VMX_VMCALL_MBMAP, VMX_VMCALL_IPCSEND, VMX_VMCALL_IPCRECV, VMX_VMCALL_LAPICEOI,
     VMX_VMCALL_BACKTOHOST, VMX_VMCALL_GETDISKIMGNUM].Nodup

/-- The number of values of a `uint64_t`. -/
def U64 : Nat := 18446744073709551616

/-- The number of values of a `uint32_t`. -/
def U32 : Nat := 4294967296

/-- Subtraction `a - b` of `uint64_t` values, modulo `2^64`. -/
def sub64 (a b : Nat) : Nat := (U64 - b % U64 + a % U64) % U64

/-- Conversion of an `int` to `uint64_t`. -/
def int_to_u64 (x : Int) : Nat := (x % (U64 : Int)).toNat

/-- Modelled from the spec: the macro `BIT(val, n)` of `vmm/vmx.h` (not among
the sources), bit `n` of `val`. -/
def BIT (val n : Nat) : Bool := Nat.testBit val n

/-- Modelled from the spec: `page2kva(pp)` of `kern/pmap.h` (not among the
sources), the kernel virtual address of a page. -/
def page2kva (c : VmmCfg) (p : Nat) : Nat := c.KERNBASE + page2pa p

/-- Modelled from the spec: one entry of an MSR load/store area
(`struct vmx_msr_entry` of `vmm/vmx.h`, not among the sources), with the fields
the sources name. -/
structure MsrEntry where
  msr_index : Nat
  msr_value : Nat
  deriving DecidableEq, Repr

/-- Modelled from the spec: one descriptor of the multiboot memory map
(`memory_map_t` of `kern/multiboot.h`, not among the sources), with the fields
the sources name. -/
structure MemoryMap where
  size : Nat
  base_addr_low : Nat
  base_addr_high : Nat
  length_low : Nat
  length_high : Nat
  type : Nat
  deriving DecidableEq, Repr

/-- The 64-bit base address of a descriptor of the memory map,
`base_addr_high:base_addr_low`. -/
def MemoryMap.base (m : MemoryMap) : Nat := m.base_addr_low + 4294967296 * m.base_addr_high

/-- The 64-bit length of a descriptor of the memory map,
`length_high:length_low`. -/
def MemoryMap.length (m : MemoryMap) : Nat := m.length_low + 4294967296 * m.length_high

/-- Modelled from the spec: the fields of `multiboot_info_t`
(`kern/multiboot.h`, not among the sources) that `handle_vmcall` assigns; the
others are copied from an uninitialised local variable. -/
structure MbInfo where
  flags : Nat
  mmap_length : Nat
  mmap_addr : Nat
  deriving DecidableEq, Repr

/-- State touched by `vmm/vmexits.c`: the kernel state of `kern/env.c`, the
two static variables of the file (`vmdisk_number`, and `port_iortc` of
`handle_ioinstr`), the extended page table of the guest being served, as a
table from guest-physical addresses to host virtual address and permission
bits, and, for the pages `handle_vmcall` fills, the multiboot block written
at the start of the page. -/
structure VmmState where
  k : KState
  vmdisk_number : Int
  port_iortc : Int
  ept : Nat → Option (Nat × Nat)
  mbmem : Nat → Option (MbInfo × List MemoryMap)

/-- Function `vmx_get_vmdisk_number()`. -/
def vmx_get_vmdisk_number (s : VmmState) : Int := s.vmdisk_number

/-- Function `vmx_incr_vmdisk_number()`: `vmdisk_number++` on an `int`. -/
def vmx_incr_vmdisk_number (s : VmmState) : VmmState :=
  { s with vmdisk_number := wrap32 (s.vmdisk_number + 1) }

/-- Statement `tf->tf_rip += vmcs_read32(VMCS_32BIT_VMEXIT_INSTRUCTION_LENGTH)`;
`ilen` is the value read from the VMCS. -/
def advance_rip (tf : Trapframe) (ilen : Nat) : Trapframe :=
  { tf with tf_rip := (tf.tf_rip + ilen) % U64 }

/-- The loop of `find_msr_in_region` with `n` iterations left.  The loop
compares the entry `entry` points to and never moves the pointer. -/
def find_msr_in_region_loop (msr_idx : Nat) (area : Nat → MsrEntry) (entry : Nat) :
    Nat → Option Nat
  | 0 => none
  | n + 1 =>
    if (area entry).msr_index = msr_idx then some entry
    else find_msr_in_region_loop msr_idx area entry n

/-- Function `find_msr_in_region(msr_idx, area, area_sz, &msr_entry)`: `some i` when it
returns true having stored a pointer to entry `i` of the area, `none` when
it returns false.  `area` lists the entries of the area by position. -/
def find_msr_in_region (msr_idx : Nat) (area : Nat → MsrEntry) (area_sz : Int) : Option Nat :=
  find_msr_in_region_loop msr_idx area 0 area_sz.toNat

/-- Function `handle_rdmsr(tf, ginfo)`; `area` is the content of `ginfo->msr_guest_area`.
The result is `none` when `assert(r)` fails. -/
def handle_rdmsr (c : VmmCfg) (tf : Trapframe) (ginfo : VmxGuestInfo) (area : Nat → MsrEntry)
    (ilen : Nat) : Option (Bool × Trapframe) :=
  let msr := tf.tf_regs.reg_rcx
  if msr = c.EFER_MSR then
    match find_msr_in_region (msr % U32) area ginfo.msr_count with
    | none => none
    | some entry =>
      let val := (area entry).msr_value
      let tf := { tf with tf_regs := { tf.tf_regs with reg_rdx := (val <<< 32) % U64 } }
      let tf := { tf with tf_regs := { tf.tf_regs with reg_rax := val &&& 0xFFFFFFFF } }
      some (true, advance_rip tf ilen)
  else some (false, tf)

/-- Function `handle_wrmsr(tf, ginfo)`; `area` is the content of `ginfo->msr_guest_area`
and the result carries its new content.  The branch for the long-mode enable
bit writes back to the VMCS the value it has just read from it.  The result
is `none` when `assert(r)` fails. -/
def handle_wrmsr (c : VmmCfg) (tf : Trapframe) (ginfo : VmxGuestInfo) (area : Nat → MsrEntry)
    (ilen : Nat) : Option (Bool × Trapframe × (Nat → MsrEntry)) :=
  let msr := tf.tf_regs.reg_rcx
  if msr = c.EFER_MSR then
    match find_msr_in_region (msr % U32) area ginfo.msr_count with
    | none => none
    | some entry =>
      let new_val := ((tf.tf_regs.reg_rdx <<< 32) % U64) ||| tf.tf_regs.reg_rax
      let area := Function.update area entry { area entry with msr_value := new_val }
      some (true, advance_rip tf ilen, area)
  else some (false, tf, area)

/-- Modelled from the spec: the EPT mapping service
`ept_map_hva2gpa(eptrt, hva, gpa, perm, overwrite)` of `vmm/ept.c` (not among the
sources).  `r` is the result code of the call; when it is not negative the
table maps `gpa` to `hva` with the permission bits `perm`. -/
def ept_map_hva2gpa (ept : Nat → Option (Nat × Nat)) (hva gpa perm : Nat) (_overwrite : Int)
    (r : Int) : Nat → Option (Nat × Nat) :=
  if 0 ≤ r then Function.update ept gpa (some (hva, perm)) else ept

/-- Modelled from the spec: the macro `ROUNDDOWN(a, n)` of `inc/types.h` (not
among the sources), `a` rounded down to a multiple of `n`. -/
def ROUNDDOWN (a n : Nat) : Nat := a - a % n

/-- Function `handle_eptviolation(eptrt, ginfo)`.  `gpa` is the faulting guest-physical
address read from the VMCS, `pg` the result of `page_alloc(0)` and `r` the
result code of `ept_map_hva2gpa`.  The result is `none` when `assert(r >= 0)`
fails. -/
def handle_eptviolation (c : VmmCfg) (s : VmmState) (ginfo : VmxGuestInfo) (gpa : Nat)
    (pg : Option Nat) (r : Int) : Option (Bool × VmmState) :=
  if gpa < 0xA0000 ∨ (gpa ≥ 0x100000 ∧ gpa < ginfo.phys_sz) then
    match pg with
    | none => some (false, s)
    | some p =>
      let s := { s with k := page_incref s.k p }
      let s := { s with ept := ept_map_hva2gpa s.ept (page2kva c p) (ROUNDDOWN gpa PGSIZE)
                                 c.EPTE_FULL 0 r }
      if 0 ≤ r then some (true, s) else none
  else if gpa ≥ c.CGA_BUF ∧ gpa < c.CGA_BUF + PGSIZE then
    let s := { s with ept := ept_map_hva2gpa s.ept (c.KERNBASE + c.CGA_BUF) c.CGA_BUF
                               c.EPTE_FULL 0 r }
    if 0 ≤ r then some (true, s) else none
  else some (false, s)

/-- The part of `handle_ioinstr(tf, ginfo)` that precedes the final test of `handled`:
the value of `handled`, the trapframe and the state it leaves.
`qualification` is the exit qualification read from the VMCS.  The static
variable `port_iortc` is an `int`: the assignment from `reg_rax` keeps the
low 32 bits. -/
def ioinstr_emulate (c : VmmCfg) (s : VmmState) (tf : Trapframe) (ginfo : VmxGuestInfo)
    (qualification : Nat) : Bool × Trapframe × VmmState :=
  let port_number := (qualification >>> 16) &&& 0xFFFF
  let is_in := BIT qualification 3
  if port_number = c.IO_RTC then
    if ¬ is_in then
      (true, tf, { s with port_iortc := ofU32 (tf.tf_regs.reg_rax % U32) })
    else (false, tf, s)
  else if port_number = c.IO_RTC + 1 then
    if is_in then
      if s.port_iortc = (c.NVRAM_BASELO : Int) then
        (true, { tf with tf_regs := { tf.tf_regs with reg_rax := 640 &&& 0xFF } }, s)
      else if s.port_iortc = (c.NVRAM_BASEHI : Int) then
        (true, { tf with tf_regs := { tf.tf_regs with reg_rax := (640 >>> 8) &&& 0xFF } }, s)
      else if s.port_iortc = (c.NVRAM_EXTLO : Int) then
        (true, { tf with tf_regs := { tf.tf_regs with
          reg_rax := (sub64 (ginfo.phys_sz / 1024) 1024) &&& 0xFF } }, s)
      else if s.port_iortc = (c.NVRAM_EXTHI : Int) then
        (true, { tf with tf_regs := { tf.tf_regs with
          reg_rax := ((sub64 (ginfo.phys_sz / 1024) 1024) >>> 8) &&& 0xFF } }, s)
      else (false, tf, s)
    else (false, tf, s)
  else (false, tf, s)

/-- Function `handle_ioinstr(tf, ginfo)`: the emulation, then `tf_rip` is advanced when
the exit was handled. -/
def handle_ioinstr (c : VmmCfg) (s : VmmState) (tf : Trapframe) (ginfo : VmxGuestInfo)
    (qualification ilen : Nat) : Bool × Trapframe × VmmState :=
  let r := ioinstr_emulate c s tf ginfo qualification
  if r.1 then (true, advance_rip r.2.1 ilen, r.2.2) else (false, r.2.1, r.2.2)

/-- The four registers the `cpuid` instruction fills. -/
structure CpuidRegs where
  eax : Nat
  ebx : Nat
  ecx : Nat
  edx : Nat
  deriving DecidableEq, Repr

/-- Function `handle_cpuid(tf, ginfo)`.  `cpuid` is the instruction of the processor
(`cpuid` of `inc/x86.h`); its results are stored in `uint32_t` variables. -/
def handle_cpuid (cpuid : Nat → CpuidRegs) (tf : Trapframe) (ilen : Nat) : Bool × Trapframe :=
  let inp := tf.tf_regs.reg_rax % U32
  let eax := (cpuid inp).eax % U32
  let ebx := (cpuid inp).ebx % U32
  let ecx := (cpuid inp).ecx % U32
  let edx := (cpuid inp).edx % U32
  -- ecx &= ~(1 << 5)
  let ecx := if inp = 1 then ecx &&& (U32 - 1 - (1 <<< 5)) else ecx
  let tf := { tf with tf_regs := { tf.tf_regs with reg_rax := eax } }
  let tf := { tf with tf_regs := { tf.tf_regs with reg_rbx := ebx } }
  let tf := { tf with tf_regs := { tf.tf_regs with reg_rcx := ecx } }
  let tf := { tf with tf_regs := { tf.tf_regs with reg_rdx := edx } }
  (true, advance_rip tf ilen)

/-- Function `env_create(binary, type)` of `kern/env.c`.  `pg` is the result of
`page_alloc` in `env_setup_vm`.  `load_icode` reads the image and builds
mappings through page-table services the state does not model: the argument
`load_icode` gives the state it leaves, `none` when it panics.  The result
is `none` when `env_create` panics. -/
def env_create (c : Cfg) (FL_IOPL_3 : Nat) (s : KState) (type : EnvType) (pg : Option Nat)
    (load_icode : KState → Nat → Option KState) : Option KState :=
  match env_alloc c s 0 pg with
  | (Except.error _, _) => none
  | (Except.ok e, s) =>
    match load_icode s e with
    | none => none
    | some s =>
      let s := s.setEnv e { s.envs e with env_type := type }
      if type = EnvType.ENV_TYPE_FS then
        s.setEnv e { s.envs e with
          env_tf := { (s.envs e).env_tf with
            tf_eflags := (s.envs e).env_tf.tf_eflags ||| FL_IOPL_3 } }
      else s

/-- Answers of the services `handle_vmcall` calls, which are not among the
sources. -/
structure VmcallServices where
  /-- Result of `page_alloc(ALLOC_ZERO)`. -/
  page : Option Nat
  /-- Result code of `ept_map_hva2gpa`. -/
  map_result : Int
  /-- Value `ept_gpa2hva(eptrt, gpa_page, &hva_pg)` leaves in `hva_pg`. -/
  gpa2hva : Nat → Nat
  /-- Kernel state left by `syscall(SYS_ipc_try_send, tgt_env, val, hva_pg, perm, 0)`. -/
  ipc_try_send : KState → Int → Nat → Nat → Int → KState
  /-- Kernel state left by `syscall(SYS_ipc_recv, dstva, 0, 0, 0, 0)` and the value
  it returns, `none` when it does not return because the environment has been
  descheduled. -/
  ipc_recv : KState → Nat → KState × Option Nat
  /-- Result of `page_alloc` for the environment `ENV_CREATE` allocates. -/
  env_page : Option Nat
  /-- State left by `load_icode` in `env_create`. -/
  load_icode : KState → Nat → Option KState

/-- Where the `switch` statement of `handle_vmcall` leaves control: at the
end of the statement with the value of `handled` (`done`), in a `return`
inside it (`early`), or nowhere in the handler (`stuck`) because the kernel
stops in a panic or a fault or `sys_ipc_recv` has descheduled the
environment.  Each carries the trapframe and the state as left at that
point. -/
inductive VmcallSwitch where
  | done (handled : Bool) (tf : Trapframe) (s : VmmState)
  | early (r : Bool) (tf : Trapframe) (s : VmmState)
  | stuck (tf : Trapframe) (s : VmmState)

/-- The trapframe as the `switch` statement leaves it. -/
def VmcallSwitch.tf : VmcallSwitch → Trapframe
  | VmcallSwitch.done _ tf _ => tf
  | VmcallSwitch.early _ tf _ => tf
  | VmcallSwitch.stuck tf _ => tf

/-- The state as the `switch` statement leaves it. -/
def VmcallSwitch.state : VmcallSwitch → VmmState
  | VmcallSwitch.done _ _ s => s
  | VmcallSwitch.early _ _ s => s
  | VmcallSwitch.stuck _ s => s

/-- How a call of `handle_vmcall` ends: it returns `handled` with the
trapframe and the state it leaves, or control does not come back to the
caller, with the trapframe and the state as left at that point. -/
inductive VmcallOutcome where
  | returned (handled : Bool) (tf : Trapframe) (s : VmmState)
  | noreturn (tf : Trapframe) (s : VmmState)

/-- The value `handle_vmcall` returns, `none` when it does not return. -/
def VmcallOutcome.handled : VmcallOutcome → Option Bool
  | VmcallOutcome.returned h _ _ => some h
  | VmcallOutcome.noreturn _ _ => none

/-- The trapframe `handle_vmcall` leaves. -/
def VmcallOutcome.tf : VmcallOutcome → Trapframe
  | VmcallOutcome.returned _ tf _ => tf
  | VmcallOutcome.noreturn tf _ => tf

/-- The state `handle_vmcall` leaves. -/
def VmcallOutcome.state : VmcallOutcome → VmmState
  | VmcallOutcome.returned _ _ s => s
  | VmcallOutcome.noreturn _ s => s

/-- The call `syscall(SYS_ipc_try_send, tgt_env, val, hva_pg, perm, 0)` of the case
`VMX_VMCALL_IPCSEND`, preceded by `ept_gpa2hva(eptrt, gpa_page, &hva_pg)`. -/
def vmcall_ipc_send (o : VmcallServices) (s : VmmState) (tf : Trapframe) (tgt_env : Int)
    (val : Nat) (gpa_page : Nat) (perm : Int) : VmcallSwitch :=
  let hva_pg := o.gpa2hva gpa_page
  VmcallSwitch.done true tf { s with k := o.ipc_try_send s.k tgt_env val hva_pg perm }

/-- The `switch (tf->tf_regs.reg_rax)` statement of `handle_vmcall(tf, gInfo, eptrt)`. -/
def vmcall_switch (kc : Cfg) (c : VmmCfg) (s : VmmState) (tf : Trapframe) (gInfo : VmxGuestInfo)
    (ilen : Nat) (o : VmcallServices) : VmcallSwitch :=
  let multiboot_map_addr : Nat := 0x6000
  if tf.tf_regs.reg_rax = c.VMX_VMCALL_MBMAP then
    let arr : List MemoryMap :=
      [ { size := 20, base_addr_low := 0x0, base_addr_high := 0x0,
          length_low := c.IOPHYSMEM % U32, length_high := 0x0, type := c.MB_TYPE_USABLE % U32 },
        { size := 20, base_addr_low := c.IOPHYSMEM % U32, base_addr_high := 0x0,
          length_low := 0x60000, length_high := 0x0, type := c.MB_TYPE_RESERVED % U32 },
        { size := 20, base_addr_low := c.EXTPHYSMEM % U32, base_addr_high := 0x0,
          length_low := ((sub64 gInfo.phys_sz c.EXTPHYSMEM) % U32) &&& 0xffffffff,
          length_high := (((sub64 gInfo.phys_sz c.EXTPHYSMEM) >>> 32) % U32) &&& 0xffffffff,
          type := c.MB_TYPE_USABLE % U32 } ]
    let mbinfo : MbInfo :=
      { flags := c.MB_FLAG_MMAP % U32, mmap_length := (3 * c.SIZEOF_MMAP) % U32,
        mmap_addr := (multiboot_map_addr + c.SIZEOF_MBINFO) % U32 }
    match o.page with
    | none => VmcallSwitch.early false tf s
    | some temp_page =>
      let s := { s with k := page_incref s.k temp_page }
      let host_va := page2kva c temp_page
      let s := { s with mbmem := Function.update s.mbmem temp_page (some (mbinfo, arr)) }
      let s := { s with ept := ept_map_hva2gpa s.ept host_va multiboot_map_addr c.EPTE_FULL 1
                                 o.map_result }
      let tf := { tf with tf_regs := { tf.tf_regs with reg_rbx := multiboot_map_addr } }
      VmcallSwitch.done true tf s
  else if tf.tf_regs.reg_rax = c.VMX_VMCALL_IPCSEND then
    let val := tf.tf_regs.reg_rcx % U32
    let perm := ofU32 (tf.tf_regs.reg_rsi % U32)
    let tgt_env := ofU32 (tf.tf_regs.reg_rbx % U32)
    let gpa_page := tf.tf_regs.reg_rdx
    if tgt_env = c.VMX_HOST_FS_ENV then
      match s.k.curenv with
      | none => VmcallSwitch.stuck tf s
      | some cur =>
        if (s.k.envs cur).env_type = EnvType.ENV_TYPE_GUEST then
          match (List.range (NENV kc)).find?
              (fun i => decide ((s.k.envs i).env_type = EnvType.ENV_TYPE_FS)) with
          | some i => vmcall_ipc_send o s tf (s.k.envs i).env_id val gpa_page perm
          | none => vmcall_ipc_send o s tf tgt_env val gpa_page perm
        else vmcall_ipc_send o s tf tgt_env val gpa_page perm
    else vmcall_ipc_send o s tf tgt_env val gpa_page perm
  else if tf.tf_regs.reg_rax = c.VMX_VMCALL_IPCRECV then
    let tf := advance_rip tf ilen
    match o.ipc_recv s.k tf.tf_regs.reg_rbx with
    | (k, none) => VmcallSwitch.stuck tf { s with k := k }
    | (k, some ret) =>
      VmcallSwitch.done true { tf with tf_regs := { tf.tf_regs with reg_rax := ret % U64 } }
        { s with k := k }
  else if tf.tf_regs.reg_rax = c.VMX_VMCALL_LAPICEOI then
    VmcallSwitch.done true tf s
  else if tf.tf_regs.reg_rax = c.VMX_VMCALL_BACKTOHOST then
    match s.k.curenv with
    | none => VmcallSwitch.stuck tf s
    | some cur =>
      let k := s.k.setEnv cur { s.k.envs cur with env_status := EnvStatus.ENV_NOT_RUNNABLE }
      match env_create kc c.FL_IOPL_3 k EnvType.ENV_TYPE_USER o.env_page o.load_icode with
      | none => VmcallSwitch.stuck tf { s with k := k }
      | some k => VmcallSwitch.done true tf { s with k := k }
  else if tf.tf_regs.reg_rax = c.VMX_VMCALL_GETDISKIMGNUM then
    VmcallSwitch.done true
      { tf with tf_regs := { tf.tf_regs with reg_rax := int_to_u64 s.vmdisk_number } } s
  else VmcallSwitch.done false tf s

/-- Function `handle_vmcall(tf, gInfo, eptrt)`: the `switch` statement, then `tf_rip` is
advanced when `handled` is set, and `handled` is returned. -/
def handle_vmcall (kc : Cfg) (c : VmmCfg) (s : VmmState) (tf : Trapframe) (gInfo : VmxGuestInfo)
    (ilen : Nat) (o : VmcallServices) : VmcallOutcome :=
  match vmcall_switch kc c s tf gInfo ilen o with
  | VmcallSwitch.done handled tf s =>
    VmcallOutcome.returned handled (if handled then advance_rip tf ilen else tf) s
  | VmcallSwitch.early r tf s => VmcallOutcome.returned r tf s
  | VmcallSwitch.stuck tf s => VmcallOutcome.noreturn tf s

/-- An operation on the state of the monitor: a lifecycle operation of
`kern/env.c` on the kernel state, a call of `vmx_incr_vmdisk_number`, or a
hypercall served by `handle_vmcall`. -/
inductive VmmOp where
  | env (k : Call)
  | incr_vmdisk
  | vmcall (tf : Trapframe) (gInfo : VmxGuestInfo) (ilen : Nat) (o : VmcallServices)

/-- The state an operation leaves. -/
def VmmOp.apply (kc : Cfg) (c : VmmCfg) (s : VmmState) : VmmOp → VmmState
  | VmmOp.env k => { s with k := k.apply kc s.k }
  | VmmOp.incr_vmdisk => vmx_incr_vmdisk_number s
  | VmmOp.vmcall tf gInfo ilen o => (handle_vmcall kc c s tf gInfo ilen o).state

/-- The state after a sequence of operations. -/
def run_ops (kc : Cfg) (c : VmmCfg) : VmmState → List VmmOp → VmmState
  | s, [] => s
  | s, op :: ops => run_ops kc c (op.apply kc c s) ops

/-- The number of calls of `vmx_incr_vmdisk_number` in a sequence of
operations. -/
def incr_count : List VmmOp → Nat
  | [] => 0
  | VmmOp.incr_vmdisk :: ops => incr_count ops + 1
  | _ :: ops => incr_count ops

/-! ## The guest loader (`user/vmm.c`) -/

/-- State of the guest loader as `map_in_guest` sees it: the offset of the open
file, and the pages installed in guest-physical memory, by page-aligned
guest-physical address, each with its content (the byte at each offset of
the page). -/
structure LoaderState where
  pos : Nat
  guest : Nat → Option (Nat → Nat)

/-- Modelled from the spec: the answers of the calls `map_in_guest` makes into
code that is not among the sources (`seek` and `readn` of the file library,
the system calls `sys_page_alloc` and `sys_ept_map`), and the error code `E_INVAL` of
`inc/error.h`.  The answers may differ from one iteration of the loop to the
next: they are given by the value of the loop counter `i`.  A successful
`seek` sets the offset of the file; `readn` returns the number of bytes it has
read from the offset of the file into the buffer; a successful `sys_ept_map`
installs the page mapped at `srcva` at the guest-physical address given. -/
structure LoaderServices where
  E_INVAL : Int
  /-- Result of `seek(fd, fileoffset)`. -/
  seek : Int
  /-- Result of `sys_page_alloc(0, srcva, PTE_P | PTE_U | PTE_W)`. -/
  page_alloc : Nat → Int
  /-- Content of the page `sys_page_alloc` maps at `srcva`. -/
  fresh : Nat → Nat → Nat
  /-- Result of `readn(fd, srcva, size_to_read)`. -/
  readn : Nat → Int
  /-- Result of `sys_ept_map(...)`. -/
  ept_map : Nat → Int

/-- How one iteration of the loop of `map_in_guest` ends: in a `return` with a
value, or at the end of the body. -/
inductive LoopStep where
  | ret (r : Int) (st : LoaderState)
  | next (st : LoaderState)

/-- The body of the loop of `map_in_guest` for the counter value `i`.  `file`
gives the bytes of the file by offset.  The page mapped at `UTEMP` for the
duration of the iteration is the local value `page`. -/
def map_in_guest_body (sv : LoaderServices) (file : Nat → Nat) (gpa_start filesz i : Nat)
    (st : LoaderState) : LoopStep :=
  let r := sv.page_alloc i
  if r < 0 then LoopStep.ret r st
  else
    let page := sv.fresh i
    let bytes_remaining_file := if i < filesz then filesz - i else 0
    let size_to_read := if bytes_remaining_file < PGSIZE then bytes_remaining_file else PGSIZE
    -- the page and the state after `if (size_to_read > 0) { ... readn ... }`
    let rd : Option ((Nat → Nat) × LoaderState) :=
      if size_to_read > 0 then
        let r := sv.readn i
        if int_to_u64 r ≠ size_to_read then none
        else
          some (fun b => if b < size_to_read then file (st.pos + b) else page b,
                { st with pos := st.pos + size_to_read })
      else some (page, st)
    match rd with
    | none => LoopStep.ret (-sv.E_INVAL) { st with pos := st.pos + (sv.readn i).toNat }
    | some (page, st) =>
      -- memset((char*)srcva + size_to_read, 0, PGSIZE - size_to_read);
      let page :=
        if size_to_read < PGSIZE then
          fun b => if size_to_read ≤ b ∧ b < PGSIZE then 0 else page b
        else page
      let r := sv.ept_map i
      if r < 0 then LoopStep.ret r st
      else
        LoopStep.next
          { st with guest := Function.update st.guest ((gpa_start + i) % U64) (some page) }

/-- The loop `for (i = 0; i < memsz; i += PGSIZE)` of `map_in_guest` from the counter
value `i`, with at most `fuel` evaluations of the loop condition; `none` when
they do not suffice.  The counter is a `size_t`. -/
def map_in_guest_loop (sv : LoaderServices) (file : Nat → Nat) (gpa_start memsz filesz : Nat) :
    Nat → Nat → LoaderState → Option (Int × LoaderState)
  | 0, _, _ => none
  | fuel + 1, i, st =>
    if i < memsz then
      match map_in_guest_body sv file gpa_start filesz i st with
      | LoopStep.ret r st => some (r, st)
      | LoopStep.next st =>
        map_in_guest_loop sv file gpa_start memsz filesz fuel ((i + PGSIZE) % U64) st
    else some (0, st)

/-- Function `map_in_guest(guest, gpa, memsz, fd, filesz, fileoffset)` of `user/vmm.c`: the
value returned and the state left, `none` when `fuel` evaluations of the
loop condition do not suffice. -/
def map_in_guest (sv : LoaderServices) (file : Nat → Nat) (fuel : Nat) (st : LoaderState)
    (gpa memsz filesz fileoffset : Nat) : Option (Int × LoaderState) :=
  let gpa_start := gpa
  let r := sv.seek
  if r < 0 then some (r, st)
  else map_in_guest_loop sv file gpa_start memsz filesz fuel 0 { st with pos := fileoffset }

/-- The byte of guest-physical memory at the address `addr`, when a page is
installed there. -/
def guest_byte (st : LoaderState) (addr : Nat) : Option Nat :=
  match st.guest (ROUNDDOWN addr PGSIZE) with
  | some page => some (page (addr % PGSIZE))
  | none => none

/-! ## Sample configurations and states -/

/-- A configuration with the customary table of 1024 environments. -/
def cfg1024 : Cfg :=
  { LOG2NENV := 10, LOG2NENV_le := by decide, USTACKTOP := 0xef7fe000, FL_IF := 0x200 }

/-- A configuration with a table of four environments. -/
def cfg4 : Cfg :=
  { LOG2NENV := 2, LOG2NENV_le := by decide, USTACKTOP := 0xef7fe000, FL_IF := 0x200 }

/-- The state at boot before `env_init`: a cleared table, no current
environment, no page referenced. -/
def boot : KState :=
  { envs := fun _ => Env.zero, env_free_list := none, curenv := none, vcpu_count := 0,
    pp_ref := fun _ => 0, cr3 := 0, boot_cr3 := 0 }

/-- A state with four records: slot 1 holds a running environment with
identity `0x1001`, slot 2 a runnable child of it with identity `0x2002`, and
slots 0 and 3 are free. -/
def sampleState : KState :=
  { envs := fun i =>
      if i = 1 then
        { Env.zero with env_id := 0x1001, env_status := EnvStatus.ENV_RUNNING }
      else if i = 2 then
        { Env.zero with env_id := 0x2002, env_parent_id := 0x1001,
                        env_status := EnvStatus.ENV_RUNNABLE }
      else if i = 0 then { Env.zero with env_link := some 3 }
      else Env.zero,
    env_free_list := some 0, curenv := some 1, vcpu_count := 0, pp_ref := fun _ => 0,
    cr3 := 0, boot_cr3 := 0 }

/-- The sample state with `INT32_MAX` left as identity in the free record 0. -/
def sampleStateMax : KState :=
  { sampleState with
    envs := Function.update sampleState.envs 0
      { sampleState.envs 0 with env_id := 2147483647 } }

/-- The state after `env_init` on the cleared table of four records and two
allocations. -/
def twoAllocated : KState :=
  (Call.alloc 0 (some 8)).apply cfg4 ((Call.alloc 0 (some 7)).apply cfg4 (env_init cfg4 boot))

/-- A running record that is not the current environment of this processor:
record 2 of the sample state marked `ENV_RUNNING` (it runs on another
processor), with its address-space root in page 9 and two references to
that page. -/
def sampleRunningElsewhere : KState :=
  { sampleState with
    envs := Function.update sampleState.envs 2
      { sampleState.envs 2 with
        env_status := EnvStatus.ENV_RUNNING, env_pml4e := some 9, env_cr3 := page2pa 9 },
    pp_ref := Function.update sampleState.pp_ref 9 2 }

/-- The values the constants of `VmmCfg` customarily have in this kernel. -/
def vmmCfg : VmmCfg :=
  { IO_RTC := 0x70, NVRAM_BASELO := 0x15, NVRAM_BASEHI := 0x16, NVRAM_EXTLO := 0x17,
    NVRAM_EXTHI := 0x18, EFER_MSR := 0xC0000080, EFER_LME := 8, CGA_BUF := 0xB8000,
    KERNBASE := 0x8004000000, EPTE_FULL := 7, IOPHYSMEM := 0xA0000, EXTPHYSMEM := 0x100000,
    MB_TYPE_USABLE := 1, MB_TYPE_RESERVED := 2, MB_FLAG_MMAP := 0x40, SIZEOF_MBINFO := 88,
    SIZEOF_MMAP := 24, VMX_VMCALL_MBMAP := 1, VMX_VMCALL_IPCSEND := 2, VMX_VMCALL_IPCRECV := 3,
    VMX_VMCALL_LAPICEOI := 4, VMX_VMCALL_BACKTOHOST := 5, VMX_VMCALL_GETDISKIMGNUM := 6,
    VMX_HOST_FS_ENV := 1, FL_IOPL_3 := 0x3000, vmcall_distinct := by decide }

/-- The state of `vmm/vmexits.c` at boot: `vmdisk_number` is initialised to 0,
the static `port_iortc` is zero, nothing is mapped. -/
def vmmBoot : VmmState :=
  { k := boot, vmdisk_number := 0, port_iortc := 0, ept := fun _ => none,
    mbmem := fun _ => none }

/-- A guest control block with 64 MiB of guest-physical memory. -/
def guest64M : VmxGuestInfo := { VmxGuestInfo.zero with phys_sz := 0x4000000 }

/-- Services that refuse pages and whose system calls return 0 leaving the
kernel state as it is. -/
def idleServices : VmcallServices :=
  { page := none, map_result := 0, gpa2hva := fun a => a,
    ipc_try_send := fun k _ _ _ _ => k, ipc_recv := fun k _ => (k, some 0),
    env_page := none, load_icode := fun k _ => some k }


/-- A trapframe with `reg_rax = 0x17`, the index of the low byte of the
extended memory size. -/
def tfSelectExtLo : Trapframe :=
  { Trapframe.zero with tf_regs := { Trapframe.zero.tf_regs with reg_rax := 0x17 } }

/-- A trapframe with `reg_rax = 0x18`, the index of the high byte of the
extended memory size. -/
def tfSelectExtHi : Trapframe :=
  { Trapframe.zero with tf_regs := { Trapframe.zero.tf_regs with reg_rax := 0x18 } }

/-- A trapframe with `reg_rax = 6`, the number of the hypercall
`VMX_VMCALL_GETDISKIMGNUM`, for an instruction at `0x1000`. -/
def tfGetDiskImgNum : Trapframe :=
  { Trapframe.zero with
    tf_regs := { Trapframe.zero.tf_regs with reg_rax := 6 }, tf_rip := 0x1000 }

/-- The state of the monitor once `env_init` has run on the cleared table of
four records. -/
def vmmInit : VmmState := { vmmBoot with k := env_init cfg4 boot }

/-- An MSR area of two entries: entry 0 describes the MSR `0x10`, entry 1 the
MSR `0xC0000080` (EFER) with value `0x500`. -/
def msrAreaEferSecond : Nat → MsrEntry :=
  fun i => if i = 1 then { msr_index := 0xC0000080, msr_value := 0x500 }
           else { msr_index := 0x10, msr_value := 0 }

/-- An MSR area whose entry 0 describes the MSR `0xC0000080` (EFER), with
value 0. -/
def msrAreaEfer : Nat → MsrEntry :=
  fun _ => { msr_index := 0xC0000080, msr_value := 0 }

/-- A guest control block of 64 MiB with one entry in its MSR area. -/
def guestOneMsr : VmxGuestInfo := { guest64M with msr_count := 1 }

/-- A trapframe of `wrmsr` for EFER with the value `0x500` in `rdx:rax`. -/
def tfWrmsrEfer : Trapframe :=
  { Trapframe.zero with
    tf_regs := { Trapframe.zero.tf_regs with
      reg_rcx := 0xC0000080, reg_rdx := 0, reg_rax := 0x500 } }

/-- A trapframe of `rdmsr` for EFER. -/
def tfRdmsrEfer : Trapframe :=
  { Trapframe.zero with tf_regs := { Trapframe.zero.tf_regs with reg_rcx := 0xC0000080 } }

/-- A trapframe with `reg_rax = 0x15`, the index of the low byte of the base
memory size. -/
def tfSelectBaseLo : Trapframe :=
  { Trapframe.zero with tf_regs := { Trapframe.zero.tf_regs with reg_rax := 0x15 } }

/-- A guest control block with 128 MiB of guest-physical memory. -/
def guest128M : VmxGuestInfo := { VmxGuestInfo.zero with phys_sz := 0x8000000 }

/-- A trapframe with `reg_rax = 1`, the number of the hypercall
`VMX_VMCALL_MBMAP`, for an instruction at `0x1000`. -/
def tfMbmap : Trapframe :=
  { Trapframe.zero with
    tf_regs := { Trapframe.zero.tf_regs with reg_rax := 1 }, tf_rip := 0x1000 }

/-- Services whose allocator hands out page 9. -/
def page9Services : VmcallServices := { idleServices with page := some 9 }

/-- Services of the loader that always succeed, for a file region of `filesz`
bytes: `readn` returns the number of bytes asked for. -/
def loaderOk (filesz : Nat) : LoaderServices :=
  { E_INVAL := 3, seek := 0, page_alloc := fun _ => 0, fresh := fun _ _ => 0xCC,
    readn := fun i => ((if filesz - i < PGSIZE then filesz - i else PGSIZE : Nat) : Int),
    ept_map := fun _ => 0 }

/-- The loader before anything is mapped. -/
def loaderBoot : LoaderState := { pos := 0, guest := fun _ => none }

/-- A file whose byte at offset `k` is `k % 251`. -/
def sampleFile : Nat → Nat := fun k => k % 251

/-- Arguments of 1024 allocations, the i-th of which obtains page `i + 1`. -/
def fullArgs : List (Int × Nat) := (List.range 1024).map (fun i => ((0 : Int), i + 1))

/-! ## 32-bit arithmetic -/

theorem toU32_lt (x : Int) : toU32 x < 4294967296 := by
  unfold toU32
  omega

theorem toU32_natCast (n : Nat) (h : n < 4294967296) : toU32 (n : Int) = n := by
  unfold toU32
  omega

theorem ofU32_of_lt (n : Nat) (h : n < 2147483648) : ofU32 n = (n : Int) := by
  unfold ofU32
  have h1 : n % 4294967296 = n := Nat.mod_eq_of_lt (by omega)
  rw [h1, if_pos h]

theorem toU32_ofU32 (n : Nat) : toU32 (ofU32 n) = n % 4294967296 := by
  unfold toU32 ofU32
  split <;> omega

theorem ofU32_toU32 (x : Int) (h1 : -2147483648 ≤ x) (h2 : x < 2147483648) :
    ofU32 (toU32 x) = x := by
  unfold toU32 ofU32
  split <;> omega

theorem NENV_eq (c : Cfg) : NENV c = 2 ^ c.LOG2NENV := by
  unfold NENV
  exact Nat.one_shiftLeft _

theorem NENV_pos (c : Cfg) : 0 < NENV c := by
  rw [NENV_eq]
  exact Nat.two_pow_pos _

theorem NENV_le (c : Cfg) : NENV c ≤ 4096 := by
  rw [NENV_eq]
  have h := c.LOG2NENV_le
  have h2 : 2 ^ c.LOG2NENV ≤ 2 ^ ENVGENSHIFT := Nat.pow_le_pow_right (by decide) h
  simpa [ENVGENSHIFT] using h2

theorem NENV_dvd (c : Cfg) : NENV c ∣ 4096 := by
  rw [NENV_eq]
  have h := c.LOG2NENV_le
  have h2 : 2 ^ c.LOG2NENV ∣ 2 ^ ENVGENSHIFT := Nat.pow_dvd_pow 2 h
  simpa [ENVGENSHIFT] using h2

/-- Clearing the low `L` bits of a 32-bit pattern with the mask `~(2^L - 1)`. -/
theorem and_high_mask (x L : Nat) (hx : x < 2 ^ 32) (hL : L ≤ 32) :
    x &&& (2 ^ 32 - 2 ^ L) = x - x % 2 ^ L := by
  have hpow : 2 ^ L ≤ 2 ^ 32 := Nat.pow_le_pow_right (by decide) hL
  have hpos : 0 < 2 ^ L := Nat.two_pow_pos L
  have hrhs : x - x % 2 ^ L = 2 ^ L * (x / 2 ^ L) := by
    have := Nat.div_add_mod x (2 ^ L)
    omega
  rw [hrhs]
  apply Nat.eq_of_testBit_eq
  intro i
  have hm : 2 ^ 32 - 2 ^ L = 2 ^ 32 - ((2 ^ L - 1) + 1) := by omega
  have hlt : 2 ^ L - 1 < 2 ^ 32 := by omega
  rw [Nat.testBit_and, hm, Nat.testBit_two_pow_sub_succ hlt, Nat.testBit_two_pow_sub_one,
    Nat.testBit_mul_pow_two, ← Nat.shiftRight_eq_div_pow, Nat.testBit_shiftRight]
  by_cases h1 : i < 32
  · by_cases h2 : L ≤ i
    · have h3 : ¬ i < L := by omega
      have h4 : L + (i - L) = i := by omega
      simp [h1, h2, h3, h4]
    · have h3 : i < L := by omega
      simp [h1, h2, h3]
  · have h5 : x.testBit i = false := by
      apply Nat.testBit_lt_two_pow
      exact Nat.lt_of_lt_of_le hx (Nat.pow_le_pow_right (by decide) (by omega))
    have h6 : L ≤ i := by omega
    have h4 : L + (i - L) = i := by omega
    simp [h1, h5, h6, h4]

theorem toU32_NENV_pred (c : Cfg) : toU32 ((NENV c : Int) - 1) = NENV c - 1 := by
  have h1 := NENV_pos c
  have h2 := NENV_le c
  unfold toU32
  omega

theorem toU32_not32_NENV_pred (c : Cfg) :
    toU32 (not32 ((NENV c : Int) - 1)) = 2 ^ 32 - 2 ^ c.LOG2NENV := by
  have h1 := NENV_pos c
  have h2 := NENV_le c
  unfold not32
  rw [toU32_ofU32, toU32_NENV_pred, ← NENV_eq]
  omega

theorem ENVX_eq (c : Cfg) (envid : Int) :
    ENVX c envid = ((toU32 envid % NENV c : Nat) : Int) := by
  unfold ENVX and32
  rw [toU32_NENV_pred, NENV_eq, Nat.and_pow_two_sub_one_eq_mod, ← NENV_eq]
  apply ofU32_of_lt
  have h1 := NENV_pos c
  have h2 := NENV_le c
  have h3 := Nat.mod_lt (toU32 envid) h1
  omega

/-- The bits above the slot index of an identity: `id & ~(NENV - 1)`. -/
theorem and32_high_eq (c : Cfg) (x : Int) :
    and32 x (not32 ((NENV c : Int) - 1)) = ofU32 (toU32 x - toU32 x % NENV c) := by
  unfold and32
  rw [toU32_not32_NENV_pred, and_high_mask _ _ (toU32_lt x), ← NENV_eq]
  have h := c.LOG2NENV_le
  unfold ENVGENSHIFT at h
  omega

theorem generation_eq (c : Cfg) (old : Int) :
    generation c old =
      if 0 < toU32 (old + 4096) - toU32 (old + 4096) % NENV c ∧
          toU32 (old + 4096) - toU32 (old + 4096) % NENV c < 2147483648 then
        ((toU32 (old + 4096) - toU32 (old + 4096) % NENV c : Nat) : Int)
      else 4096 := by
  have hs : ((1 <<< ENVGENSHIFT : Nat) : Int) = 4096 := by decide
  unfold generation
  simp only [hs]
  rw [and32_high_eq]
  have hw : toU32 (wrap32 (old + 4096)) = toU32 (old + 4096) := by
    unfold wrap32
    rw [toU32_ofU32]
    exact Nat.mod_eq_of_lt (toU32_lt _)
  rw [hw]
  have hm : toU32 (old + 4096) - toU32 (old + 4096) % NENV c < 4294967296 := by
    have := toU32_lt (old + 4096)
    omega
  generalize toU32 (old + 4096) - toU32 (old + 4096) % NENV c = m at hm
  unfold ofU32
  split <;> split <;> split <;> omega

/-- The generation chosen for a new identity is a positive multiple of `NENV`
below `2^31`. -/
theorem generation_spec (c : Cfg) (old : Int) :
    ∃ G : Nat, generation c old = (G : Int) ∧ 0 < G ∧ G < 2147483648 ∧ G % NENV c = 0 := by
  rw [generation_eq]
  split
  · rename_i h
    refine ⟨_, rfl, h.1, h.2, ?_⟩
    have h1 := Nat.div_add_mod (toU32 (old + 4096)) (NENV c)
    have h2 : toU32 (old + 4096) - toU32 (old + 4096) % NENV c
        = NENV c * (toU32 (old + 4096) / NENV c) := by omega
    rw [h2]
    exact Nat.mul_mod_right _ _
  · refine ⟨4096, rfl, by decide, by decide, ?_⟩
    exact Nat.mod_eq_zero_of_dvd (NENV_dvd c)

theorem mkenvid_spec (c : Cfg) (old : Int) (e : Nat) (he : e < NENV c) :
    ∃ G : Nat, generation c old = (G : Int) ∧ 0 < G ∧ G % NENV c = 0 ∧
      G + e < 2147483648 ∧ mkenvid c old e = ((G + e : Nat) : Int) := by
  obtain ⟨G, hG, hpos, hlt, hmod⟩ := generation_spec c old
  have hN := NENV_le c
  have hNpos := NENV_pos c
  have hsum : G + e < 2147483648 := by
    obtain ⟨k, hk⟩ := Nat.dvd_of_mod_eq_zero hmod
    obtain ⟨j, hj⟩ := NENV_dvd c
    have hj2 : (2147483648 : Nat) = NENV c * (j * 524288) := by
      rw [← Nat.mul_assoc, ← hj]
    have hkj : k < j * 524288 := by
      apply Nat.lt_of_mul_lt_mul_left (a := NENV c)
      rw [← hk, ← hj2]
      exact hlt
    have h3 : NENV c * (k + 1) ≤ NENV c * (j * 524288) := Nat.mul_le_mul_left _ hkj
    rw [Nat.mul_add, Nat.mul_one, ← hk, ← hj2] at h3
    omega
  refine ⟨G, hG, hpos, hmod, hsum, ?_⟩
  unfold mkenvid or32
  rw [hG, toU32_natCast G (by omega), toU32_natCast e (by omega)]
  have hor : G ||| e = G + e := by
    obtain ⟨k, hk⟩ := Nat.dvd_of_mod_eq_zero hmod
    rw [hk, NENV_eq]
    rw [NENV_eq] at he
    exact (Nat.mul_add_lt_is_or he k).symm
  rw [hor]
  exact ofU32_of_lt _ hsum

/-! ## Resolving identities -/

theorem ENVX_bounds (c : Cfg) (envid : Int) : 0 ≤ ENVX c envid ∧ ENVX c envid < (NENV c : Int) := by
  rw [ENVX_eq]
  have h := Nat.mod_lt (toU32 envid) (NENV_pos c)
  omega

/-- C1: `envid2env` returns 0 exactly when `envid == 0` (storing `curenv`) or
the record `e = envs[ENVX(envid)]` is not free, carries the identity `envid`
and passes the permission check (`checkperm` clear, or `e` is `curenv`, or
`e`'s parent is `curenv`), storing `e`; in every other case it returns
`-E_BAD_ENV` and stores `NULL`.  The index `ENVX(envid)` lies in `[0, NENV)`
for every `envid`.  A current environment is assumed to exist whenever the
permission check is requested. -/
theorem envid2env_spec (c : Cfg) (s : KState) (envid : Int) (checkperm : Bool)
    (hcur : checkperm = true → s.curenv ≠ none) :
    (0 ≤ ENVX c envid ∧ ENVX c envid < (NENV c : Int)) ∧
    (envid = 0 → envid2env c s envid checkperm = some (Except.ok (), s.curenv)) ∧
    (envid ≠ 0 →
      ((s.envs (ENVX c envid).toNat).env_status ≠ EnvStatus.ENV_FREE ∧
        (s.envs (ENVX c envid).toNat).env_id = envid ∧
        (checkperm = false ∨ s.curenv = some (ENVX c envid).toNat ∨
          ∃ cur, s.curenv = some cur ∧
            (s.envs (ENVX c envid).toNat).env_parent_id = (s.envs cur).env_id)) →
      envid2env c s envid checkperm = some (Except.ok (), some (ENVX c envid).toNat)) ∧
    (envid ≠ 0 →
      ¬ ((s.envs (ENVX c envid).toNat).env_status ≠ EnvStatus.ENV_FREE ∧
        (s.envs (ENVX c envid).toNat).env_id = envid ∧
        (checkperm = false ∨ s.curenv = some (ENVX c envid).toNat ∨
          ∃ cur, s.curenv = some cur ∧
            (s.envs (ENVX c envid).toNat).env_parent_id = (s.envs cur).env_id)) →
      envid2env c s envid checkperm = some (Except.error Errno.E_BAD_ENV, none)) := by
  refine ⟨ENVX_bounds c envid, ?_, ?_, ?_⟩
  · intro h0
    simp [envid2env, h0]
  · rintro h0 ⟨hst, hid, hperm⟩
    cases checkperm with
    | false => simp [envid2env, h0, hst, hid]
    | true =>
      rcases hperm with h | h | ⟨cur, hc, hp⟩
      · cases h
      · simp [envid2env, h0, hst, hid, h]
      · simp [envid2env, h0, hst, hid, hc, hp]
  · intro h0 hn
    by_cases hbad : (s.envs (ENVX c envid).toNat).env_status = EnvStatus.ENV_FREE ∨
        (s.envs (ENVX c envid).toNat).env_id ≠ envid
    · simp only [envid2env, h0, if_false, hbad, if_true]
    · have hst : (s.envs (ENVX c envid).toNat).env_status ≠ EnvStatus.ENV_FREE :=
        fun h => hbad (Or.inl h)
      have hid : (s.envs (ENVX c envid).toNat).env_id = envid := by
        by_contra h
        exact hbad (Or.inr h)
      cases checkperm with
      | false => exact absurd ⟨hst, hid, Or.inl rfl⟩ hn
      | true =>
        cases hc : s.curenv with
        | none => exact absurd hc (hcur rfl)
        | some cur =>
          have h1 : (ENVX c envid).toNat ≠ cur := by
            intro h
            exact hn ⟨hst, hid, Or.inr (Or.inl (by rw [hc, h]))⟩
          have h2 : (s.envs (ENVX c envid).toNat).env_parent_id ≠ (s.envs cur).env_id := by
            intro h
            exact hn ⟨hst, hid, Or.inr (Or.inr ⟨cur, hc, h⟩)⟩
          simp [envid2env, h0, hst, hid, hc, h1, h2]

/-- Witness for `envid2env_spec`: the sample state, a negative identity and
the permission check requested. -/
theorem envid2env_spec_witness :
    (0 ≤ ENVX cfg4 (-1) ∧ ENVX cfg4 (-1) < (NENV cfg4 : Int)) ∧
    envid2env cfg4 sampleState (-1) true = some (Except.error Errno.E_BAD_ENV, none) ∧
    envid2env cfg4 sampleState 0x2002 true = some (Except.ok (), some 2) := by
  have h1 := envid2env_spec cfg4 sampleState (-1) true (by decide)
  have h2 := envid2env_spec cfg4 sampleState 0x2002 true (by decide)
  refine ⟨h1.1, h1.2.2.2 (by decide) ?_, ?_⟩
  · rintro ⟨-, hid, -⟩
    revert hid
    decide
  · have h3 := h2.2.2.1 (by decide) ⟨by decide, by decide, Or.inr (Or.inr ⟨1, rfl, by decide⟩)⟩
    exact h3

/-! ## Effect of the operations on the table -/

theorem env_alloc_none (c : Cfg) (s : KState) (parent_id : Int) (pg : Option Nat)
    (h : s.env_free_list = none) :
    env_alloc c s parent_id pg = (Except.error Errno.E_NO_FREE_ENV, s) := by
  simp [env_alloc, h]

theorem env_alloc_nomem (c : Cfg) (s : KState) (parent_id : Int) (e : Nat)
    (h : s.env_free_list = some e) :
    env_alloc c s parent_id none = (Except.error Errno.E_NO_MEM, s) := by
  simp [env_alloc, h, env_setup_vm]

theorem env_alloc_ok (c : Cfg) (s : KState) (parent_id : Int) (e p : Nat)
    (h : s.env_free_list = some e) :
    env_alloc c s parent_id (some p) =
      (Except.ok e,
        { envs := Function.update s.envs e (env_alloc_record c (s.envs e) e parent_id p),
          env_free_list := (s.envs e).env_link,
          curenv := s.curenv,
          vcpu_count := s.vcpu_count,
          pp_ref := Function.update s.pp_ref p (s.pp_ref p + 1),
          cr3 := s.cr3,
          boot_cr3 := s.boot_cr3 }) := by
  simp [env_alloc, h, env_setup_vm, KState.setEnv, page_incref, env_alloc_record]

theorem env_guest_alloc_none (c : Cfg) (s : KState) (parent_id : Int) (p q r a b : Option Nat)
    (h : s.env_free_list = none) :
    env_guest_alloc c s parent_id p q r a b = (Except.error Errno.E_NO_FREE_ENV, s) := by
  simp [env_guest_alloc, h]

theorem env_guest_alloc_ok (c : Cfg) (s : KState) (parent_id : Int) (e p q r a b : Nat)
    (h : s.env_free_list = some e) :
    (env_guest_alloc c s parent_id (some p) (some q) (some r) (some a) (some b)).1
        = Except.ok e ∧
    (env_guest_alloc c s parent_id (some p) (some q) (some r) (some a) (some b)).2.envs
        = Function.update s.envs e
            (env_guest_alloc_record c (s.envs e) e parent_id p q r a b s.vcpu_count) ∧
    (env_guest_alloc c s parent_id (some p) (some q) (some r) (some a) (some b)).2.env_free_list
        = (s.envs e).env_link ∧
    (env_guest_alloc c s parent_id (some p) (some q) (some r) (some a) (some b)).2.curenv
        = s.curenv ∧
    (env_guest_alloc c s parent_id (some p) (some q) (some r) (some a) (some b)).2.vcpu_count
        = wrap32 (s.vcpu_count + 1) := by
  simp [env_guest_alloc, h, KState.setEnv, page_incref, env_guest_alloc_record,
    VmxGuestInfo.zero]

/-- A failing `env_guest_alloc` returns `-E_NO_MEM` and leaves the free list,
`curenv`, every other record, and the link, status and identity of the
candidate record as they were. -/
theorem env_guest_alloc_fail (c : Cfg) (s : KState) (parent_id : Int) (e : Nat)
    (p q r a b : Option Nat) (h : s.env_free_list = some e)
    (hf : p = none ∨ q = none ∨ r = none ∨ a = none ∨ b = none) :
    (env_guest_alloc c s parent_id p q r a b).1 = Except.error Errno.E_NO_MEM ∧
    (env_guest_alloc c s parent_id p q r a b).2.env_free_list = s.env_free_list ∧
    (env_guest_alloc c s parent_id p q r a b).2.curenv = s.curenv ∧
    (env_guest_alloc c s parent_id p q r a b).2.vcpu_count = s.vcpu_count ∧
    (∀ j, j ≠ e → (env_guest_alloc c s parent_id p q r a b).2.envs j = s.envs j) ∧
    ((env_guest_alloc c s parent_id p q r a b).2.envs e).env_link = (s.envs e).env_link ∧
    ((env_guest_alloc c s parent_id p q r a b).2.envs e).env_status = (s.envs e).env_status ∧
    ((env_guest_alloc c s parent_id p q r a b).2.envs e).env_id = (s.envs e).env_id := by
  cases p with
  | none => simp +contextual [env_guest_alloc, h, KState.setEnv]
  | some p =>
  cases q with
  | none => simp +contextual [env_guest_alloc, h, KState.setEnv, page_decref]
  | some q =>
  cases r with
  | none => simp +contextual [env_guest_alloc, h, KState.setEnv, page_decref, page_incref]
  | some r =>
  cases a with
  | none => simp +contextual [env_guest_alloc, h, KState.setEnv, page_decref, page_incref]
  | some a =>
  cases b with
  | none => simp +contextual [env_guest_alloc, h, KState.setEnv, page_decref, page_incref]
  | some b => simp at hf

theorem foldl_page_decref_frame (walk : List Nat) (s : KState) :
    (walk.foldl page_decref s).envs = s.envs ∧
    (walk.foldl page_decref s).env_free_list = s.env_free_list ∧
    (walk.foldl page_decref s).curenv = s.curenv ∧
    (walk.foldl page_decref s).vcpu_count = s.vcpu_count := by
  induction walk generalizing s with
  | nil => simp
  | cons a l ih =>
    simp only [List.foldl_cons]
    obtain ⟨h1, h2, h3, h4⟩ := ih (page_decref s a)
    rw [h1, h2, h3, h4]
    simp [page_decref]

theorem page_decref_at_frame (s : KState) (ptr : Option Nat) :
    (page_decref_at s ptr).envs = s.envs ∧
    (page_decref_at s ptr).env_free_list = s.env_free_list ∧
    (page_decref_at s ptr).curenv = s.curenv ∧
    (page_decref_at s ptr).vcpu_count = s.vcpu_count := by
  cases ptr <;> simp [page_decref_at, page_decref]

/-- Effect of `env_free` on the table, the free list and `curenv`. -/
theorem env_free_effect (s : KState) (e : Nat) (walk : List Nat) (pdpt : Nat) :
    (env_free s e walk pdpt).envs
      = Function.update s.envs e (env_free_record (s.envs e) s.env_free_list) ∧
    (env_free s e walk pdpt).env_free_list = some e ∧
    (env_free s e walk pdpt).curenv = s.curenv ∧
    (env_free s e walk pdpt).vcpu_count = s.vcpu_count := by
  unfold env_free
  split
  · simp only [env_guest_free, KState.setEnv, page_decref, page_decref_at_frame,
      foldl_page_decref_frame, Function.update_same, Function.update_idem, env_free_record]
    simp
  · by_cases hc : s.curenv = some e
    · simp only [hc, if_true, KState.setEnv, page_decref, foldl_page_decref_frame,
        Function.update_same, Function.update_idem, env_free_record]
      simp
    · simp only [hc, if_false, KState.setEnv, page_decref, foldl_page_decref_frame,
        Function.update_same, Function.update_idem, env_free_record]
      simp

theorem env_init_loop_apply (n : Nat) (envs : Nat → Env) (i : Nat) :
    env_init_loop n envs i =
      if i < n then
        { envs i with env_status := EnvStatus.ENV_FREE, env_link := some (i + 1) }
      else envs i := by
  induction n with
  | zero => simp [env_init_loop]
  | succ n ih =>
    unfold env_init_loop at ih ⊢
    rw [List.range_succ, List.foldl_append]
    simp only [List.foldl_cons, List.foldl_nil]
    by_cases h : i = n
    · subst h
      rw [Function.update_same, ih]
      simp
    · rw [Function.update_noteq h, ih]
      by_cases h2 : i < n
      · have h3 : i < n + 1 := by omega
        simp [h2, h3]
      · have h3 : ¬ i < n + 1 := by omega
        simp [h2, h3]

/-- The table after `env_init`: every record below `NENV` is free and linked to
its successor, the last one to `NULL`; nothing else of a record changes. -/
theorem env_init_envs (c : Cfg) (s : KState) (i : Nat) :
    (env_init c s).envs i =
      if i < NENV c then
        { s.envs i with
          env_status := EnvStatus.ENV_FREE,
          env_link := if i = NENV c - 1 then none else some (i + 1) }
      else s.envs i := by
  have hpos := NENV_pos c
  simp only [env_init]
  by_cases h : i = NENV c - 1
  · subst h
    rw [Function.update_same, env_init_loop_apply]
    have h1 : NENV c - 1 < NENV c := by omega
    simp [h1]
  · rw [Function.update_noteq h, env_init_loop_apply]
    simp [h]

theorem env_init_free_list (c : Cfg) (s : KState) :
    (env_init c s).env_free_list = some 0 := rfl

theorem env_init_curenv (c : Cfg) (s : KState) : (env_init c s).curenv = s.curenv := rfl

/-! ## The free list -/

theorem FreeChain_unique (s : KState) (l1 l2 : List Nat) (p : Option Nat)
    (h1 : FreeChain s p l1) (h2 : FreeChain s p l2) : l1 = l2 := by
  induction l1 generalizing p l2 with
  | nil =>
    cases l2 with
    | nil => rfl
    | cons b l2 =>
      simp only [FreeChain] at h1 h2
      rw [h1] at h2
      exact absurd h2.1 (by simp)
  | cons a l1 ih =>
    cases l2 with
    | nil =>
      simp only [FreeChain] at h1 h2
      rw [h2] at h1
      exact absurd h1.1 (by simp)
    | cons b l2 =>
      simp only [FreeChain] at h1 h2
      have hab : a = b := by
        have := h1.1.symm.trans h2.1
        simpa using this
      subst hab
      rw [ih l2 _ h1.2 h2.2]

theorem FreeChain_suffix (s : KState) (l1 l2 : List Nat) (a : Nat) (p : Option Nat)
    (h : FreeChain s p (l1 ++ a :: l2)) : FreeChain s (some a) (a :: l2) := by
  induction l1 generalizing p with
  | nil =>
    simp only [List.nil_append, FreeChain] at h
    exact ⟨rfl, h.2⟩
  | cons b l1 ih =>
    simp only [List.cons_append, FreeChain] at h
    exact ih _ h.2

/-- A list that ends at `NULL` meets no record twice. -/
theorem FreeChain_nodup (s : KState) (l : List Nat) (p : Option Nat)
    (h : FreeChain s p l) : l.Nodup := by
  induction l generalizing p with
  | nil => exact List.nodup_nil
  | cons a l ih =>
    have h' := h
    simp only [FreeChain] at h
    refine List.nodup_cons.mpr ⟨?_, ih _ h.2⟩
    intro hmem
    obtain ⟨l1, l2, hl⟩ := List.append_of_mem hmem
    rw [hl] at h
    have hs := FreeChain_suffix s l1 l2 a _ h.2
    have h'' : FreeChain s (some a) (a :: l) := ⟨rfl, by rw [hl]; exact h.2⟩
    have heq := FreeChain_unique s _ _ _ hs h''
    have hlen := congrArg List.length heq
    rw [hl] at hlen
    simp at hlen
    omega

/-- A chain only depends on the links of the records it meets. -/
theorem FreeChain_congr (s t : KState) (l : List Nat) (p : Option Nat)
    (hl : ∀ a ∈ l, (t.envs a).env_link = (s.envs a).env_link)
    (h : FreeChain s p l) : FreeChain t p l := by
  induction l generalizing p with
  | nil => exact h
  | cons a l ih =>
    simp only [FreeChain] at h ⊢
    refine ⟨h.1, ?_⟩
    rw [hl a (List.mem_cons_self a l)]
    exact ih _ (fun b hb => hl b (List.mem_cons_of_mem a hb)) h.2

/-! ## Allocation after `env_init` -/

theorem FreshFrom_init (c : Cfg) (s0 : KState) : FreshFrom c (env_init c s0) 0 := by
  refine ⟨?_, ?_⟩
  · rw [env_init_free_list, if_pos (NENV_pos c)]
  · intro i _ hi
    rw [env_init_envs, if_pos hi]

theorem links_chain (c : Cfg) (s : KState) (m k : Nat) (hk : k + m = NENV c)
    (h : ∀ i, k ≤ i → i < NENV c →
      (s.envs i).env_link = if i = NENV c - 1 then none else some (i + 1)) :
    FreeChain s (if k < NENV c then some k else none) (List.range' k m) := by
  induction m generalizing k with
  | zero =>
    have : ¬ k < NENV c := by omega
    simp [this, FreeChain]
  | succ m ih =>
    have hlt : k < NENV c := by omega
    rw [if_pos hlt, List.range'_succ]
    refine ⟨rfl, ?_⟩
    rw [h k (Nat.le_refl k) hlt]
    have h2 := ih (k + 1) (by omega) (fun i hi hi2 => h i (by omega) hi2)
    by_cases hlast : k = NENV c - 1
    · have : ¬ k + 1 < NENV c := by omega
      rw [if_neg this] at h2
      rw [if_pos hlast]
      exact h2
    · have : k + 1 < NENV c := by omega
      rw [if_pos this] at h2
      rw [if_neg hlast]
      exact h2

/-- Consecutive allocations from a freshly linked part of the table return
its records in index order. -/
theorem env_alloc_seq_fresh (c : Cfg) (args : List (Int × Nat)) (s : KState) (k : Nat)
    (h : FreshFrom c s k) (hlen : k + args.length ≤ NENV c) :
    (env_alloc_seq c s args).1 = (List.range' k args.length).map Except.ok ∧
    FreshFrom c (env_alloc_seq c s args).2 (k + args.length) ∧
    (∀ i, k + args.length ≤ i → (env_alloc_seq c s args).2.envs i = s.envs i) ∧
    (∀ i, k ≤ i → i < k + args.length →
      ((env_alloc_seq c s args).2.envs i).env_status = EnvStatus.ENV_RUNNABLE) ∧
    (∀ i, i < k → (env_alloc_seq c s args).2.envs i = s.envs i) := by
  induction args generalizing s k with
  | nil =>
    refine ⟨by simp [env_alloc_seq], by simpa [env_alloc_seq] using h,
      by simp [env_alloc_seq], ?_, by simp [env_alloc_seq]⟩
    intro i h1 h2
    simp at h2
    omega
  | cons x rest ih =>
    obtain ⟨parent_id, pg⟩ := x
    simp only [List.length_cons] at hlen ⊢
    have hlt : k < NENV c := by omega
    have hfl : s.env_free_list = some k := by rw [h.1, if_pos hlt]
    have hok := env_alloc_ok c s parent_id k pg hfl
    have hfresh : FreshFrom c (env_alloc c s parent_id (some pg)).2 (k + 1) := by
      rw [hok]
      refine ⟨?_, ?_⟩
      · simp only
        rw [h.2 k (Nat.le_refl k) hlt]
        by_cases hlast : k = NENV c - 1
        · have : ¬ k + 1 < NENV c := by omega
          rw [if_pos hlast, if_neg this]
        · have : k + 1 < NENV c := by omega
          rw [if_neg hlast, if_pos this]
      · intro i hi hi2
        simp only
        rw [Function.update_noteq (by omega)]
        exact h.2 i (by omega) hi2
    obtain ⟨ih1, ih2, ih3, ih4, ih5⟩ := ih (env_alloc c s parent_id (some pg)).2 (k + 1) hfresh
      (by omega)
    have hk1 : k + 1 + rest.length = k + (rest.length + 1) := by omega
    refine ⟨?_, ?_, ?_, ?_, ?_⟩
    · simp only [env_alloc_seq, List.range'_succ, List.map_cons]
      rw [ih1, hok]
    · simp only [env_alloc_seq]
      rw [← hk1]
      exact ih2
    · intro i hi
      simp only [env_alloc_seq]
      rw [ih3 i (by omega), hok]
      simp only
      rw [Function.update_noteq (by omega)]
    · intro i hi1 hi2
      simp only [env_alloc_seq]
      by_cases hik : i = k
      · subst hik
        rw [ih5 i (by omega), hok]
        simp [env_alloc_record]
      · exact ih4 i (by omega) (by omega)
    · intro i hi
      simp only [env_alloc_seq]
      rw [ih5 i (by omega), hok]
      simp only
      rw [Function.update_noteq (by omega)]

/-- After `env_init` the records of the table are free and the free list runs
through them in index order. -/
theorem env_init_free_chain (c : Cfg) (s0 : KState) :
    (∀ i, i < NENV c → ((env_init c s0).envs i).env_status = EnvStatus.ENV_FREE) ∧
    FreeChain (env_init c s0) (env_init c s0).env_free_list (List.range (NENV c)) := by
  refine ⟨?_, ?_⟩
  · intro i hi
    rw [env_init_envs, if_pos hi]
  · have h := links_chain c (env_init c s0) (NENV c) 0 (by omega) (FreshFrom_init c s0).2
    rw [if_pos (NENV_pos c)] at h
    rw [env_init_free_list, List.range_eq_range']
    exact h

/-- C7: after `env_init` every record of the table is free and the free list
is `envs[0], envs[1], ..., envs[NENV-1]` in index order, ended by `NULL`;
with page allocation succeeding, the k-th `env_alloc` after `env_init`
(`1 <= k <= NENV`) returns slot `k-1`. -/
theorem env_init_then_alloc (c : Cfg) (s0 : KState) :
    (∀ i, i < NENV c → ((env_init c s0).envs i).env_status = EnvStatus.ENV_FREE) ∧
    FreeChain (env_init c s0) (env_init c s0).env_free_list (List.range (NENV c)) ∧
    ∀ args : List (Int × Nat), args.length ≤ NENV c →
      (env_alloc_seq c (env_init c s0) args).1 = (List.range args.length).map Except.ok := by
  refine ⟨(env_init_free_chain c s0).1, (env_init_free_chain c s0).2, ?_⟩
  intro args hlen
  have h := (env_alloc_seq_fresh c args (env_init c s0) 0 (FreshFrom_init c s0) (by omega)).1
  rw [h, List.range_eq_range']

/-- Witness for `env_init_then_alloc`: three allocations in a table of four. -/
theorem env_init_then_alloc_witness :
    ((env_init cfg4 boot).envs 3).env_status = EnvStatus.ENV_FREE ∧
    (env_alloc_seq cfg4 (env_init cfg4 boot) [(0, 7), (0, 8), (0x1000, 9)]).1
      = [Except.ok 0, Except.ok 1, Except.ok 2] :=
  ⟨(env_init_then_alloc cfg4 boot).1 3 (by decide),
   (env_init_then_alloc cfg4 boot).2.2 [(0, 7), (0, 8), (0x1000, 9)] (by decide)⟩

/-- The free list is empty once `NENV` allocations have followed `env_init`,
and every record is then allocated. -/
theorem env_alloc_seq_full (c : Cfg) (s0 : KState) (args : List (Int × Nat))
    (hlen : args.length = NENV c) :
    (env_alloc_seq c (env_init c s0) args).2.env_free_list = none ∧
    ∀ i, i < NENV c →
      ((env_alloc_seq c (env_init c s0) args).2.envs i).env_status = EnvStatus.ENV_RUNNABLE := by
  obtain ⟨-, h2, -, h4, -⟩ :=
    env_alloc_seq_fresh c args (env_init c s0) 0 (FreshFrom_init c s0) (by omega)
  refine ⟨?_, fun i hi => h4 i (by omega) (by omega)⟩
  rw [h2.1, if_neg (by omega)]

/-- C3: starting from `env_init` with page allocation succeeding, `NENV`
consecutive `env_alloc` calls succeed and the next one returns
`-E_NO_FREE_ENV` and leaves the state as it is; when one of the allocated
environments is then released with `env_free`, the next `env_alloc` succeeds
and returns the released slot. -/
theorem env_alloc_exhaustion (c : Cfg) (s0 : KState) (args : List (Int × Nat))
    (hlen : args.length = NENV c) (parent_id : Int) (pg : Option Nat)
    (j : Nat) (hj : j < NENV c) (walk : List Nat) (pdpt : Nat) (parent_id2 : Int) (pg2 : Nat) :
    (env_alloc_seq c (env_init c s0) args).1 = (List.range (NENV c)).map Except.ok ∧
    env_alloc c (env_alloc_seq c (env_init c s0) args).2 parent_id pg
      = (Except.error Errno.E_NO_FREE_ENV, (env_alloc_seq c (env_init c s0) args).2) ∧
    ((env_alloc_seq c (env_init c s0) args).2.envs j).env_status ≠ EnvStatus.ENV_FREE ∧
    (env_alloc c (env_free (env_alloc_seq c (env_init c s0) args).2 j walk pdpt)
      parent_id2 (some pg2)).1 = Except.ok j := by
  obtain ⟨hnone, hst⟩ := env_alloc_seq_full c s0 args hlen
  refine ⟨?_, env_alloc_none c _ parent_id pg hnone, ?_, ?_⟩
  · have h := (env_alloc_seq_fresh c args (env_init c s0) 0 (FreshFrom_init c s0) (by omega)).1
    rw [h, hlen, List.range_eq_range']
  · rw [hst j hj]
    decide
  · rw [env_alloc_ok c _ parent_id2 j pg2 (env_free_effect _ j walk pdpt).2.1]

/-- Witness for `env_alloc_exhaustion`: a table of four records, filled, then
record 2 released and allocated again. -/
theorem env_alloc_exhaustion_witness :
    (env_alloc_seq cfg4 (env_init cfg4 boot) [(0, 7), (0, 8), (0, 9), (0, 10)]).1
      = [Except.ok 0, Except.ok 1, Except.ok 2, Except.ok 3] ∧
    (env_alloc cfg4 (env_alloc_seq cfg4 (env_init cfg4 boot) [(0, 7), (0, 8), (0, 9), (0, 10)]).2
      0 (some 11)).1 = Except.error Errno.E_NO_FREE_ENV ∧
    (env_alloc cfg4
      (env_free (env_alloc_seq cfg4 (env_init cfg4 boot) [(0, 7), (0, 8), (0, 9), (0, 10)]).2
        2 [] 0) 0 (some 11)).1 = Except.ok 2 := by
  have h := env_alloc_exhaustion cfg4 boot [(0, 7), (0, 8), (0, 9), (0, 10)] (by decide)
    0 (some 11) 2 (by decide) [] 0 0 11
  exact ⟨h.1, by rw [h.2.1], h.2.2.2⟩

/-! ## Effect of a successful `env_alloc` -/

/-- A successful `env_alloc` took the head of the free list and a page. -/
theorem env_alloc_ok_inv (c : Cfg) (s : KState) (parent_id : Int) (pg : Option Nat) (e : Nat)
    (s' : KState) (h : env_alloc c s parent_id pg = (Except.ok e, s')) :
    s.env_free_list = some e ∧ ∃ p, pg = some p := by
  cases hfl : s.env_free_list with
  | none =>
    rw [env_alloc_none c s parent_id pg hfl] at h
    exact absurd (congrArg Prod.fst h) (by simp)
  | some e0 =>
    cases pg with
    | none =>
      rw [env_alloc_nomem c s parent_id e0 hfl] at h
      exact absurd (congrArg Prod.fst h) (by simp)
    | some p =>
      rw [env_alloc_ok c s parent_id e0 p hfl] at h
      have h1 := congrArg Prod.fst h
      simp only [Except.ok.injEq] at h1
      exact ⟨by rw [h1], p, rfl⟩

/-- C10: when `env_alloc` succeeds it returns the record that was the head of
the free list, removes exactly that record from the free list, and leaves it
with `env_status = ENV_RUNNABLE`, `env_type = ENV_TYPE_USER`,
`env_parent_id = parent_id`, `env_pgfault_upcall = 0` and
`env_ipc_recving = 0`; every other record is unchanged. -/
theorem env_alloc_success (c : Cfg) (s : KState) (parent_id : Int) (pg : Option Nat) (e : Nat)
    (s' : KState) (h : env_alloc c s parent_id pg = (Except.ok e, s')) :
    s.env_free_list = some e ∧
    (∀ l, FreeChain s s.env_free_list l →
      ∃ l', l = e :: l' ∧ e ∉ l' ∧ FreeChain s' s'.env_free_list l') ∧
    (s'.envs e).env_status = EnvStatus.ENV_RUNNABLE ∧
    (s'.envs e).env_type = EnvType.ENV_TYPE_USER ∧
    (s'.envs e).env_parent_id = parent_id ∧
    (s'.envs e).env_pgfault_upcall = 0 ∧
    (s'.envs e).env_ipc_recving = false ∧
    ∀ j, j ≠ e → s'.envs j = s.envs j := by
  obtain ⟨hfl, p, hp⟩ := env_alloc_ok_inv c s parent_id pg e s' h
  subst hp
  rw [env_alloc_ok c s parent_id e p hfl] at h
  have hs := (congrArg Prod.snd h).symm
  simp only at hs
  subst hs
  refine ⟨hfl, ?_, ?_, ?_, ?_, ?_, ?_, ?_⟩
  · intro l hl
    rw [hfl] at hl
    cases l with
    | nil => exact absurd hl (by simp [FreeChain])
    | cons a l' =>
      have hnd := FreeChain_nodup s _ _ hl
      simp only [FreeChain, Option.some.injEq] at hl
      obtain ⟨hea, hch⟩ := hl
      subst hea
      have hnotin : e ∉ l' := (List.nodup_cons.mp hnd).1
      refine ⟨l', rfl, hnotin, ?_⟩
      apply FreeChain_congr s _ l' _ _ hch
      intro a ha
      have hne : a ≠ e := fun h => hnotin (h ▸ ha)
      simp only
      rw [Function.update_noteq hne]
  · simp [env_alloc_record]
  · simp [env_alloc_record]
  · simp [env_alloc_record]
  · simp [env_alloc_record]
  · simp [env_alloc_record]
  · intro j hj
    simp only
    rw [Function.update_noteq hj]

/-- Witness for `env_alloc_success`: an allocation in the sample state, whose
free list is record 0 followed by record 3. -/
theorem env_alloc_success_witness :
    sampleState.env_free_list = some 0 ∧
    FreeChain sampleState sampleState.env_free_list [0, 3] ∧
    FreeChain (env_alloc cfg4 sampleState 0x1001 (some 5)).2
      (env_alloc cfg4 sampleState 0x1001 (some 5)).2.env_free_list [3] ∧
    ((env_alloc cfg4 sampleState 0x1001 (some 5)).2.envs 0).env_status
      = EnvStatus.ENV_RUNNABLE ∧
    (env_alloc cfg4 sampleState 0x1001 (some 5)).2.envs 2 = sampleState.envs 2 := by
  have h := env_alloc_success cfg4 sampleState 0x1001 (some 5) 0
    (env_alloc cfg4 sampleState 0x1001 (some 5)).2 rfl
  have hc : FreeChain sampleState sampleState.env_free_list [0, 3] := by decide
  obtain ⟨l', hl, -, hch⟩ := h.2.1 [0, 3] hc
  have hl' : l' = [3] := by
    simp only [List.cons.injEq, true_and] at hl
    exact hl.symm
  subst hl'
  exact ⟨h.1, hc, hch, h.2.2.1, h.2.2.2.2.2.2.2 2 (by decide)⟩

/-! ## The free-list invariant -/

theorem FreeListInv_init (c : Cfg) (s0 : KState) : FreeListInv c (env_init c s0) := by
  have h := env_init_free_chain c s0
  refine ⟨List.range (NENV c), h.2, List.nodup_range _, ?_, ?_⟩
  · intro a ha
    exact List.mem_range.mp ha
  · intro i hi
    constructor
    · intro _
      exact h.1 i hi
    · intro _
      exact List.mem_range.mpr hi

/-- An operation that leaves the free list pointer and every link alone, and
turns no record of the table free or non-free, keeps the invariant. -/
theorem FreeListInv_frame (c : Cfg) (s t : KState) (h : FreeListInv c s)
    (hfl : t.env_free_list = s.env_free_list)
    (hlink : ∀ j, j < NENV c → (t.envs j).env_link = (s.envs j).env_link)
    (hst : ∀ j, j < NENV c → ((t.envs j).env_status = EnvStatus.ENV_FREE ↔
      (s.envs j).env_status = EnvStatus.ENV_FREE)) :
    FreeListInv c t := by
  obtain ⟨l, hch, hnd, hlt, hiff⟩ := h
  refine ⟨l, ?_, hnd, hlt, ?_⟩
  · rw [hfl]
    exact FreeChain_congr s t l _ (fun a ha => hlink a (hlt a ha)) hch
  · intro i hi
    rw [hiff i hi, hst i hi]

/-- Taking the head of the free list and marking it non-free keeps the
invariant. -/
theorem FreeListInv_pop (c : Cfg) (s t : KState) (e : Nat) (h : FreeListInv c s)
    (hhead : s.env_free_list = some e)
    (hfl : t.env_free_list = (s.envs e).env_link)
    (hself : (t.envs e).env_status ≠ EnvStatus.ENV_FREE)
    (hother : ∀ j, j ≠ e → t.envs j = s.envs j) :
    FreeListInv c t := by
  obtain ⟨l, hch, hnd, hlt, hiff⟩ := h
  rw [hhead] at hch
  cases l with
  | nil => exact absurd hch (by simp [FreeChain])
  | cons a l' =>
    simp only [FreeChain, Option.some.injEq] at hch
    obtain ⟨hea, hch⟩ := hch
    subst hea
    have hnotin : e ∉ l' := (List.nodup_cons.mp hnd).1
    refine ⟨l', ?_, (List.nodup_cons.mp hnd).2, fun a ha => hlt a (List.mem_cons_of_mem _ ha), ?_⟩
    · rw [hfl]
      apply FreeChain_congr s t l' _ _ hch
      intro a ha
      rw [hother a (fun h => hnotin (h ▸ ha))]
    · intro i hi
      by_cases hie : i = e
      · subst hie
        constructor
        · intro hmem
          exact absurd hmem hnotin
        · intro hfree
          exact absurd hfree hself
      · rw [hother i hie, ← hiff i hi]
        simp [hie]

/-- Putting a non-free record of the table in front of the free list and
marking it free keeps the invariant. -/
theorem FreeListInv_push (c : Cfg) (s t : KState) (e : Nat) (h : FreeListInv c s)
    (he : e < NENV c) (hnf : (s.envs e).env_status ≠ EnvStatus.ENV_FREE)
    (hfl : t.env_free_list = some e)
    (hlink : (t.envs e).env_link = s.env_free_list)
    (hself : (t.envs e).env_status = EnvStatus.ENV_FREE)
    (hother : ∀ j, j ≠ e → t.envs j = s.envs j) :
    FreeListInv c t := by
  obtain ⟨l, hch, hnd, hlt, hiff⟩ := h
  have hnotin : e ∉ l := fun hmem => hnf ((hiff e he).mp hmem)
  refine ⟨e :: l, ?_, List.nodup_cons.mpr ⟨hnotin, hnd⟩, ?_, ?_⟩
  · rw [hfl]
    refine ⟨rfl, ?_⟩
    rw [hlink]
    apply FreeChain_congr s t l _ _ hch
    intro a ha
    rw [hother a (fun h => hnotin (h ▸ ha))]
  · intro a ha
    rcases List.mem_cons.mp ha with h | h
    · rw [h]
      exact he
    · exact hlt a h
  · intro i hi
    by_cases hie : i = e
    · subst hie
      simp [hself]
    · rw [hother i hie, ← hiff i hi]
      simp [hie]

theorem FreeListInv_env_alloc (c : Cfg) (s : KState) (parent_id : Int) (pg : Option Nat)
    (h : FreeListInv c s) : FreeListInv c (env_alloc c s parent_id pg).2 := by
  cases hfl : s.env_free_list with
  | none =>
    rw [env_alloc_none c s parent_id pg hfl]
    exact h
  | some e =>
    cases pg with
    | none =>
      rw [env_alloc_nomem c s parent_id e hfl]
      exact h
    | some p =>
      rw [env_alloc_ok c s parent_id e p hfl]
      apply FreeListInv_pop c s _ e h hfl rfl
      · simp [env_alloc_record]
      · intro j hj
        simp only
        rw [Function.update_noteq hj]

theorem FreeListInv_env_guest_alloc (c : Cfg) (s : KState) (parent_id : Int)
    (p q r a b : Option Nat) (h : FreeListInv c s) :
    FreeListInv c (env_guest_alloc c s parent_id p q r a b).2 := by
  cases hfl : s.env_free_list with
  | none =>
    rw [env_guest_alloc_none c s parent_id p q r a b hfl]
    exact h
  | some e =>
    by_cases hf : p = none ∨ q = none ∨ r = none ∨ a = none ∨ b = none
    · obtain ⟨-, h2, -, -, h5, h6, h7, -⟩ := env_guest_alloc_fail c s parent_id e p q r a b hfl hf
      apply FreeListInv_frame c s _ h h2
      · intro j _
        by_cases hje : j = e
        · rw [hje, h6]
        · rw [h5 j hje]
      · intro j _
        by_cases hje : j = e
        · rw [hje, h7]
        · rw [h5 j hje]
    · simp only [not_or] at hf
      obtain ⟨hp, hq, hr, ha, hb⟩ := hf
      obtain ⟨p, rfl⟩ := Option.ne_none_iff_exists'.mp hp
      obtain ⟨q, rfl⟩ := Option.ne_none_iff_exists'.mp hq
      obtain ⟨r, rfl⟩ := Option.ne_none_iff_exists'.mp hr
      obtain ⟨a, rfl⟩ := Option.ne_none_iff_exists'.mp ha
      obtain ⟨b, rfl⟩ := Option.ne_none_iff_exists'.mp hb
      obtain ⟨-, h2, h3, -, -⟩ := env_guest_alloc_ok c s parent_id e p q r a b hfl
      apply FreeListInv_pop c s _ e h hfl h3
      · rw [h2]
        simp [env_guest_alloc_record]
      · intro j hj
        rw [h2, Function.update_noteq hj]

theorem FreeListInv_env_free (c : Cfg) (s : KState) (e : Nat) (walk : List Nat) (pdpt : Nat)
    (h : FreeListInv c s) (he : e < NENV c)
    (hnf : (s.envs e).env_status ≠ EnvStatus.ENV_FREE) :
    FreeListInv c (env_free s e walk pdpt) := by
  obtain ⟨h1, h2, -, -⟩ := env_free_effect s e walk pdpt
  apply FreeListInv_push c s _ e h he hnf h2
  · rw [h1]
    simp [env_free_record]
  · rw [h1]
    simp [env_free_record]
  · intro j hj
    rw [h1, Function.update_noteq hj]

/-- Effect of `env_destroy` on the table, the free list and `curenv`. -/
theorem env_destroy_effect (s : KState) (e : Nat) (walk : List Nat) (pdpt : Nat) :
    ((s.envs e).env_status = EnvStatus.ENV_RUNNING ∧ s.curenv ≠ some e →
      (env_destroy s e walk pdpt).envs
        = Function.update s.envs e { s.envs e with env_status := EnvStatus.ENV_DYING } ∧
      (env_destroy s e walk pdpt).env_free_list = s.env_free_list ∧
      (env_destroy s e walk pdpt).curenv = s.curenv) ∧
    (¬ ((s.envs e).env_status = EnvStatus.ENV_RUNNING ∧ s.curenv ≠ some e) →
      (env_destroy s e walk pdpt).envs
        = Function.update s.envs e (env_free_record (s.envs e) s.env_free_list) ∧
      (env_destroy s e walk pdpt).env_free_list = some e ∧
      (env_destroy s e walk pdpt).curenv = if s.curenv = some e then none else s.curenv) := by
  obtain ⟨h1, h2, h3, -⟩ := env_free_effect s e walk pdpt
  constructor
  · intro h
    simp [env_destroy, h, KState.setEnv]
  · intro h
    unfold env_destroy
    rw [if_neg h]
    simp only [h3]
    split <;> simp [h1, h2, h3]

/-- Effect of a returning `env_run` on the free list, `curenv`, the links, the
identities and the statuses. -/
theorem env_run_effect (s : KState) (e : Nat) (cpu : Int) (s' : KState)
    (h : env_run s e cpu = some s') :
    s'.env_free_list = s.env_free_list ∧ s'.curenv = some e ∧
    (s'.envs e).env_status = EnvStatus.ENV_RUNNING ∧
    (∀ j, (s'.envs j).env_link = (s.envs j).env_link ∧
      (s'.envs j).env_id = (s.envs j).env_id) ∧
    (∀ j, j ≠ e → (s'.envs j).env_status =
      if s.curenv = some j ∧ (s.envs j).env_status = EnvStatus.ENV_RUNNING then
        EnvStatus.ENV_RUNNABLE
      else (s.envs j).env_status) := by
  unfold env_run at h
  by_cases hc : s.curenv = some e
  · simp only [hc, ne_eq, not_true_eq_false, if_false] at h
    split at h
    · exact absurd h (by simp)
    · rename_i hrun
      simp only [ne_eq, not_not] at hrun
      split at h
      · simp only [Option.some.injEq] at h
        subst h
        refine ⟨rfl, hc, hrun, fun j => ⟨rfl, rfl⟩, ?_⟩
        intro j hj
        have : ¬ (e = j) := fun h => hj h.symm
        simp [hc, this]
      · simp only [Option.some.injEq] at h
        subst h
        refine ⟨rfl, hc, ?_, ?_, ?_⟩
        · simp [KState.setEnv, hrun]
        · intro j
          by_cases hj : j = e
          · subst hj
            simp [KState.setEnv]
          · simp [KState.setEnv, Function.update_noteq hj]
        · intro j hj
          have : ¬ (e = j) := fun h => hj h.symm
          simp [KState.setEnv, Function.update_noteq hj, hc, this]
  · by_cases hty : (s.envs e).env_type = EnvType.ENV_TYPE_GUEST
    · cases hcur : s.curenv with
      | none =>
        simp [hcur, hty, KState.setEnv] at h
        subst h
        refine ⟨rfl, rfl, by simp, fun j => ?_, fun j hj => ?_⟩
        · by_cases hj : j = e
          · subst hj
            simp
          · simp [Function.update_noteq hj]
        · simp [Function.update_noteq hj]
      | some cur =>
        have hce : cur ≠ e := fun h => hc (by rw [hcur, h])
        by_cases hrun : (s.envs cur).env_status = EnvStatus.ENV_RUNNING
        · simp [hcur, hty, hce, hrun, KState.setEnv, Function.update_noteq (Ne.symm hce)] at h
          subst h
          refine ⟨rfl, rfl, by simp, fun j => ?_, fun j hj => ?_⟩
          · by_cases hj : j = e
            · subst hj
              simp [Function.update_noteq (Ne.symm hce)]
            · by_cases hjc : j = cur
              · subst hjc
                simp [Function.update_noteq hj]
              · simp [Function.update_noteq hj, Function.update_noteq hjc]
          · by_cases hjc : j = cur
            · subst hjc
              simp [Function.update_noteq hj, hrun]
            · have : ¬ (cur = j) := fun h => hjc h.symm
              simp [Function.update_noteq hj, Function.update_noteq hjc, this]
        · simp [hcur, hty, hce, hrun, KState.setEnv] at h
          subst h
          refine ⟨rfl, rfl, by simp, fun j => ?_, fun j hj => ?_⟩
          · by_cases hj : j = e
            · subst hj
              simp
            · simp [Function.update_noteq hj]
          · by_cases hjc : j = cur
            · subst hjc
              simp [Function.update_noteq hj, hrun]
            · have : ¬ (cur = j) := fun h => hjc h.symm
              simp [Function.update_noteq hj, this]
    · cases hcur : s.curenv with
      | none =>
        simp [hcur, hty, KState.setEnv] at h
        subst h
        refine ⟨rfl, rfl, by simp, fun j => ?_, fun j hj => ?_⟩
        · by_cases hj : j = e
          · subst hj
            simp
          · simp [Function.update_noteq hj]
        · simp [Function.update_noteq hj]
      | some cur =>
        have hce : cur ≠ e := fun h => hc (by rw [hcur, h])
        by_cases hrun : (s.envs cur).env_status = EnvStatus.ENV_RUNNING
        · simp [hcur, hty, hce, hrun, KState.setEnv, Function.update_noteq (Ne.symm hce)] at h
          subst h
          refine ⟨rfl, rfl, by simp, fun j => ?_, fun j hj => ?_⟩
          · by_cases hj : j = e
            · subst hj
              simp [Function.update_noteq (Ne.symm hce)]
            · by_cases hjc : j = cur
              · subst hjc
                simp [Function.update_noteq hj]
              · simp [Function.update_noteq hj, Function.update_noteq hjc]
          · by_cases hjc : j = cur
            · subst hjc
              simp [Function.update_noteq hj, hrun]
            · have : ¬ (cur = j) := fun h => hjc h.symm
              simp [Function.update_noteq hj, Function.update_noteq hjc, this]
        · simp [hcur, hty, hce, hrun, KState.setEnv] at h
          subst h
          refine ⟨rfl, rfl, by simp, fun j => ?_, fun j hj => ?_⟩
          · by_cases hj : j = e
            · subst hj
              simp
            · simp [Function.update_noteq hj]
          · by_cases hjc : j = cur
            · subst hjc
              simp [Function.update_noteq hj, hrun]
            · have : ¬ (cur = j) := fun h => hjc h.symm
              simp [Function.update_noteq hj, this]

theorem FreeListInv_env_destroy (c : Cfg) (s : KState) (e : Nat) (walk : List Nat) (pdpt : Nat)
    (h : FreeListInv c s) (he : e < NENV c)
    (hnf : (s.envs e).env_status ≠ EnvStatus.ENV_FREE) :
    FreeListInv c (env_destroy s e walk pdpt) := by
  obtain ⟨hA, hB⟩ := env_destroy_effect s e walk pdpt
  by_cases hcond : (s.envs e).env_status = EnvStatus.ENV_RUNNING ∧ s.curenv ≠ some e
  · obtain ⟨h1, h2, -⟩ := hA hcond
    apply FreeListInv_frame c s _ h h2
    · intro j _
      rw [h1]
      by_cases hj : j = e
      · subst hj
        simp
      · rw [Function.update_noteq hj]
    · intro j _
      rw [h1]
      by_cases hj : j = e
      · subst hj
        simp [hnf]
      · rw [Function.update_noteq hj]
  · obtain ⟨h1, h2, -⟩ := hB hcond
    apply FreeListInv_push c s _ e h he hnf h2
    · rw [h1]
      simp [env_free_record]
    · rw [h1]
      simp [env_free_record]
    · intro j hj
      rw [h1, Function.update_noteq hj]

theorem FreeListInv_env_run (c : Cfg) (s : KState) (e : Nat) (cpu : Int) (s' : KState)
    (h : FreeListInv c s) (hnf : (s.envs e).env_status ≠ EnvStatus.ENV_FREE)
    (hrun : env_run s e cpu = some s') :
    FreeListInv c s' := by
  obtain ⟨h1, -, h3, h4, h5⟩ := env_run_effect s e cpu s' hrun
  apply FreeListInv_frame c s _ h h1
  · intro j _
    exact (h4 j).1
  · intro j _
    by_cases hj : j = e
    · subst hj
      simp [h3, hnf]
    · rw [h5 j hj]
      split
      · rename_i hr
        simp [hr.2]
      · rfl

/-- C9: the predicate "a record of the table is reachable from `env_free_list`
through `env_link` if and only if its status is `ENV_FREE`, and the list has
no repeated record" holds after `env_init` and is preserved by `env_alloc`
and `env_guest_alloc` (whether they succeed or fail), by `env_free` and
`env_destroy` applied to a non-free record, and by `env_run` applied to a
non-free record. -/
theorem FreeListInv_preserved (c : Cfg) :
    (∀ s0, FreeListInv c (env_init c s0)) ∧
    (∀ s, FreeListInv c s →
      (∀ parent_id pg, FreeListInv c (env_alloc c s parent_id pg).2) ∧
      (∀ parent_id p q r a b, FreeListInv c (env_guest_alloc c s parent_id p q r a b).2) ∧
      (∀ e walk pdpt, e < NENV c → (s.envs e).env_status ≠ EnvStatus.ENV_FREE →
        FreeListInv c (env_free s e walk pdpt) ∧ FreeListInv c (env_destroy s e walk pdpt)) ∧
      (∀ e cpu s', (s.envs e).env_status ≠ EnvStatus.ENV_FREE → env_run s e cpu = some s' →
        FreeListInv c s')) := by
  refine ⟨FreeListInv_init c, fun s h => ⟨?_, ?_, ?_, ?_⟩⟩
  · intro parent_id pg
    exact FreeListInv_env_alloc c s parent_id pg h
  · intro parent_id p q r a b
    exact FreeListInv_env_guest_alloc c s parent_id p q r a b h
  · intro e walk pdpt he hnf
    exact ⟨FreeListInv_env_free c s e walk pdpt h he hnf,
      FreeListInv_env_destroy c s e walk pdpt h he hnf⟩
  · intro e cpu s' hnf hrun
    exact FreeListInv_env_run c s e cpu s' h hnf hrun

/-- Witness for `FreeListInv_preserved`: the sample state satisfies the
predicate, and so do the states after releasing its record 2 and after running
its record 2. -/
theorem FreeListInv_preserved_witness :
    FreeListInv cfg4 sampleState ∧
    FreeListInv cfg4 (env_free sampleState 2 [] 0) ∧
    FreeListInv cfg4 (env_destroy sampleState 2 [] 0) ∧
    (∃ s', env_run sampleState 2 0 = some s' ∧ FreeListInv cfg4 s') := by
  have hinv : FreeListInv cfg4 sampleState :=
    ⟨[0, 3], by decide, by decide, by decide, by decide⟩
  have h := (FreeListInv_preserved cfg4).2 sampleState hinv
  have h2 := h.2.2.1 2 [] 0 (by decide) (by decide)
  refine ⟨hinv, h2.1, h2.2, ?_⟩
  have hs : (env_run sampleState 2 0).isSome = true := by decide
  obtain ⟨s', hr⟩ := Option.isSome_iff_exists.mp hs
  exact ⟨s', hr, h.2.2.2 2 0 s' (by decide) hr⟩

/-! ## Identities -/

theorem mkenvid_pos_ENVX (c : Cfg) (old : Int) (e : Nat) (he : e < NENV c) :
    0 < mkenvid c old e ∧ ENVX c (mkenvid c old e) = (e : Int) := by
  obtain ⟨G, -, hpos, hmod, hsum, hid⟩ := mkenvid_spec c old e he
  rw [hid, ENVX_eq, toU32_natCast _ (by omega)]
  refine ⟨by omega, ?_⟩
  have h1 : (G + e) % NENV c = e := by
    rw [Nat.add_mod, hmod, Nat.zero_add, Nat.mod_mod, Nat.mod_eq_of_lt he]
  rw [h1]

/-- C6: for every slot index `e` in `[0, NENV)` and every previous value of
`env_id` in that slot, the identity assigned by `env_alloc` and by
`env_guest_alloc` is strictly positive and satisfies `ENVX(env_id) == e`. -/
theorem env_id_positive_indexed (c : Cfg) (s : KState) (parent_id : Int) (e : Nat)
    (he : e < NENV c) (hfl : s.env_free_list = some e) :
    (∀ p, (env_alloc c s parent_id (some p)).1 = Except.ok e ∧
      ((env_alloc c s parent_id (some p)).2.envs e).env_id = mkenvid c (s.envs e).env_id e) ∧
    (∀ p q r a b,
      (env_guest_alloc c s parent_id (some p) (some q) (some r) (some a) (some b)).1
        = Except.ok e ∧
      ((env_guest_alloc c s parent_id (some p) (some q) (some r) (some a) (some b)).2.envs
        e).env_id = mkenvid c (s.envs e).env_id e) ∧
    0 < mkenvid c (s.envs e).env_id e ∧
    ENVX c (mkenvid c (s.envs e).env_id e) = (e : Int) := by
  refine ⟨?_, ?_, mkenvid_pos_ENVX c _ e he⟩
  · intro p
    rw [env_alloc_ok c s parent_id e p hfl]
    simp [env_alloc_record]
  · intro p q r a b
    obtain ⟨h1, h2, -, -, -⟩ := env_guest_alloc_ok c s parent_id e p q r a b hfl
    rw [h1, h2]
    simp [env_guest_alloc_record]

/-- Witness for `env_id_positive_indexed`: record 0 still holds `INT32_MAX` as
identity; the addition wraps and the new identity is `0x1000`. -/
theorem env_id_positive_indexed_witness :
    (sampleStateMax.envs 0).env_id = 2147483647 ∧
    ((env_alloc cfg4 sampleStateMax 0 (some 5)).2.envs 0).env_id = 4096 ∧
    0 < mkenvid cfg4 2147483647 0 ∧ ENVX cfg4 (mkenvid cfg4 2147483647 0) = 0 := by
  have h := env_id_positive_indexed cfg4 sampleStateMax 0 0 (by decide) rfl
  refine ⟨rfl, ?_, h.2.2.1, h.2.2.2⟩
  rw [(h.1 5).2]
  decide

/-! ## Reachable states -/

theorem FreeListInv_head (c : Cfg) (s : KState) (e : Nat) (h : FreeListInv c s)
    (hfl : s.env_free_list = some e) :
    e < NENV c ∧ (s.envs e).env_status = EnvStatus.ENV_FREE := by
  obtain ⟨l, hch, -, hlt, hiff⟩ := h
  rw [hfl] at hch
  cases l with
  | nil => exact absurd hch (by simp [FreeChain])
  | cons a l' =>
    simp only [FreeChain, Option.some.injEq] at hch
    have hea := hch.1
    subst hea
    have he := hlt e (List.mem_cons_self _ _)
    exact ⟨he, (hiff e he).mp (List.mem_cons_self _ _)⟩

theorem FreeListInv_apply (c : Cfg) (s : KState) (k : Call) (h : FreeListInv c s)
    (hv : k.valid c s) : FreeListInv c (k.apply c s) := by
  cases k with
  | alloc parent_id pg => exact FreeListInv_env_alloc c s parent_id pg h
  | guest_alloc parent_id p q r a b => exact FreeListInv_env_guest_alloc c s parent_id p q r a b h
  | free e walk pdpt => exact FreeListInv_env_free c s e walk pdpt h hv.1 hv.2
  | destroy e walk pdpt => exact FreeListInv_env_destroy c s e walk pdpt h hv.1 hv.2
  | run e cpu =>
    obtain ⟨s', hs'⟩ := Option.isSome_iff_exists.mp hv.2.2
    simp only [Call.apply, hs', Option.getD_some]
    exact FreeListInv_env_run c s e cpu s' h hv.2.1 hs'

theorem Reachable_FreeListInv (c : Cfg) (s : KState) (h : Reachable c s) : FreeListInv c s := by
  induction h with
  | init s0 => exact FreeListInv_init c s0
  | step s k _ hv ih => exact FreeListInv_apply c s k ih hv

/-- What a call does to the identity and the status of a record: either the
call allocates the record, or the identity stays and a non-free status was
non-free before. -/
theorem Call_apply_record (c : Cfg) (s : KState) (k : Call) (hinv : FreeListInv c s)
    (hv : k.valid c s) (j : Nat) :
    (k.allocated c s = some j ∧ j < NENV c ∧
      (s.envs j).env_status = EnvStatus.ENV_FREE ∧
      ((k.apply c s).envs j).env_id = mkenvid c (s.envs j).env_id j ∧
      ((k.apply c s).envs j).env_status = EnvStatus.ENV_RUNNABLE) ∨
    (k.allocated c s ≠ some j ∧
      ((k.apply c s).envs j).env_id = (s.envs j).env_id ∧
      (((k.apply c s).envs j).env_status ≠ EnvStatus.ENV_FREE →
        (s.envs j).env_status ≠ EnvStatus.ENV_FREE)) := by
  cases k with
  | alloc parent_id pg =>
    simp only [Call.allocated, Call.apply]
    cases hfl : s.env_free_list with
    | none =>
      rw [env_alloc_none c s parent_id pg hfl]
      exact Or.inr ⟨by simp, rfl, fun h => h⟩
    | some e =>
      cases pg with
      | none =>
        rw [env_alloc_nomem c s parent_id e hfl]
        exact Or.inr ⟨by simp, rfl, fun h => h⟩
      | some p =>
        obtain ⟨he, hfree⟩ := FreeListInv_head c s e hinv hfl
        rw [env_alloc_ok c s parent_id e p hfl]
        by_cases hje : j = e
        · subst hje
          left
          refine ⟨rfl, he, hfree, ?_, ?_⟩ <;> simp [env_alloc_record]
        · right
          refine ⟨?_, ?_, ?_⟩
          · intro h
            exact hje (Option.some.inj h).symm
          · simp only
            rw [Function.update_noteq hje]
          · simp only
            rw [Function.update_noteq hje]
            exact fun h => h
  | guest_alloc parent_id p q r a b =>
    simp only [Call.allocated, Call.apply]
    cases hfl : s.env_free_list with
    | none =>
      rw [env_guest_alloc_none c s parent_id p q r a b hfl]
      exact Or.inr ⟨by simp, rfl, fun h => h⟩
    | some e =>
      by_cases hf : p = none ∨ q = none ∨ r = none ∨ a = none ∨ b = none
      · obtain ⟨h1, -, -, -, h5, -, h7, h8⟩ :=
          env_guest_alloc_fail c s parent_id e p q r a b hfl hf
        right
        rw [h1]
        refine ⟨by simp, ?_, ?_⟩
        · by_cases hje : j = e
          · rw [hje, h8]
          · rw [h5 j hje]
        · by_cases hje : j = e
          · rw [hje, h7]
            exact fun h => h
          · rw [h5 j hje]
            exact fun h => h
      · simp only [not_or] at hf
        obtain ⟨hp, hq, hr, ha, hb⟩ := hf
        obtain ⟨p, rfl⟩ := Option.ne_none_iff_exists'.mp hp
        obtain ⟨q, rfl⟩ := Option.ne_none_iff_exists'.mp hq
        obtain ⟨r, rfl⟩ := Option.ne_none_iff_exists'.mp hr
        obtain ⟨a, rfl⟩ := Option.ne_none_iff_exists'.mp ha
        obtain ⟨b, rfl⟩ := Option.ne_none_iff_exists'.mp hb
        obtain ⟨he, hfree⟩ := FreeListInv_head c s e hinv hfl
        obtain ⟨h1, h2, -, -, -⟩ := env_guest_alloc_ok c s parent_id e p q r a b hfl
        rw [h1, h2]
        by_cases hje : j = e
        · subst hje
          left
          refine ⟨rfl, he, hfree, ?_, ?_⟩ <;> simp [env_guest_alloc_record]
        · right
          refine ⟨?_, ?_, ?_⟩
          · intro h
            exact hje (Option.some.inj h).symm
          · rw [Function.update_noteq hje]
          · rw [Function.update_noteq hje]
            exact fun h => h
  | free e walk pdpt =>
    right
    simp only [Call.allocated, Call.apply]
    rw [(env_free_effect s e walk pdpt).1]
    refine ⟨by simp, ?_, ?_⟩
    · by_cases hje : j = e
      · subst hje
        simp [env_free_record]
      · rw [Function.update_noteq hje]
    · by_cases hje : j = e
      · subst hje
        simp [env_free_record]
      · rw [Function.update_noteq hje]
        exact fun h => h
  | destroy e walk pdpt =>
    right
    simp only [Call.allocated, Call.apply]
    obtain ⟨hA, hB⟩ := env_destroy_effect s e walk pdpt
    refine ⟨by simp, ?_, ?_⟩
    · by_cases hcond : (s.envs e).env_status = EnvStatus.ENV_RUNNING ∧ s.curenv ≠ some e
      · rw [(hA hcond).1]
        by_cases hje : j = e
        · subst hje
          simp
        · rw [Function.update_noteq hje]
      · rw [(hB hcond).1]
        by_cases hje : j = e
        · subst hje
          simp [env_free_record]
        · rw [Function.update_noteq hje]
    · by_cases hcond : (s.envs e).env_status = EnvStatus.ENV_RUNNING ∧ s.curenv ≠ some e
      · rw [(hA hcond).1]
        by_cases hje : j = e
        · subst hje
          intro _
          exact hv.2
        · rw [Function.update_noteq hje]
          exact fun h => h
      · rw [(hB hcond).1]
        by_cases hje : j = e
        · subst hje
          simp [env_free_record]
        · rw [Function.update_noteq hje]
          exact fun h => h
  | run e cpu =>
    right
    obtain ⟨s', hs'⟩ := Option.isSome_iff_exists.mp hv.2.2
    simp only [Call.allocated, Call.apply, hs', Option.getD_some]
    obtain ⟨-, -, -, h4, h5⟩ := env_run_effect s e cpu s' hs'
    refine ⟨by simp, (h4 j).2, ?_⟩
    by_cases hje : j = e
    · subst hje
      intro _
      exact hv.2.1
    · rw [h5 j hje]
      split
      · rename_i hr
        intro _
        rw [hr.2]
        decide
      · exact fun h => h

/-- In a reachable state the identity of a non-free record of the table is
positive and names the slot of the record. -/
theorem Reachable_id (c : Cfg) (s : KState) (h : Reachable c s) (j : Nat) (hj : j < NENV c)
    (hnf : (s.envs j).env_status ≠ EnvStatus.ENV_FREE) :
    0 < (s.envs j).env_id ∧ ENVX c (s.envs j).env_id = (j : Int) := by
  induction h with
  | init s0 =>
    rw [env_init_envs, if_pos hj] at hnf
    exact absurd rfl hnf
  | step s k hr hv ih =>
    rcases Call_apply_record c s k (Reachable_FreeListInv c s hr) hv j with h | h
    · rw [h.2.2.2.1]
      exact mkenvid_pos_ENVX c _ j hj
    · rw [h.2.1]
      exact ih (h.2.2 hnf)

/-- C5: in every state reachable from `env_init` through `env_alloc`,
`env_guest_alloc`, `env_free`, `env_destroy` and `env_run`, two distinct
records of the table whose status is not `ENV_FREE` have different
identities. -/
theorem env_id_unique (c : Cfg) (s : KState) (h : Reachable c s) (i j : Nat)
    (hi : i < NENV c) (hj : j < NENV c)
    (hfi : (s.envs i).env_status ≠ EnvStatus.ENV_FREE)
    (hfj : (s.envs j).env_status ≠ EnvStatus.ENV_FREE) (hij : i ≠ j) :
    (s.envs i).env_id ≠ (s.envs j).env_id := by
  intro heq
  have h1 := (Reachable_id c s h i hi hfi).2
  have h2 := (Reachable_id c s h j hj hfj).2
  rw [heq, h2] at h1
  exact hij (by omega)

theorem twoAllocated_reachable : Reachable cfg4 twoAllocated :=
  Reachable.step _ _ (Reachable.step _ _ (Reachable.init boot) trivial) trivial

/-- Witness for `env_id_unique`: after `env_init` and two allocations the
records 0 and 1 are in use and carry the identities `0x1000` and `0x1001`. -/
theorem env_id_unique_witness :
    Reachable cfg4 twoAllocated ∧
    (twoAllocated.envs 0).env_id = 0x1000 ∧ (twoAllocated.envs 1).env_id = 0x1001 ∧
    (twoAllocated.envs 0).env_id ≠ (twoAllocated.envs 1).env_id :=
  ⟨twoAllocated_reachable, by decide, by decide,
    env_id_unique cfg4 twoAllocated twoAllocated_reachable 0 1 (by decide) (by decide)
      (by decide) (by decide) (by decide)⟩

/-! ## Order of reuse -/

theorem env_alloc_seq_reachable (c : Cfg) (args : List (Int × Nat)) (s : KState)
    (h : Reachable c s) : Reachable c (env_alloc_seq c s args).2 := by
  induction args generalizing s with
  | nil => exact h
  | cons x rest ih =>
    obtain ⟨parent_id, pg⟩ := x
    simp only [env_alloc_seq]
    exact ih _ (Reachable.step s (Call.alloc parent_id (some pg)) h trivial)

/-- After `env_free(a)` and `env_free(b)` the next `env_alloc` returns `b` and
the one after it returns `a`; the free list is then what it was before the two
releases when `a` and `b` differ. -/
theorem free_free_alloc_alloc (c : Cfg) (s : KState) (a b : Nat)
    (walk1 walk2 : List Nat) (pdpt1 pdpt2 : Nat) (par1 par2 : Int) (pg1 pg2 : Nat) :
    (env_alloc c (env_free (env_free s a walk1 pdpt1) b walk2 pdpt2) par1 (some pg1)).1
      = Except.ok b ∧
    (env_alloc c
      (env_alloc c (env_free (env_free s a walk1 pdpt1) b walk2 pdpt2) par1 (some pg1)).2
      par2 (some pg2)).1 = Except.ok a ∧
    (a ≠ b →
      (env_alloc c
        (env_alloc c (env_free (env_free s a walk1 pdpt1) b walk2 pdpt2) par1 (some pg1)).2
        par2 (some pg2)).2.env_free_list = s.env_free_list) := by
  obtain ⟨h1, h2, -, -⟩ := env_free_effect s a walk1 pdpt1
  obtain ⟨k1, k2, -, -⟩ := env_free_effect (env_free s a walk1 pdpt1) b walk2 pdpt2
  have hok1 := env_alloc_ok c _ par1 b pg1 k2
  have hlinkb : ((env_free (env_free s a walk1 pdpt1) b walk2 pdpt2).envs b).env_link
      = some a := by
    rw [k1, Function.update_same]
    simp [env_free_record, h2]
  have hhead : (env_alloc c (env_free (env_free s a walk1 pdpt1) b walk2 pdpt2) par1
      (some pg1)).2.env_free_list = some a := by
    rw [hok1]
    exact hlinkb
  have hok2 := env_alloc_ok c _ par2 a pg2 hhead
  refine ⟨by rw [hok1], by rw [hok2], ?_⟩
  intro hab
  rw [hok2]
  simp only
  rw [hok1]
  simp only
  rw [Function.update_noteq hab, k1, Function.update_noteq hab, h1, Function.update_same]
  simp [env_free_record]

/-- C8, as the code behaves: releases are reused in LIFO order.  In a state
with an empty free list, after `env_free(a)` and then `env_free(b)` for two
distinct records, the next `env_alloc` returns `b`, the one after it returns
`a`, and a third one finds the free list empty. -/
theorem env_free_reuse_lifo (c : Cfg) (s : KState) (a b : Nat)
    (walk1 walk2 : List Nat) (pdpt1 pdpt2 : Nat) (par1 par2 par3 : Int) (pg1 pg2 : Nat)
    (pg3 : Option Nat) (hempty : s.env_free_list = none) (hab : a ≠ b) :
    (env_alloc c (env_free (env_free s a walk1 pdpt1) b walk2 pdpt2) par1 (some pg1)).1
      = Except.ok b ∧
    (env_alloc c
      (env_alloc c (env_free (env_free s a walk1 pdpt1) b walk2 pdpt2) par1 (some pg1)).2
      par2 (some pg2)).1 = Except.ok a ∧
    (env_alloc c
      (env_alloc c
        (env_alloc c (env_free (env_free s a walk1 pdpt1) b walk2 pdpt2) par1 (some pg1)).2
        par2 (some pg2)).2 par3 pg3).1 = Except.error Errno.E_NO_FREE_ENV := by
  obtain ⟨h1, h2, h3⟩ := free_free_alloc_alloc c s a b walk1 walk2 pdpt1 pdpt2 par1 par2 pg1 pg2
  refine ⟨h1, h2, ?_⟩
  rw [env_alloc_none c _ par3 pg3 ((h3 hab).trans hempty)]

/-- Witness for `env_free_reuse_lifo`: a full table of four records, records 0
and 1 released in this order. -/
theorem env_free_reuse_lifo_witness :
    (env_alloc_seq cfg4 (env_init cfg4 boot) [(0, 7), (0, 8), (0, 9), (0, 10)]).2.env_free_list
      = none ∧
    (env_alloc cfg4 (env_free (env_free
      (env_alloc_seq cfg4 (env_init cfg4 boot) [(0, 7), (0, 8), (0, 9), (0, 10)]).2
      0 [] 0) 1 [] 0) 0 (some 11)).1 = Except.ok 1 :=
  ⟨(env_alloc_seq_full cfg4 boot [(0, 7), (0, 8), (0, 9), (0, 10)] (by decide)).1,
   (env_free_reuse_lifo cfg4
    (env_alloc_seq cfg4 (env_init cfg4 boot) [(0, 7), (0, 8), (0, 9), (0, 10)]).2
    0 1 [] [] 0 0 0 0 0 11 12 none
    (env_alloc_seq_full cfg4 boot [(0, 7), (0, 8), (0, 9), (0, 10)] (by decide)).1
    (by decide)).1⟩

theorem fullArgs_length : fullArgs.length = NENV cfg1024 := by
  unfold fullArgs
  rw [List.length_map, List.length_range]
  rfl

theorem fullArgs_full :
    Reachable cfg1024 (env_alloc_seq cfg1024 (env_init cfg1024 boot) fullArgs).2 ∧
    (env_alloc_seq cfg1024 (env_init cfg1024 boot) fullArgs).2.env_free_list = none ∧
    ∀ i, i < NENV cfg1024 →
      ((env_alloc_seq cfg1024 (env_init cfg1024 boot) fullArgs).2.envs i).env_status
        = EnvStatus.ENV_RUNNABLE :=
  ⟨env_alloc_seq_reachable cfg1024 fullArgs (env_init cfg1024 boot) (Reachable.init boot),
    env_alloc_seq_full cfg1024 boot fullArgs fullArgs_length⟩

/-- C8 fails as stated: in the reachable state where all 1024 records are in
use (empty free list), after `env_free` of record 0 and then of record 1 the
next `env_alloc` returns record 1, not record 0, and the one after it returns
record 0, not record 1. -/
theorem env_free_reuse_not_fifo :
    Reachable cfg1024 (env_alloc_seq cfg1024 (env_init cfg1024 boot) fullArgs).2 ∧
    (env_alloc_seq cfg1024 (env_init cfg1024 boot) fullArgs).2.env_free_list = none ∧
    ((env_alloc_seq cfg1024 (env_init cfg1024 boot) fullArgs).2.envs 0).env_status
      ≠ EnvStatus.ENV_FREE ∧
    ((env_alloc_seq cfg1024 (env_init cfg1024 boot) fullArgs).2.envs 1).env_status
      ≠ EnvStatus.ENV_FREE ∧
    (env_alloc cfg1024
      (env_free (env_free (env_alloc_seq cfg1024 (env_init cfg1024 boot) fullArgs).2
        0 [] 0) 1 [] 0) 0 (some 2000)).1 ≠ Except.ok 0 ∧
    (env_alloc cfg1024
      (env_alloc cfg1024
        (env_free (env_free (env_alloc_seq cfg1024 (env_init cfg1024 boot) fullArgs).2
          0 [] 0) 1 [] 0) 0 (some 2000)).2 0 (some 2001)).1 ≠ Except.ok 1 :=
  ⟨fullArgs_full.1, fullArgs_full.2.1,
    fun h => absurd ((fullArgs_full.2.2 0 (by decide)).symm.trans h) (by decide),
    fun h => absurd ((fullArgs_full.2.2 1 (by decide)).symm.trans h) (by decide),
    fun h => absurd (Except.ok.inj ((free_free_alloc_alloc cfg1024
      (env_alloc_seq cfg1024 (env_init cfg1024 boot) fullArgs).2
      0 1 [] [] 0 0 0 0 2000 2001).1.symm.trans h)) (by decide),
    fun h => absurd (Except.ok.inj ((free_free_alloc_alloc cfg1024
      (env_alloc_seq cfg1024 (env_init cfg1024 boot) fullArgs).2
      0 1 [] [] 0 0 0 0 2000 2001).2.1.symm.trans h)) (by decide)⟩

/-! ## Generations -/

theorem NENV_cases (c : Cfg) :
    NENV c = 1 ∨ NENV c = 2 ∨ NENV c = 4 ∨ NENV c = 8 ∨ NENV c = 16 ∨ NENV c = 32 ∨
    NENV c = 64 ∨ NENV c = 128 ∨ NENV c = 256 ∨ NENV c = 512 ∨ NENV c = 1024 ∨
    NENV c = 2048 ∨ NENV c = 4096 := by
  rw [NENV_eq]
  have h := c.LOG2NENV_le
  unfold ENVGENSHIFT at h
  generalize c.LOG2NENV = L at h
  interval_cases L <;> simp

/-- The generation component of an `int32_t` value, as an integer. -/
theorem gen_part_eq (c : Cfg) (x : Int) :
    gen_part c x = ofU32 (toU32 x - toU32 x % NENV c) := by
  unfold gen_part
  exact and32_high_eq c x

theorem mod_add_4096 (c : Cfg) (x : Nat) : (x + 4096) % NENV c = x % NENV c := by
  obtain ⟨k, hk⟩ := NENV_dvd c
  rw [hk]
  exact Nat.add_mul_mod_self_left x (NENV c) k

theorem floor_ge_two_pow_31 (c : Cfg) (x : Nat) (h : 2147483648 ≤ x) :
    2147483648 ≤ x - x % NENV c := by
  obtain ⟨k, hk⟩ := NENV_dvd c
  have h31 : (2147483648 : Nat) = NENV c * (k * 524288) := by
    rw [← Nat.mul_assoc, ← hk]
  have h1 : x - x % NENV c = NENV c * (x / NENV c) := by
    have := Nat.div_add_mod x (NENV c)
    omega
  rw [h1]
  have h2 : k * 524288 ≤ x / NENV c := by
    rw [Nat.le_div_iff_mul_le (NENV_pos c), Nat.mul_comm, ← h31]
    exact h
  calc 2147483648 = NENV c * (k * 524288) := h31
    _ ≤ NENV c * (x / NENV c) := Nat.mul_le_mul_left _ h2

/-- The generation chosen by the allocators compared with the generation
component of the identity the record held before. -/
theorem generation_compare (c : Cfg) (old : Int) (h32 : isInt32 old) :
    (old < 2147479552 → gen_part c old < generation c old) ∧
    (2147479552 ≤ old → generation c old = 4096 ∧ 2147479552 ≤ gen_part c old) := by
  obtain ⟨G, hG, hGpos, -, -⟩ := generation_spec c old
  unfold isInt32 at h32
  by_cases hneg : old < 0
  · have hv : toU32 old = (old + 4294967296).toNat := by
      unfold toU32
      omega
    have hfl := floor_ge_two_pow_31 c (toU32 old) (by omega)
    have hlt := toU32_lt old
    have hgp : gen_part c old < 0 := by
      rw [gen_part_eq]
      unfold ofU32
      split <;> omega
    refine ⟨fun _ => ?_, fun h => ?_⟩
    · rw [hG]
      omega
    · omega
  · have hv : toU32 old = old.toNat := by
      unfold toU32
      omega
    have hu : toU32 (old + 4096) = old.toNat + 4096 := by
      unfold toU32
      omega
    have hmod := mod_add_4096 c old.toNat
    have hle : old.toNat % NENV c ≤ old.toNat := Nat.mod_le _ _
    have hgp : gen_part c old = ((old.toNat - old.toNat % NENV c : Nat) : Int) := by
      rw [gen_part_eq, hv]
      apply ofU32_of_lt
      omega
    rw [generation_eq, hu, hmod, hgp]
    refine ⟨fun h => ?_, fun h => ?_⟩
    · rw [if_pos (by omega)]
      omega
    · have hfl := floor_ge_two_pow_31 c (old.toNat + 4096) (by omega)
      rw [hmod] at hfl
      rw [if_neg (by omega)]
      exact ⟨rfl, by omega⟩

theorem gen_part_mkenvid (c : Cfg) (old : Int) (e : Nat) (he : e < NENV c) :
    gen_part c (mkenvid c old e) = generation c old := by
  obtain ⟨G, hG, -, hmod, hsum, hid⟩ := mkenvid_spec c old e he
  rw [hid, hG, gen_part_eq, toU32_natCast _ (by omega)]
  have h1 : (G + e) % NENV c = e := by
    rw [Nat.add_mod, hmod, Nat.zero_add, Nat.mod_mod, Nat.mod_eq_of_lt he]
  rw [h1, Nat.add_sub_cancel]
  exact ofU32_of_lt G (by omega)

/-- C4, as the code behaves: when a record is allocated again, the generation
component of its new identity is strictly greater than the generation
component of the identity it held before, as long as that identity is below
`0x7FFFF000`; from an identity at or above `0x7FFFF000` the 32-bit addition
wraps and the generation restarts at `1 << ENVGENSHIFT`. -/
theorem generation_increases (c : Cfg) (s : KState) (parent_id : Int) (e : Nat)
    (he : e < NENV c) (hfl : s.env_free_list = some e) (h32 : isInt32 (s.envs e).env_id) :
    ((s.envs e).env_id < 2147479552 →
      (∀ p, gen_part c (s.envs e).env_id
        < gen_part c ((env_alloc c s parent_id (some p)).2.envs e).env_id) ∧
      (∀ p q r a b, gen_part c (s.envs e).env_id
        < gen_part c ((env_guest_alloc c s parent_id (some p) (some q) (some r) (some a)
            (some b)).2.envs e).env_id)) ∧
    (2147479552 ≤ (s.envs e).env_id →
      (∀ p, gen_part c ((env_alloc c s parent_id (some p)).2.envs e).env_id = 4096) ∧
      (∀ p q r a b, gen_part c ((env_guest_alloc c s parent_id (some p) (some q) (some r)
          (some a) (some b)).2.envs e).env_id = 4096) ∧
      2147479552 ≤ gen_part c (s.envs e).env_id) := by
  have hA : ∀ p, ((env_alloc c s parent_id (some p)).2.envs e).env_id
      = mkenvid c (s.envs e).env_id e := by
    intro p
    rw [env_alloc_ok c s parent_id e p hfl]
    simp [env_alloc_record]
  have hB : ∀ p q r a b, ((env_guest_alloc c s parent_id (some p) (some q) (some r) (some a)
      (some b)).2.envs e).env_id = mkenvid c (s.envs e).env_id e := by
    intro p q r a b
    rw [(env_guest_alloc_ok c s parent_id e p q r a b hfl).2.1]
    simp [env_guest_alloc_record]
  obtain ⟨h1, h2⟩ := generation_compare c (s.envs e).env_id h32
  refine ⟨fun h => ⟨fun p => ?_, fun p q r a b => ?_⟩,
    fun h => ⟨fun p => ?_, fun p q r a b => ?_, (h2 h).2⟩⟩
  · rw [hA, gen_part_mkenvid c _ e he]
    exact h1 h
  · rw [hB, gen_part_mkenvid c _ e he]
    exact h1 h
  · rw [hA, gen_part_mkenvid c _ e he]
    exact (h2 h).1
  · rw [hB, gen_part_mkenvid c _ e he]
    exact (h2 h).1

/-- Witness for `generation_increases`: the head of the free list of the
sample state still has identity 0; its new generation is `0x1000`. -/
theorem generation_increases_witness :
    sampleState.env_free_list = some 0 ∧ isInt32 (sampleState.envs 0).env_id ∧
    gen_part cfg4 (sampleState.envs 0).env_id
      < gen_part cfg4 ((env_alloc cfg4 sampleState 0 (some 5)).2.envs 0).env_id :=
  ⟨rfl, by decide,
    ((generation_increases cfg4 sampleState 0 0 (by decide) rfl (by decide)).1
      (by decide)).1 5⟩

/-! ## Wrap-around of the generation -/

theorem mkenvid_zero (c : Cfg) (old : Int) : mkenvid c old 0 = generation c old := by
  obtain ⟨G, hG, -, -, -, hid⟩ := mkenvid_spec c old 0 (NENV_pos c)
  rw [hid, hG, Nat.add_zero]

theorem generation_mul (c : Cfg) (k : Nat) (hk : k < 524287) :
    generation c ((4096 * k : Nat) : Int) = ((4096 * (k + 1) : Nat) : Int) := by
  have hu : toU32 (((4096 * k : Nat) : Int) + 4096) = 4096 * (k + 1) := by
    unfold toU32
    omega
  have hmod : (4096 * (k + 1)) % NENV c = 0 :=
    Nat.mod_eq_zero_of_dvd (Dvd.dvd.mul_right (NENV_dvd c) _)
  rw [generation_eq, hu, hmod, Nat.sub_zero, if_pos (by omega)]

theorem generation_wrap (c : Cfg) :
    generation c ((4096 * 524287 : Nat) : Int) = 4096 := by
  have hu : toU32 (((4096 * 524287 : Nat) : Int) + 4096) = 2147483648 := by
    unfold toU32
    omega
  have hmod : 2147483648 % NENV c = 0 := by
    obtain ⟨j, hj⟩ := NENV_dvd c
    have h31 : (2147483648 : Nat) = NENV c * (j * 524288) := by
      rw [← Nat.mul_assoc, ← hj]
    rw [h31]
    exact Nat.mul_mod_right _ _
  rw [generation_eq, hu, hmod, Nat.sub_zero, if_neg (by omega)]

/-- One round of allocating record 0 and releasing it again. -/
theorem alloc_free_effect (c : Cfg) (s : KState) (hfl : s.env_free_list = some 0) :
    (alloc_free c 0 s).env_free_list = some 0 ∧
    ((alloc_free c 0 s).envs 0).env_id = mkenvid c (s.envs 0).env_id 0 ∧
    ((alloc_free c 0 s).envs 0).env_status = EnvStatus.ENV_FREE ∧
    (Reachable c s → Reachable c (alloc_free c 0 s)) := by
  have hok := env_alloc_ok c s 0 0 1 hfl
  obtain ⟨h1, h2, -, -⟩ := env_free_effect (env_alloc c s 0 (some 1)).2 0 [] 0
  unfold alloc_free
  refine ⟨h2, ?_, ?_, ?_⟩
  · rw [h1, Function.update_same, hok]
    simp [env_free_record, env_alloc_record]
  · rw [h1, Function.update_same]
    simp [env_free_record]
  · intro hr
    have hr1 : Reachable c (env_alloc c s 0 (some 1)).2 :=
      Reachable.step s (Call.alloc 0 (some 1)) hr trivial
    refine Reachable.step _ (Call.free 0 [] 0) hr1 ⟨NENV_pos c, ?_⟩
    rw [hok]
    simp [env_alloc_record]

/-- The state after `k` rounds of allocating and releasing record 0, started
right after `env_init` on the cleared table. -/
theorem alloc_free_rounds (c : Cfg) (k : Nat) (hk : k ≤ 524287) :
    Reachable c (Nat.iterate (alloc_free c 0) k (env_init c boot)) ∧
    (Nat.iterate (alloc_free c 0) k (env_init c boot)).env_free_list = some 0 ∧
    ((Nat.iterate (alloc_free c 0) k (env_init c boot)).envs 0).env_id
      = ((4096 * k : Nat) : Int) := by
  induction k with
  | zero =>
    refine ⟨Reachable.init boot, rfl, ?_⟩
    simp only [Function.iterate_zero, id_eq]
    rw [env_init_envs, if_pos (NENV_pos c)]
    rfl
  | succ k ih =>
    obtain ⟨ih1, ih2, ih3⟩ := ih (by omega)
    obtain ⟨h1, h2, -, h4⟩ := alloc_free_effect c _ ih2
    rw [Function.iterate_succ_apply']
    refine ⟨h4 ih1, h1, ?_⟩
    rw [h2, ih3, mkenvid_zero, generation_mul c k (by omega)]

theorem env_alloc_env_id (c : Cfg) (s : KState) (parent_id : Int) (e p : Nat)
    (hfl : s.env_free_list = some e) :
    (env_alloc c s parent_id (some p)).1 = Except.ok e ∧
    ((env_alloc c s parent_id (some p)).2.envs e).env_id = mkenvid c (s.envs e).env_id e ∧
    ((env_alloc c s parent_id (some p)).2.envs e).env_status = EnvStatus.ENV_RUNNABLE := by
  rw [env_alloc_ok c s parent_id e p hfl]
  simp [env_alloc_record]

/-- C4 fails as stated: 524287 rounds of allocating and releasing record 0
after `env_init` leave the identity `0x7FFFF000` in the record; the next
allocation of the record wraps and assigns the generation `0x1000`, which is
smaller than the generation `0x7FFFF000` the record had before. -/
theorem generation_not_increasing :
    Reachable cfg1024 (Nat.iterate (alloc_free cfg1024 0) 524287 (env_init cfg1024 boot)) ∧
    (env_alloc cfg1024 (Nat.iterate (alloc_free cfg1024 0) 524287 (env_init cfg1024 boot)) 0 (some 1)).1 = Except.ok 0 ∧
    gen_part cfg1024 ((Nat.iterate (alloc_free cfg1024 0) 524287 (env_init cfg1024 boot)).envs 0).env_id = 2147479552 ∧
    gen_part cfg1024 ((env_alloc cfg1024 (Nat.iterate (alloc_free cfg1024 0) 524287 (env_init cfg1024 boot)) 0 (some 1)).2.envs 0).env_id = 4096 ∧
    ¬ (gen_part cfg1024 ((Nat.iterate (alloc_free cfg1024 0) 524287 (env_init cfg1024 boot)).envs 0).env_id
      < gen_part cfg1024 ((env_alloc cfg1024 (Nat.iterate (alloc_free cfg1024 0) 524287 (env_init cfg1024 boot)) 0 (some 1)).2.envs 0).env_id) := by
  have hr := alloc_free_rounds cfg1024 524287 (Nat.le_refl _)
  have ha := env_alloc_env_id cfg1024 (Nat.iterate (alloc_free cfg1024 0) 524287 (env_init cfg1024 boot)) 0 0 1 hr.2.1
  have hold : gen_part cfg1024 ((Nat.iterate (alloc_free cfg1024 0) 524287 (env_init cfg1024 boot)).envs 0).env_id = 2147479552 :=
    (congrArg (gen_part cfg1024) hr.2.2).trans (by decide)
  have hnew : gen_part cfg1024 ((env_alloc cfg1024 (Nat.iterate (alloc_free cfg1024 0) 524287 (env_init cfg1024 boot)) 0 (some 1)).2.envs 0).env_id = 4096 :=
    (congrArg (gen_part cfg1024) ha.2.1).trans
      ((gen_part_mkenvid cfg1024 _ 0 (by decide)).trans
        ((congrArg (generation cfg1024) hr.2.2).trans (generation_wrap cfg1024)))
  refine ⟨hr.1, ha.1, hold, hnew, ?_⟩
  intro hlt
  have h3 : (2147479552 : Int) < 4096 := (hold.symm.le.trans_lt hlt).trans_le hnew.le
  exact absurd h3 (by decide)

/-! ## Stale identities -/

/-- The generation that follows the generation `G` of an assigned identity. -/
theorem generation_next (c : Cfg) (G e : Nat) (hmod : G % NENV c = 0) (he : e < NENV c)
    (hsum : G + e < 2147483648) :
    generation c ((G + e : Nat) : Int)
      = if 0 < G + 4096 ∧ G + 4096 < 2147483648 then ((G + 4096 : Nat) : Int) else 4096 := by
  have hu : toU32 (((G + e : Nat) : Int) + 4096) = G + e + 4096 := by
    unfold toU32
    omega
  have hm : (G + e + 4096) % NENV c = e := by
    rw [mod_add_4096, Nat.add_mod, hmod, Nat.zero_add, Nat.mod_mod, Nat.mod_eq_of_lt he]
  have hsub : G + e + 4096 - e = G + 4096 := by omega
  rw [generation_eq, hu, hm, hsub]

/-- Closed form of the identities a record receives in consecutive
allocations, started from an assigned identity `G + e`. -/
theorem mkenvid_iterate (c : Cfg) (G e : Nat) (he : e < NENV c) (hpos : 0 < G)
    (hmod : G % NENV c = 0) (hsum : G + e < 2147483648) (m : Nat)
    (hm : m ≤ (2147483647 - G) / 4096 + 524287) :
    ∃ Gm : Nat, Nat.iterate (fun x => mkenvid c x e) m ((G + e : Nat) : Int)
        = ((Gm + e : Nat) : Int) ∧
      0 < Gm ∧ Gm % NENV c = 0 ∧ Gm + e < 2147483648 ∧
      Gm = if m ≤ (2147483647 - G) / 4096 then G + 4096 * m
        else 4096 * (m - (2147483647 - G) / 4096) := by
  induction m with
  | zero =>
    refine ⟨G, rfl, hpos, hmod, hsum, ?_⟩
    simp
  | succ m ih =>
    obtain ⟨Gm, h1, h2, h3, h4, h5⟩ := ih (by omega)
    obtain ⟨G2, k1, k2, k3, k4, k5⟩ := mkenvid_spec c ((Gm + e : Nat) : Int) e he
    refine ⟨G2, ?_, k2, k3, k4, ?_⟩
    · rw [Function.iterate_succ_apply', h1, k5]
    · have hg := generation_next c Gm e h3 he h4
      rw [k1] at hg
      split at h5 <;> split at hg <;> split <;> omega

/-- An assigned identity does not come back within 524286 further
allocations of the same record. -/
theorem mkenvid_iterate_ne (c : Cfg) (old : Int) (e : Nat) (he : e < NENV c) (m : Nat)
    (h1 : 1 ≤ m) (h2 : m < 524287) :
    Nat.iterate (fun x => mkenvid c x e) m (mkenvid c old e) ≠ mkenvid c old e := by
  obtain ⟨G, -, hpos, hmod, hsum, hid⟩ := mkenvid_spec c old e he
  obtain ⟨Gm, k1, -, -, -, k5⟩ := mkenvid_iterate c G e he hpos hmod hsum m (by omega)
  rw [hid, k1]
  intro heq
  have h3 : Gm = G := by omega
  split at k5 <;> omega

/-- In a reachable state the identity of a non-free record of the table was
assigned by one of the allocators. -/
theorem Reachable_assigned (c : Cfg) (s : KState) (h : Reachable c s) (j : Nat)
    (hnf : (s.envs j).env_status ≠ EnvStatus.ENV_FREE) (hj : j < NENV c) :
    ∃ old, (s.envs j).env_id = mkenvid c old j := by
  induction h with
  | init s0 =>
    rw [env_init_envs, if_pos hj] at hnf
    exact absurd rfl hnf
  | step s k hr hv ih =>
    rcases Call_apply_record c s k (Reachable_FreeListInv c s hr) hv j with h | h
    · exact ⟨_, h.2.2.2.1⟩
    · rw [h.2.1]
      exact ih (h.2.2 hnf)

/-- Along a sequence of valid calls the identity of a record is the result of
as many identity assignments as the sequence allocates the record, and a free
record that is not allocated stays free. -/
theorem run_calls_record (c : Cfg) (e : Nat) (calls : List Call) (s : KState)
    (hinv : FreeListInv c s) (hv : valid_calls c s calls) :
    ((run_calls c s calls).envs e).env_id
      = Nat.iterate (fun x => mkenvid c x e) (alloc_count c e s calls) (s.envs e).env_id ∧
    (alloc_count c e s calls = 0 → (s.envs e).env_status = EnvStatus.ENV_FREE →
      ((run_calls c s calls).envs e).env_status = EnvStatus.ENV_FREE) := by
  induction calls generalizing s with
  | nil =>
    simp [run_calls, alloc_count]
  | cons k ks ih =>
    simp only [run_calls, alloc_count]
    obtain ⟨hv1, hv2⟩ := hv
    obtain ⟨ih1, ih2⟩ := ih (k.apply c s) (FreeListInv_apply c s k hinv hv1) hv2
    rcases Call_apply_record c s k hinv hv1 e with h | h
    · rw [if_pos h.1, ih1, h.2.2.2.1, Nat.add_comm, Function.iterate_succ_apply]
      exact ⟨rfl, fun h0 => absurd h0 (by omega)⟩
    · rw [if_neg h.1, Nat.zero_add, ih1, h.2.1]
      refine ⟨rfl, fun h0 hfree => ih2 h0 ?_⟩
      by_contra hne
      exact h.2.2 hne hfree

theorem envid2env_bad (c : Cfg) (s : KState) (envid : Int) (checkperm : Bool) (j : Nat)
    (h0 : envid ≠ 0) (hj : (ENVX c envid).toNat = j)
    (hbad : (s.envs j).env_status = EnvStatus.ENV_FREE ∨ (s.envs j).env_id ≠ envid) :
    envid2env c s envid checkperm = some (Except.error Errno.E_BAD_ENV, none) := by
  simp only [envid2env, h0, if_false, hj, hbad, if_true]

theorem envid2env_good (c : Cfg) (s : KState) (envid : Int) (j : Nat)
    (h0 : envid ≠ 0) (hj : (ENVX c envid).toNat = j)
    (hst : (s.envs j).env_status ≠ EnvStatus.ENV_FREE) (hid : (s.envs j).env_id = envid) :
    envid2env c s envid false = some (Except.ok (), some j) := by
  simp [envid2env, h0, hj, hst, hid]

/-- C2, as the code behaves: in a reachable state let `id` be the identity of
the allocated record `e`.  Once `e` has been released by `env_free`,
`envid2env(id, ..)` returns `-E_BAD_ENV`, and it still does after any
sequence of further calls in which `e` is allocated again fewer than 524287
times. -/
theorem stale_id_rejected (c : Cfg) (s : KState) (e : Nat) (walk : List Nat) (pdpt : Nat)
    (calls : List Call) (checkperm : Bool)
    (hr : Reachable c s) (he : e < NENV c)
    (hnf : (s.envs e).env_status ≠ EnvStatus.ENV_FREE)
    (hv : valid_calls c (env_free s e walk pdpt) calls)
    (hcount : alloc_count c e (env_free s e walk pdpt) calls < 524287) :
    envid2env c (run_calls c (env_free s e walk pdpt) calls) (s.envs e).env_id checkperm
      = some (Except.error Errno.E_BAD_ENV, none) := by
  have hinv := FreeListInv_env_free c s e walk pdpt (Reachable_FreeListInv c s hr) he hnf
  obtain ⟨old, hold⟩ := Reachable_assigned c s hr e hnf he
  obtain ⟨hpos, hx⟩ := mkenvid_pos_ENVX c old e he
  have hfe := (env_free_effect s e walk pdpt).1
  have hid1 : ((env_free s e walk pdpt).envs e).env_id = (s.envs e).env_id := by
    rw [hfe, Function.update_same]
    simp [env_free_record]
  have hst1 : ((env_free s e walk pdpt).envs e).env_status = EnvStatus.ENV_FREE := by
    rw [hfe, Function.update_same]
    simp [env_free_record]
  obtain ⟨h1, h2⟩ := run_calls_record c e calls (env_free s e walk pdpt) hinv hv
  rw [hid1] at h1
  apply envid2env_bad c _ _ checkperm e
  · rw [hold]
    omega
  · rw [hold, hx]
    rfl
  · by_cases hz : alloc_count c e (env_free s e walk pdpt) calls = 0
    · exact Or.inl (h2 hz hst1)
    · right
      rw [h1, hold]
      exact mkenvid_iterate_ne c old e he _ (by omega) hcount

/-- Witness for `stale_id_rejected`: after `env_init` and two allocations,
record 0 (identity `0x1000`) is released and allocated again. -/
theorem stale_id_rejected_witness :
    (twoAllocated.envs 0).env_id = 0x1000 ∧
    envid2env cfg4 (run_calls cfg4 (env_free twoAllocated 0 [] 0) [Call.alloc 0 (some 9)])
      0x1000 false = some (Except.error Errno.E_BAD_ENV, none) :=
  ⟨by decide,
   stale_id_rejected cfg4 twoAllocated 0 [] 0 [Call.alloc 0 (some 9)] false
    (Reachable.step _ _ (Reachable.step _ _ (Reachable.init boot) trivial) trivial)
    (by decide) (by decide) ⟨trivial, trivial⟩ (by decide)⟩

theorem Reachable_env_alloc (c : Cfg) (s : KState) (parent_id : Int) (pg : Option Nat)
    (h : Reachable c s) : Reachable c (env_alloc c s parent_id pg).2 :=
  Reachable.step s (Call.alloc parent_id pg) h trivial

theorem alloc_free_rounds_shift (c : Cfg) (k : Nat) :
    Nat.iterate (alloc_free c 0) k (env_free (env_alloc c (env_init c boot) 0 (some 1)).2 0 [] 0)
      = Nat.iterate (alloc_free c 0) (k + 1) (env_init c boot) :=
  (Function.iterate_succ_apply (alloc_free c 0) k (env_init c boot)).symm

/-- C2 fails as stated: after `env_init` record 0 receives the identity
`0x1000` and is released; 524286 rounds of allocating and releasing the record
and one more allocation later, the record is in use again with the identity
`0x1000`, and `envid2env(0x1000, .., 0)` returns 0 and stores the new
occupant. -/
theorem stale_id_resolves_after_wrap :
    ((env_alloc cfg1024 (env_init cfg1024 boot) 0 (some 1)).2.envs 0).env_id = 4096 ∧
    Reachable cfg1024 (env_alloc cfg1024 (Nat.iterate (alloc_free cfg1024 0) 524286
        (env_free (env_alloc cfg1024 (env_init cfg1024 boot) 0 (some 1)).2 0 [] 0)) 0 (some 1)).2 ∧
    envid2env cfg1024 (env_alloc cfg1024 (Nat.iterate (alloc_free cfg1024 0) 524286
        (env_free (env_alloc cfg1024 (env_init cfg1024 boot) 0 (some 1)).2 0 [] 0)) 0 (some 1)).2 4096 false
      = some (Except.ok (), some 0) := by
  have hr := alloc_free_rounds cfg1024 (524286 + 1) (by decide)
  rw [← alloc_free_rounds_shift cfg1024 524286] at hr
  have ha := env_alloc_env_id cfg1024 (Nat.iterate (alloc_free cfg1024 0) 524286
        (env_free (env_alloc cfg1024 (env_init cfg1024 boot) 0 (some 1)).2 0 [] 0)) 0 0 1 hr.2.1
  have hfirst := env_alloc_env_id cfg1024 (env_init cfg1024 boot) 0 0 1 rfl
  have hz : ((env_init cfg1024 boot).envs 0).env_id = ((4096 * 0 : Nat) : Int) := by
    rw [env_init_envs, if_pos (by decide)]
    rfl
  have hcast : ((4096 * (524286 + 1) : Nat) : Int) = ((4096 * 524287 : Nat) : Int) := rfl
  refine ⟨?_, Reachable_env_alloc cfg1024 _ 0 (some 1) hr.1, ?_⟩
  · exact hfirst.2.1.trans ((congrArg (fun x => mkenvid cfg1024 x 0) hz).trans
      ((mkenvid_zero cfg1024 _).trans (generation_mul cfg1024 0 (by decide))))
  · apply envid2env_good cfg1024 _ 4096 0 (by decide) (by decide)
    · rw [ha.2.2]
      decide
    · exact ha.2.1.trans ((congrArg (fun x => mkenvid cfg1024 x 0) (hr.2.2.trans hcast)).trans
        ((mkenvid_zero cfg1024 _).trans (generation_wrap cfg1024)))

/-! ## Failing allocations -/

theorem page_incref_pp_ref (t : KState) (y x : Nat) :
    (page_incref t y).pp_ref x = t.pp_ref x + (if x = y then 1 else 0) := by
  simp only [page_incref, Function.update_apply]
  split <;> simp_all

theorem page_decref_pp_ref (t : KState) (y x : Nat) :
    (page_decref t y).pp_ref x = t.pp_ref x - (if x = y then 1 else 0) := by
  simp only [page_decref, Function.update_apply]
  split <;> simp_all

theorem setEnv_pp_ref (t : KState) (i : Nat) (r : Env) : (t.setEnv i r).pp_ref = t.pp_ref := rfl

/-- A failing `env_guest_alloc` leaves every reference count as it was, when
the page obtained for the EPT root had no reference before the call. -/
theorem env_guest_alloc_fail_pp_ref (c : Cfg) (s : KState) (parent_id : Int) (e : Nat)
    (p q r a b : Option Nat) (h : s.env_free_list = some e)
    (hf : p = none ∨ q = none ∨ r = none ∨ a = none ∨ b = none)
    (hfresh : ∀ p0, p = some p0 → s.pp_ref p0 = 0) :
    (env_guest_alloc c s parent_id p q r a b).2.pp_ref = s.pp_ref := by
  cases p with
  | none => simp [env_guest_alloc, h, KState.setEnv]
  | some p =>
  have h0 := hfresh p rfl
  cases q with
  | none =>
    funext x
    simp only [env_guest_alloc, h, page_decref_pp_ref, page_incref_pp_ref, setEnv_pp_ref,
      Function.update_apply]
    by_cases hx : x = p
    · subst hx
      simp
      omega
    · simp [hx]
  | some q =>
  cases r with
  | none =>
    funext x
    simp only [env_guest_alloc, h, page_decref_pp_ref, page_incref_pp_ref, setEnv_pp_ref,
      Function.update_apply]
    by_cases hx : x = p
    · subst hx
      simp only [if_true]
      split <;> omega
    · simp only [hx, if_false]
      split <;> omega
  | some r =>
  cases a with
  | none =>
    funext x
    simp only [env_guest_alloc, h, page_decref_pp_ref, page_incref_pp_ref, setEnv_pp_ref,
      Function.update_apply]
    by_cases hx : x = p
    · subst hx
      simp only [if_true]
      split <;> split <;> omega
    · simp only [hx, if_false]
      split <;> split <;> omega
  | some a =>
  cases b with
  | none =>
    funext x
    simp only [env_guest_alloc, h, page_decref_pp_ref, page_incref_pp_ref, setEnv_pp_ref,
      Function.update_apply]
    by_cases hx : x = p
    · subst hx
      simp only [if_true]
      split <;> split <;> split <;> omega
    · simp only [hx, if_false]
      split <;> split <;> split <;> omega
  | some b => simp at hf

/-- C11: when `env_alloc` or `env_guest_alloc` fails because a page cannot be
allocated (the address-space root, the VMCS, the MSR area or one of the I/O
bitmaps), it returns `-E_NO_MEM`, the candidate record keeps the status
`ENV_FREE` and its identity, it remains the head of the free list,
`vcpu_count` is unchanged, and no page reference count differs from its value
before the call (the pages acquired earlier in the call have been released by
`page_decref`).  The page handed out by `page_alloc` for the EPT root has
reference count 0, as every free page. -/
theorem alloc_failure_unwinds (c : Cfg) (s : KState) (parent_id : Int) (e : Nat)
    (p q r a b : Option Nat) (hinv : FreeListInv c s) (h : s.env_free_list = some e)
    (hf : p = none ∨ q = none ∨ r = none ∨ a = none ∨ b = none)
    (hfresh : ∀ p0, p = some p0 → s.pp_ref p0 = 0) :
    env_alloc c s parent_id none = (Except.error Errno.E_NO_MEM, s) ∧
    (env_guest_alloc c s parent_id p q r a b).1 = Except.error Errno.E_NO_MEM ∧
    ((env_guest_alloc c s parent_id p q r a b).2.envs e).env_status = EnvStatus.ENV_FREE ∧
    ((env_guest_alloc c s parent_id p q r a b).2.envs e).env_id = (s.envs e).env_id ∧
    (env_guest_alloc c s parent_id p q r a b).2.env_free_list = some e ∧
    (env_guest_alloc c s parent_id p q r a b).2.vcpu_count = s.vcpu_count ∧
    (env_guest_alloc c s parent_id p q r a b).2.pp_ref = s.pp_ref := by
  obtain ⟨h1, h2, -, h4, -, -, h7, h8⟩ := env_guest_alloc_fail c s parent_id e p q r a b h hf
  refine ⟨env_alloc_nomem c s parent_id e h, h1, ?_, h8, h2.trans h, h4,
    env_guest_alloc_fail_pp_ref c s parent_id e p q r a b h hf hfresh⟩
  rw [h7]
  exact (FreeListInv_head c s e hinv h).2

/-- Witness for `alloc_failure_unwinds`: in the sample state the EPT root and
the VMCS are obtained and the page for the MSR area is refused. -/
theorem alloc_failure_unwinds_witness :
    (env_guest_alloc cfg4 sampleState 0x1001 (some 5) (some 6) none (some 7) (some 8)).1
      = Except.error Errno.E_NO_MEM ∧
    (env_guest_alloc cfg4 sampleState 0x1001 (some 5) (some 6) none (some 7) (some 8)).2.pp_ref
      = sampleState.pp_ref ∧
    (env_guest_alloc cfg4 sampleState 0x1001 (some 5) (some 6) none (some 7)
      (some 8)).2.env_free_list = some 0 := by
  have h := alloc_failure_unwinds cfg4 sampleState 0x1001 0 (some 5) (some 6) none (some 7)
    (some 8) ⟨[0, 3], by decide, by decide, by decide, by decide⟩ rfl
    (Or.inr (Or.inr (Or.inl rfl))) (fun p0 _ => rfl)
  exact ⟨h.2.1, h.2.2.2.2.2.2, h.2.2.2.2.1⟩

/-! ## The virtual CPU counter -/

theorem env_run_frame (s : KState) (e : Nat) (cpu : Int) (s' : KState)
    (h : env_run s e cpu = some s') :
    s'.vcpu_count = s.vcpu_count ∧ s'.pp_ref = s.pp_ref ∧ s'.boot_cr3 = s.boot_cr3 := by
  unfold env_run at h
  by_cases hc : s.curenv = some e
  · simp only [hc, ne_eq, not_true_eq_false, if_false] at h
    split at h
    · exact absurd h (by simp)
    · split at h
      · simp only [Option.some.injEq] at h
        subst h
        exact ⟨rfl, rfl, rfl⟩
      · simp only [Option.some.injEq] at h
        subst h
        exact ⟨rfl, rfl, rfl⟩
  · by_cases hty : (s.envs e).env_type = EnvType.ENV_TYPE_GUEST
    · cases hcur : s.curenv with
      | none =>
        simp [hcur, hty, KState.setEnv] at h
        subst h
        exact ⟨rfl, rfl, rfl⟩
      | some cur =>
        have hce : cur ≠ e := fun h => hc (by rw [hcur, h])
        by_cases hrun : (s.envs cur).env_status = EnvStatus.ENV_RUNNING
        · simp [hcur, hty, hce, hrun, KState.setEnv, Function.update_noteq (Ne.symm hce)] at h
          subst h
          exact ⟨rfl, rfl, rfl⟩
        · simp [hcur, hty, hce, hrun, KState.setEnv] at h
          subst h
          exact ⟨rfl, rfl, rfl⟩
    · cases hcur : s.curenv with
      | none =>
        simp [hcur, hty, KState.setEnv] at h
        subst h
        exact ⟨rfl, rfl, rfl⟩
      | some cur =>
        have hce : cur ≠ e := fun h => hc (by rw [hcur, h])
        by_cases hrun : (s.envs cur).env_status = EnvStatus.ENV_RUNNING
        · simp [hcur, hty, hce, hrun, KState.setEnv, Function.update_noteq (Ne.symm hce)] at h
          subst h
          exact ⟨rfl, rfl, rfl⟩
        · simp [hcur, hty, hce, hrun, KState.setEnv] at h
          subst h
          exact ⟨rfl, rfl, rfl⟩

theorem env_destroy_vcpu_count (s : KState) (e : Nat) (walk : List Nat) (pdpt : Nat) :
    (env_destroy s e walk pdpt).vcpu_count = s.vcpu_count := by
  have h4 := (env_free_effect s e walk pdpt).2.2.2
  unfold env_destroy
  split
  · rfl
  · simp only
    split <;> simp [h4]

theorem env_alloc_vcpu_count (c : Cfg) (s : KState) (parent_id : Int) (pg : Option Nat) :
    (env_alloc c s parent_id pg).2.vcpu_count = s.vcpu_count := by
  cases hfl : s.env_free_list with
  | none => rw [env_alloc_none c s parent_id pg hfl]
  | some e =>
    cases pg with
    | none => rw [env_alloc_nomem c s parent_id e hfl]
    | some p => rw [env_alloc_ok c s parent_id e p hfl]

/-- What a call does to `vcpu_count`: a call that creates a guest gives the
guest the current value and moves the counter on by one (in `int`
arithmetic); every other call leaves the counter alone. -/
theorem Call_apply_vcpu_count (c : Cfg) (s : KState) (k : Call) :
    (k.guest_created c s = none → (k.apply c s).vcpu_count = s.vcpu_count) ∧
    (∀ e, k.guest_created c s = some e →
      (k.apply c s).vcpu_count = wrap32 (s.vcpu_count + 1) ∧
      ((k.apply c s).envs e).env_vmxinfo.vcpunum = s.vcpu_count) := by
  cases k with
  | alloc parent_id pg =>
    exact ⟨fun _ => env_alloc_vcpu_count c s parent_id pg, fun e h => by simp [Call.guest_created] at h⟩
  | guest_alloc parent_id p q r a b =>
    simp only [Call.guest_created, Call.apply]
    cases hfl : s.env_free_list with
    | none =>
      rw [env_guest_alloc_none c s parent_id p q r a b hfl]
      simp
    | some e0 =>
      by_cases hf : p = none ∨ q = none ∨ r = none ∨ a = none ∨ b = none
      · obtain ⟨h1, -, -, h4, -, -, -, -⟩ :=
          env_guest_alloc_fail c s parent_id e0 p q r a b hfl hf
        rw [h1]
        simp [h4]
      · simp only [not_or] at hf
        obtain ⟨hp, hq, hr, ha, hb⟩ := hf
        obtain ⟨p, rfl⟩ := Option.ne_none_iff_exists'.mp hp
        obtain ⟨q, rfl⟩ := Option.ne_none_iff_exists'.mp hq
        obtain ⟨r, rfl⟩ := Option.ne_none_iff_exists'.mp hr
        obtain ⟨a, rfl⟩ := Option.ne_none_iff_exists'.mp ha
        obtain ⟨b, rfl⟩ := Option.ne_none_iff_exists'.mp hb
        obtain ⟨h1, h2, -, -, h5⟩ := env_guest_alloc_ok c s parent_id e0 p q r a b hfl
        rw [h1, h2, h5]
        refine ⟨fun h => by simp at h, fun e he => ?_⟩
        simp only [Option.some.injEq] at he
        subst he
        simp [env_guest_alloc_record]
  | free e walk pdpt =>
    exact ⟨fun _ => (env_free_effect s e walk pdpt).2.2.2,
      fun e h => by simp [Call.guest_created] at h⟩
  | destroy e walk pdpt =>
    exact ⟨fun _ => env_destroy_vcpu_count s e walk pdpt,
      fun e h => by simp [Call.guest_created] at h⟩
  | run e cpu =>
    refine ⟨fun _ => ?_, fun e h => by simp [Call.guest_created] at h⟩
    simp only [Call.apply]
    cases hr : env_run s e cpu with
    | none => rfl
    | some s' => exact (env_run_frame s e cpu s' hr).1

theorem guest_count_append (c : Cfg) (l1 l2 : List Call) (s : KState) :
    guest_count c s (l1 ++ l2) = guest_count c s l1 + guest_count c (run_calls c s l1) l2 := by
  induction l1 generalizing s with
  | nil => simp [guest_count, run_calls]
  | cons k ks ih =>
    simp only [List.cons_append, guest_count, run_calls, List.append_eq]
    rw [ih (k.apply c s)]
    omega

theorem run_calls_append (c : Cfg) (l1 l2 : List Call) (s : KState) :
    run_calls c s (l1 ++ l2) = run_calls c (run_calls c s l1) l2 := by
  induction l1 generalizing s with
  | nil => rfl
  | cons k ks ih =>
    simp only [List.cons_append, run_calls, List.append_eq]
    exact ih (k.apply c s)

/-- While fewer than `2^31` guests have been created, `vcpu_count` counts
them. -/
theorem run_calls_vcpu_count (c : Cfg) (calls : List Call) (s : KState)
    (h0 : 0 ≤ s.vcpu_count) (hb : s.vcpu_count + guest_count c s calls < 2147483648) :
    (run_calls c s calls).vcpu_count = s.vcpu_count + guest_count c s calls := by
  induction calls generalizing s with
  | nil => simp [run_calls, guest_count]
  | cons k ks ih =>
    simp only [run_calls, guest_count] at hb ⊢
    obtain ⟨h1, h2⟩ := Call_apply_vcpu_count c s k
    cases hg : k.guest_created c s with
    | none =>
      simp only [hg, Option.isSome_none, Bool.false_eq_true, if_false, Nat.zero_add] at hb ⊢
      rw [ih (k.apply c s) (by rw [h1 hg]; exact h0) (by rw [h1 hg]; exact hb), h1 hg]
    | some e =>
      simp only [hg, Option.isSome_some, if_true] at hb ⊢
      have hw : wrap32 (s.vcpu_count + 1) = s.vcpu_count + 1 := by
        unfold wrap32
        exact ofU32_toU32 _ (by omega) (by omega)
      have hv := (h2 e hg).1
      rw [hw] at hv
      rw [ih (k.apply c s) (by rw [hv]; omega) (by rw [hv]; omega), hv]
      push_cast
      omega

/-- C12, as the code behaves: a successful `env_guest_alloc` gives the new
guest the current value of `vcpu_count` and moves the counter on by one (in
`int` arithmetic), every other call leaves the counter alone; hence, in a
sequence of calls started with `vcpu_count = 0`, a guest created after `n - 1`
earlier guests has `vcpunum = n - 1` as long as `n - 1 < 2^31`, and two guests
created within the first `2^31` receive different `vcpunum`. -/
theorem vcpunum_assignment (c : Cfg) (s : KState) (pre : List Call) (k : Call) (e : Nat)
    (h0 : s.vcpu_count = 0) (hb : guest_count c s pre < 2147483648)
    (hk : k.guest_created c (run_calls c s pre) = some e) :
    (∀ t : KState, ∀ k2 : Call,
      (k2.guest_created c t = none → (k2.apply c t).vcpu_count = t.vcpu_count) ∧
      (∀ e2, k2.guest_created c t = some e2 →
        (k2.apply c t).vcpu_count = wrap32 (t.vcpu_count + 1) ∧
        ((k2.apply c t).envs e2).env_vmxinfo.vcpunum = t.vcpu_count)) ∧
    ((k.apply c (run_calls c s pre)).envs e).env_vmxinfo.vcpunum
      = ((guest_count c s pre : Nat) : Int) ∧
    (∀ (mid : List Call) (k2 : Call) (e2 : Nat),
      guest_count c s (pre ++ k :: mid) < 2147483648 →
      k2.guest_created c (run_calls c s (pre ++ k :: mid)) = some e2 →
      ((k2.apply c (run_calls c s (pre ++ k :: mid))).envs e2).env_vmxinfo.vcpunum
        ≠ ((k.apply c (run_calls c s pre)).envs e).env_vmxinfo.vcpunum) := by
  have hfirst : ((k.apply c (run_calls c s pre)).envs e).env_vmxinfo.vcpunum
      = ((guest_count c s pre : Nat) : Int) := by
    rw [((Call_apply_vcpu_count c (run_calls c s pre) k).2 e hk).2,
      run_calls_vcpu_count c pre s (by omega) (by omega), h0]
    omega
  refine ⟨fun t k2 => Call_apply_vcpu_count c t k2, hfirst, ?_⟩
  intro mid k2 e2 hb2 hk2
  rw [hfirst, ((Call_apply_vcpu_count c _ k2).2 e2 hk2).2,
    run_calls_vcpu_count c _ s (by omega) (by omega), h0]
  have hcount : guest_count c s (pre ++ k :: mid)
      = guest_count c s pre + (1 + guest_count c (k.apply c (run_calls c s pre)) mid) := by
    rw [guest_count_append]
    simp only [guest_count, hk, Option.isSome_some, if_true]
  rw [hcount]
  push_cast
  omega

/-- Witness for `vcpunum_assignment`: after `env_init` on the cleared table, an
ordinary allocation and then a guest; the guest is the first one and receives
`vcpunum = 0`. -/
theorem vcpunum_assignment_witness :
    (Call.guest_alloc 0 (some 1) (some 2) (some 3) (some 4) (some 5)).guest_created cfg4
      (run_calls cfg4 (env_init cfg4 boot) [Call.alloc 0 (some 7)]) = some 1 ∧
    (((Call.guest_alloc 0 (some 1) (some 2) (some 3) (some 4) (some 5)).apply cfg4
      (run_calls cfg4 (env_init cfg4 boot) [Call.alloc 0 (some 7)])).envs 1).env_vmxinfo.vcpunum
      = ((guest_count cfg4 (env_init cfg4 boot) [Call.alloc 0 (some 7)] : Nat) : Int) :=
  ⟨by decide,
   (vcpunum_assignment cfg4 (env_init cfg4 boot) [Call.alloc 0 (some 7)]
    (Call.guest_alloc 0 (some 1) (some 2) (some 3) (some 4) (some 5)) 1 rfl (by decide)
    (by decide)).2.1⟩

/-- One round of creating a guest in record 0 and releasing it again. -/
theorem guest_round_effect (c : Cfg) (s : KState) (hfl : s.env_free_list = some 0) :
    (guest_round c 0 s).env_free_list = some 0 ∧
    (guest_round c 0 s).vcpu_count = wrap32 (s.vcpu_count + 1) ∧
    (Reachable c s → Reachable c (guest_round c 0 s)) := by
  obtain ⟨h1, h2, -, -, h5⟩ := env_guest_alloc_ok c s 0 0 1 2 3 4 5 hfl
  obtain ⟨-, k2, -, k4⟩ := env_free_effect
    (env_guest_alloc c s 0 (some 1) (some 2) (some 3) (some 4) (some 5)).2 0 [] 0
  unfold guest_round
  refine ⟨k2, by rw [k4, h5], ?_⟩
  intro hr
  have hr1 : Reachable c
      (env_guest_alloc c s 0 (some 1) (some 2) (some 3) (some 4) (some 5)).2 :=
    Reachable.step s (Call.guest_alloc 0 (some 1) (some 2) (some 3) (some 4) (some 5)) hr trivial
  refine Reachable.step _ (Call.free 0 [] 0) hr1 ⟨NENV_pos c, ?_⟩
  rw [h2]
  simp [env_guest_alloc_record]

/-- The state after `k` rounds of creating and releasing a guest, started
right after `env_init` on the cleared table. -/
theorem guest_rounds (c : Cfg) (k : Nat) (hk : k ≤ 2147483647) :
    Reachable c (Nat.iterate (guest_round c 0) k (env_init c boot)) ∧
    (Nat.iterate (guest_round c 0) k (env_init c boot)).env_free_list = some 0 ∧
    (Nat.iterate (guest_round c 0) k (env_init c boot)).vcpu_count = (k : Int) := by
  induction k with
  | zero => exact ⟨Reachable.init boot, rfl, rfl⟩
  | succ k ih =>
    obtain ⟨ih1, ih2, ih3⟩ := ih (by omega)
    obtain ⟨h1, h2, h3⟩ := guest_round_effect c _ ih2
    rw [Function.iterate_succ_apply']
    refine ⟨h3 ih1, h1, ?_⟩
    rw [h2, ih3]
    unfold wrap32
    rw [ofU32_toU32 _ (by omega) (by omega)]
    push_cast
    rfl

theorem guest_alloc_call (c : Cfg) (s : KState) (parent_id : Int) (e p q r a b : Nat)
    (hfl : s.env_free_list = some e) :
    (Call.guest_alloc parent_id (some p) (some q) (some r) (some a) (some b)).guest_created c s
      = some e ∧
    ((Call.guest_alloc parent_id (some p) (some q) (some r) (some a) (some b)).apply c
      s).vcpu_count = wrap32 (s.vcpu_count + 1) ∧
    (((Call.guest_alloc parent_id (some p) (some q) (some r) (some a) (some b)).apply c
      s).envs e).env_vmxinfo.vcpunum = s.vcpu_count := by
  have hc : (Call.guest_alloc parent_id (some p) (some q) (some r) (some a)
      (some b)).guest_created c s = some e := by
    simp only [Call.guest_created]
    rw [(env_guest_alloc_ok c s parent_id e p q r a b hfl).1]
  exact ⟨hc, (Call_apply_vcpu_count c s _).2 e hc⟩

/-- C12 fails as stated: after 2147483647 rounds of creating and releasing a
guest, `vcpu_count` is `INT_MAX`; the guest created next receives
`vcpunum = 2147483647`, but the counter then holds `-2147483648` instead of
one more. -/
theorem vcpu_count_wraps :
    Reachable cfg1024 (Nat.iterate (guest_round cfg1024 0) 2147483647 (env_init cfg1024 boot)) ∧
    (Nat.iterate (guest_round cfg1024 0) 2147483647 (env_init cfg1024 boot)).vcpu_count = ((2147483647 : Nat) : Int) ∧
    (Call.guest_alloc 0 (some 1) (some 2) (some 3) (some 4) (some 5)).guest_created cfg1024 (Nat.iterate (guest_round cfg1024 0) 2147483647 (env_init cfg1024 boot))
      = some 0 ∧
    ((Call.guest_alloc 0 (some 1) (some 2) (some 3) (some 4) (some 5)).apply cfg1024
      (Nat.iterate (guest_round cfg1024 0) 2147483647 (env_init cfg1024 boot))).vcpu_count = -2147483648 :=
  ⟨(guest_rounds cfg1024 2147483647 (Nat.le_refl _)).1,
   (guest_rounds cfg1024 2147483647 (Nat.le_refl _)).2.2,
   (guest_alloc_call cfg1024 (Nat.iterate (guest_round cfg1024 0) 2147483647 (env_init cfg1024 boot)) 0 0 1 2 3 4 5
    (guest_rounds cfg1024 2147483647 (Nat.le_refl _)).2.1).1,
   (guest_alloc_call cfg1024 (Nat.iterate (guest_round cfg1024 0) 2147483647 (env_init cfg1024 boot)) 0 0 1 2 3 4 5
    (guest_rounds cfg1024 2147483647 (Nat.le_refl _)).2.1).2.1.trans
    ((congrArg (fun x => wrap32 (x + 1))
      (guest_rounds cfg1024 2147483647 (Nat.le_refl _)).2.2).trans (by decide))⟩

/-! ## Destruction of an environment running elsewhere -/

theorem foldl_page_decref_pp_ref (walk : List Nat) (t : KState) (x : Nat) (h : x ∉ walk) :
    (walk.foldl page_decref t).pp_ref x = t.pp_ref x := by
  induction walk generalizing t with
  | nil => rfl
  | cons a l ih =>
    simp only [List.foldl_cons]
    rw [ih (page_decref t a) (fun hm => h (List.mem_cons_of_mem a hm)), page_decref_pp_ref,
      if_neg (fun hx => h (by rw [hx]; exact List.mem_cons_self a l))]
    rfl

theorem page_decref_at_pp_ref (t : KState) (ptr : Option Nat) (x : Nat) (h : ptr ≠ some x) :
    (page_decref_at t ptr).pp_ref x = t.pp_ref x := by
  cases ptr with
  | none => rfl
  | some p =>
    simp only [page_decref_at]
    rw [page_decref_pp_ref, if_neg (fun hx => h (by rw [hx]))]
    rfl

/-- The reference that `env_free` drops on the root of the address space. -/
theorem env_free_root_pp_ref (t : KState) (e : Nat) (walk : List Nat) (pdpt : Nat)
    (hw : pa2page (t.envs e).env_cr3 ∉ walk) :
    ((t.envs e).env_type ≠ EnvType.ENV_TYPE_GUEST → pa2page (t.envs e).env_cr3 ≠ pdpt →
      (env_free t e walk pdpt).pp_ref (pa2page (t.envs e).env_cr3)
        = t.pp_ref (pa2page (t.envs e).env_cr3) - 1) ∧
    ((t.envs e).env_type = EnvType.ENV_TYPE_GUEST →
      (t.envs e).env_vmxinfo.vmcs ≠ some (pa2page (t.envs e).env_cr3) →
      (t.envs e).env_vmxinfo.msr_host_area ≠ some (pa2page (t.envs e).env_cr3) →
      (t.envs e).env_vmxinfo.io_bmap_a ≠ some (pa2page (t.envs e).env_cr3) →
      (t.envs e).env_vmxinfo.io_bmap_b ≠ some (pa2page (t.envs e).env_cr3) →
      (env_free t e walk pdpt).pp_ref (pa2page (t.envs e).env_cr3)
        = t.pp_ref (pa2page (t.envs e).env_cr3) - 1) := by
  constructor
  · intro hty hpd
    unfold env_free
    rw [if_neg hty]
    by_cases hc : t.curenv = some e
    · simp only [hc, if_true, setEnv_pp_ref, page_decref_pp_ref, foldl_page_decref_frame,
        if_true]
      rw [if_neg hpd, foldl_page_decref_pp_ref walk _ _ hw]
      simp [page_decref, foldl_page_decref_frame]
    · simp only [hc, if_false, setEnv_pp_ref, page_decref_pp_ref, foldl_page_decref_frame,
        if_true]
      rw [if_neg hpd, foldl_page_decref_pp_ref walk _ _ hw]
      simp [page_decref, foldl_page_decref_frame]
  · intro hty h1 h2 h3 h4
    unfold env_free
    rw [if_pos hty]
    simp only [env_guest_free, setEnv_pp_ref, page_decref_pp_ref, foldl_page_decref_frame,
      page_decref_at_frame, if_true]
    rw [foldl_page_decref_pp_ref walk _ _ hw, page_decref_at_pp_ref _ _ _ h4,
      page_decref_at_pp_ref _ _ _ h3, page_decref_at_pp_ref _ _ _ h2,
      page_decref_at_pp_ref _ _ _ h1]

theorem env_destroy_dying (s : KState) (e : Nat) (walk : List Nat) (pdpt : Nat)
    (hrun : (s.envs e).env_status = EnvStatus.ENV_RUNNING) (hcur : s.curenv ≠ some e) :
    env_destroy s e walk pdpt
      = s.setEnv e { s.envs e with env_status := EnvStatus.ENV_DYING } := by
  unfold env_destroy
  rw [if_pos ⟨hrun, hcur⟩]

/-- Claim C13.  For an environment `e` with status `ENV_RUNNING` that is not
`curenv`, `env_destroy(e)` only sets `e->env_status` to `ENV_DYING`: the root
of the address space of `e` (`env_pml4e`, `env_cr3`), the page reference
counts, the free list, `curenv` and the loaded address space are unchanged
and `e` is not on the free list.  A subsequent `env_free(e)` releases the
address space (the root fields are cleared and the reference on the root
page is dropped), sets the status to `ENV_FREE` and puts the record at the
head of the free list, the other records being untouched. -/
theorem env_destroy_running_elsewhere (c : Cfg) (s : KState) (e : Nat)
    (walk : List Nat) (pdpt : Nat) (walk2 : List Nat) (pdpt2 : Nat)
    (hinv : FreeListInv c s) (he : e < NENV c)
    (hrun : (s.envs e).env_status = EnvStatus.ENV_RUNNING) (hcur : s.curenv ≠ some e) :
    (env_destroy s e walk pdpt).envs
      = Function.update s.envs e { s.envs e with env_status := EnvStatus.ENV_DYING } ∧
    ((env_destroy s e walk pdpt).envs e).env_status = EnvStatus.ENV_DYING ∧
    ((env_destroy s e walk pdpt).envs e).env_pml4e = (s.envs e).env_pml4e ∧
    ((env_destroy s e walk pdpt).envs e).env_cr3 = (s.envs e).env_cr3 ∧
    (env_destroy s e walk pdpt).pp_ref = s.pp_ref ∧
    (env_destroy s e walk pdpt).env_free_list = s.env_free_list ∧
    (env_destroy s e walk pdpt).curenv = s.curenv ∧
    (env_destroy s e walk pdpt).cr3 = s.cr3 ∧
    (∀ l, FreeChain (env_destroy s e walk pdpt) (env_destroy s e walk pdpt).env_free_list l →
      e ∉ l) ∧
    ((env_free (env_destroy s e walk pdpt) e walk2 pdpt2).envs e).env_status
      = EnvStatus.ENV_FREE ∧
    ((env_free (env_destroy s e walk pdpt) e walk2 pdpt2).envs e).env_pml4e = none ∧
    ((env_free (env_destroy s e walk pdpt) e walk2 pdpt2).envs e).env_cr3 = 0 ∧
    ((env_free (env_destroy s e walk pdpt) e walk2 pdpt2).envs e).env_link
      = s.env_free_list ∧
    (env_free (env_destroy s e walk pdpt) e walk2 pdpt2).env_free_list = some e ∧
    (∀ j, j ≠ e → (env_free (env_destroy s e walk pdpt) e walk2 pdpt2).envs j = s.envs j) ∧
    FreeListInv c (env_free (env_destroy s e walk pdpt) e walk2 pdpt2) ∧
    (pa2page (s.envs e).env_cr3 ∉ walk2 →
      (if (s.envs e).env_type = EnvType.ENV_TYPE_GUEST then
        (s.envs e).env_vmxinfo.vmcs ≠ some (pa2page (s.envs e).env_cr3) ∧
        (s.envs e).env_vmxinfo.msr_host_area ≠ some (pa2page (s.envs e).env_cr3) ∧
        (s.envs e).env_vmxinfo.io_bmap_a ≠ some (pa2page (s.envs e).env_cr3) ∧
        (s.envs e).env_vmxinfo.io_bmap_b ≠ some (pa2page (s.envs e).env_cr3)
       else pa2page (s.envs e).env_cr3 ≠ pdpt2) →
      (env_free (env_destroy s e walk pdpt) e walk2 pdpt2).pp_ref (pa2page (s.envs e).env_cr3)
        = s.pp_ref (pa2page (s.envs e).env_cr3) - 1) := by
  have ht := env_destroy_dying s e walk pdpt hrun hcur
  have hte : (env_destroy s e walk pdpt).envs e
      = { s.envs e with env_status := EnvStatus.ENV_DYING } := by
    rw [ht]; simp [KState.setEnv]
  have htenvs : (env_destroy s e walk pdpt).envs
      = Function.update s.envs e { s.envs e with env_status := EnvStatus.ENV_DYING } := by
    rw [ht]; rfl
  have htfl : (env_destroy s e walk pdpt).env_free_list = s.env_free_list := by rw [ht]; rfl
  have htpp : (env_destroy s e walk pdpt).pp_ref = s.pp_ref := by rw [ht]; rfl
  have hnf : (s.envs e).env_status ≠ EnvStatus.ENV_FREE := by rw [hrun]; decide
  have htinv : FreeListInv c (env_destroy s e walk pdpt) :=
    FreeListInv_env_destroy c s e walk pdpt hinv he hnf
  have htnf : ((env_destroy s e walk pdpt).envs e).env_status ≠ EnvStatus.ENV_FREE := by
    rw [hte]; exact fun h => EnvStatus.noConfusion h
  obtain ⟨f1, f2, -, -⟩ := env_free_effect (env_destroy s e walk pdpt) e walk2 pdpt2
  have hroot := env_free_root_pp_ref (env_destroy s e walk pdpt) e walk2 pdpt2
  rw [hte] at hroot
  simp only [htpp] at hroot
  refine ⟨htenvs, by rw [hte], by rw [hte], by rw [hte], htpp, htfl, by rw [ht]; rfl,
    by rw [ht]; rfl, ?_, ?_, ?_, ?_, ?_, f2, ?_,
    FreeListInv_env_free c _ e walk2 pdpt2 htinv he htnf, ?_⟩
  · intro l hl hmem
    obtain ⟨l0, hch, -, -, hiff⟩ := htinv
    have := FreeChain_unique _ _ _ _ hl hch
    subst this
    exact htnf ((hiff e he).mp hmem)
  · rw [f1]; simp [env_free_record]
  · rw [f1]; simp [env_free_record]
  · rw [f1]; simp [env_free_record]
  · rw [f1, htfl]; simp [env_free_record]
  · intro j hj
    rw [f1, Function.update_noteq hj, htenvs, Function.update_noteq hj]
  · intro hw hcond
    by_cases hty : (s.envs e).env_type = EnvType.ENV_TYPE_GUEST
    · rw [if_pos hty] at hcond
      exact (hroot hw).2 hty hcond.1 hcond.2.1 hcond.2.2.1 hcond.2.2.2
    · rw [if_neg hty] at hcond
      exact (hroot hw).1 hty hcond

/-- Witness for `env_destroy_running_elsewhere`: record 2 of the sample state
runs on another processor with its address-space root in page 9. -/
theorem env_destroy_running_elsewhere_witness :
    ((env_destroy sampleRunningElsewhere 2 [] 0).envs 2).env_status = EnvStatus.ENV_DYING ∧
    (env_destroy sampleRunningElsewhere 2 [] 0).pp_ref = sampleRunningElsewhere.pp_ref ∧
    (env_free (env_destroy sampleRunningElsewhere 2 [] 0) 2 [] 0).env_free_list = some 2 ∧
    (env_free (env_destroy sampleRunningElsewhere 2 [] 0) 2 [] 0).pp_ref 9 = 1 := by
  have h := env_destroy_running_elsewhere cfg4 sampleRunningElsewhere 2 [] 0 [] 0
    ⟨[0, 3], by decide, by decide, by decide, by decide⟩ (by decide) (by decide) (by decide)
  exact ⟨h.2.1, h.2.2.2.2.1, h.2.2.2.2.2.2.2.2.2.2.2.2.2.1,
    h.2.2.2.2.2.2.2.2.2.2.2.2.2.2.2.2 (by decide) (by decide)⟩

/-! ## Dispatch of an environment -/

/-- Claim C14.  When `curenv` is not `e`, `env_run(e)` reaches the point where
control leaves the kernel with `e` as the current environment in status
`ENV_RUNNING`; `e->env_runs` has been incremented once (in the 32-bit
arithmetic of the counter); the previous current environment, if any, is
`ENV_RUNNABLE` when it was `ENV_RUNNING` and keeps its status otherwise; no
other record changes status or run counter; and the address space is
reloaded from `e->env_cr3` exactly when `e` is not of type `ENV_TYPE_GUEST`.
When `curenv` is `e`, no status, no run counter and no address space
changes. -/
theorem env_run_switch (s : KState) (e : Nat) (cpu : Int) :
    (s.curenv ≠ some e →
      ∃ s', env_run s e cpu = some s' ∧
        s'.curenv = some e ∧
        (s'.envs e).env_status = EnvStatus.ENV_RUNNING ∧
        (s'.envs e).env_runs = ((s.envs e).env_runs + 1) % 4294967296 ∧
        ((s.envs e).env_runs < 4294967295 →
          (s'.envs e).env_runs = (s.envs e).env_runs + 1) ∧
        (∀ cur, s.curenv = some cur →
          (s'.envs cur).env_status
            = if (s.envs cur).env_status = EnvStatus.ENV_RUNNING then EnvStatus.ENV_RUNNABLE
              else (s.envs cur).env_status) ∧
        (∀ j, j ≠ e → s.curenv ≠ some j →
          (s'.envs j).env_status = (s.envs j).env_status) ∧
        (∀ j, j ≠ e → (s'.envs j).env_runs = (s.envs j).env_runs) ∧
        s'.cr3 = (if (s.envs e).env_type ≠ EnvType.ENV_TYPE_GUEST then (s.envs e).env_cr3
                  else s.cr3)) ∧
    (s.curenv = some e →
      ((s.envs e).env_status = EnvStatus.ENV_RUNNING → (env_run s e cpu).isSome = true) ∧
      ∀ s', env_run s e cpu = some s' →
        (∀ j, (s'.envs j).env_status = (s.envs j).env_status ∧
          (s'.envs j).env_runs = (s.envs j).env_runs) ∧
        s'.curenv = s.curenv ∧ s'.cr3 = s.cr3) := by
  constructor
  · intro hne
    have hmod : ∀ n : Nat, n < 4294967295 → (n + 1) % 4294967296 = n + 1 := by
      intro n hn; omega
    have hsome : ∃ s', env_run s e cpu = some s' := by
      apply Option.isSome_iff_exists.mp
      by_cases hty : (s.envs e).env_type = EnvType.ENV_TYPE_GUEST
      · cases hcur : s.curenv with
        | none => simp [env_run, hcur, hty, KState.setEnv]
        | some cur =>
          have hce : cur ≠ e := fun h => hne (by rw [hcur, h])
          have hec : e ≠ cur := fun h => hce h.symm
          by_cases hrun : (s.envs cur).env_status = EnvStatus.ENV_RUNNING
          · simp [env_run, hcur, hty, hce, hec, hrun, KState.setEnv]
          · simp [env_run, hcur, hty, hce, hec, hrun, KState.setEnv]
      · cases hcur : s.curenv with
        | none => simp [env_run, hcur, hty, KState.setEnv]
        | some cur =>
          have hce : cur ≠ e := fun h => hne (by rw [hcur, h])
          have hec : e ≠ cur := fun h => hce h.symm
          by_cases hrun : (s.envs cur).env_status = EnvStatus.ENV_RUNNING
          · simp [env_run, hcur, hty, hce, hec, hrun, KState.setEnv]
          · simp [env_run, hcur, hty, hce, hec, hrun, KState.setEnv]
    obtain ⟨s', h⟩ := hsome
    refine ⟨s', h, ?_⟩
    by_cases hty : (s.envs e).env_type = EnvType.ENV_TYPE_GUEST
    · cases hcur : s.curenv with
      | none =>
        simp [env_run, hcur, hty, KState.setEnv] at h
        subst h
        simp +contextual [hty, hmod, Function.update_apply]
      | some cur =>
        have hce : cur ≠ e := fun h => hne (by rw [hcur, h])
        have hec : e ≠ cur := fun h => hce h.symm
        by_cases hrun : (s.envs cur).env_status = EnvStatus.ENV_RUNNING
        · simp [env_run, hcur, hty, hce, hec, hrun, KState.setEnv] at h
          subst h
          simp +contextual [hty, hmod, hce, hec, hrun, Function.update_apply]
          constructor
          · intro j _ hj
            rw [if_neg (fun h => hj h.symm)]
          · intro j _
            split
            · next h => rw [h]
            · rfl
        · simp [env_run, hcur, hty, hce, hec, hrun, KState.setEnv] at h
          subst h
          simp +contextual [hty, hmod, hce, hec, hrun, Function.update_apply]
    · cases hcur : s.curenv with
      | none =>
        simp [env_run, hcur, hty, KState.setEnv] at h
        subst h
        simp +contextual [hty, hmod, Function.update_apply]
      | some cur =>
        have hce : cur ≠ e := fun h => hne (by rw [hcur, h])
        have hec : e ≠ cur := fun h => hce h.symm
        by_cases hrun : (s.envs cur).env_status = EnvStatus.ENV_RUNNING
        · simp [env_run, hcur, hty, hce, hec, hrun, KState.setEnv] at h
          subst h
          simp +contextual [hty, hmod, hce, hec, hrun, Function.update_apply]
          constructor
          · intro j _ hj
            rw [if_neg (fun h => hj h.symm)]
          · intro j _
            split
            · next h => rw [h]
            · rfl
        · simp [env_run, hcur, hty, hce, hec, hrun, KState.setEnv] at h
          subst h
          simp +contextual [hty, hmod, hce, hec, hrun, Function.update_apply]
  · intro hcur
    constructor
    · intro hrun
      by_cases hty : (s.envs e).env_type = EnvType.ENV_TYPE_GUEST
      · simp [env_run, hcur, hty, hrun]
      · simp [env_run, hcur, hty, hrun, KState.setEnv]
    · intro s' h
      by_cases hrun : (s.envs e).env_status = EnvStatus.ENV_RUNNING
      · by_cases hty : (s.envs e).env_type = EnvType.ENV_TYPE_GUEST
        · simp [env_run, hcur, hty, hrun] at h
          subst h
          simp [hcur]
        · simp [env_run, hcur, hty, hrun, KState.setEnv] at h
          subst h
          simp +contextual [hcur, Function.update_apply]
          intro j
          constructor <;> split <;> simp_all
      · simp [env_run, hcur, hrun] at h

/-- Witness for `env_run_switch`: in the sample state, where record 1 is the
running current environment, record 2 is dispatched. -/
theorem env_run_switch_witness :
    ∃ s', env_run sampleState 2 0 = some s' ∧ s'.curenv = some 2 ∧
      (s'.envs 2).env_status = EnvStatus.ENV_RUNNING ∧ (s'.envs 2).env_runs = 1 ∧
      (s'.envs 1).env_status = EnvStatus.ENV_RUNNABLE ∧ s'.cr3 = 0 := by
  obtain ⟨s', h1, h2, h3, h4, -, h6, -, -, h9⟩ := (env_run_switch sampleState 2 0).1 (by decide)
  exact ⟨s', h1, h2, h3, h4.trans (by decide), (h6 1 rfl).trans (by decide),
    h9.trans (by decide)⟩

/-! ## Emulation of `cpuid` -/

theorem testBit_not_bit5 (i : Nat) :
    Nat.testBit (U32 - 1 - (1 <<< 5)) i = (decide (i < 32) && decide (i ≠ 5)) := by
  have h : U32 - 1 - (1 <<< 5) = (2 ^ 32 - 1) ^^^ 2 ^ 5 := by decide
  rw [h, Nat.testBit_xor, Nat.testBit_two_pow_sub_one, Nat.testBit_two_pow]
  by_cases h1 : i < 32 <;> by_cases h2 : i = 5
  · subst h2; simp
  · have h3 : ¬ 5 = i := fun h => h2 h.symm
    simp [h1, h2, h3]
  · subst h2; omega
  · have h3 : ¬ 5 = i := fun h => h2 h.symm
    simp [h1, h2, h3]

theorem testBit_mod_U32 (x i : Nat) :
    Nat.testBit (x % U32) i = (decide (i < 32) && Nat.testBit x i) := by
  have h : U32 = 2 ^ 32 := by decide
  rw [h, Nat.testBit_mod_two_pow]

/-- Claim C15.  For every trapframe, `handle_cpuid` returns true, stores in
`rax`, `rbx`, `rcx`, `rdx` the 32-bit results of the `cpuid` instruction
executed with the low 32 bits of the guest `rax` as input, zero-extended,
except that for input 1 the stored `rcx` is the raw `ecx` with bit 5 cleared
and every other bit as it was, and advances `tf_rip` by the instruction
length read from the VMCS (in the 64-bit arithmetic of the register);
nothing else in the trapframe changes. -/
theorem handle_cpuid_spec (cpuid : Nat → CpuidRegs) (tf : Trapframe) (ilen : Nat) :
    (handle_cpuid cpuid tf ilen).1 = true ∧
    (handle_cpuid cpuid tf ilen).2.tf_regs.reg_rax
      = (cpuid (tf.tf_regs.reg_rax % U32)).eax % U32 ∧
    (handle_cpuid cpuid tf ilen).2.tf_regs.reg_rbx
      = (cpuid (tf.tf_regs.reg_rax % U32)).ebx % U32 ∧
    (handle_cpuid cpuid tf ilen).2.tf_regs.reg_rdx
      = (cpuid (tf.tf_regs.reg_rax % U32)).edx % U32 ∧
    (tf.tf_regs.reg_rax % U32 ≠ 1 →
      (handle_cpuid cpuid tf ilen).2.tf_regs.reg_rcx
        = (cpuid (tf.tf_regs.reg_rax % U32)).ecx % U32) ∧
    (tf.tf_regs.reg_rax % U32 = 1 →
      (handle_cpuid cpuid tf ilen).2.tf_regs.reg_rcx < U32 ∧
      Nat.testBit (handle_cpuid cpuid tf ilen).2.tf_regs.reg_rcx 5 = false ∧
      ∀ i, i ≠ 5 →
        Nat.testBit (handle_cpuid cpuid tf ilen).2.tf_regs.reg_rcx i
          = Nat.testBit ((cpuid 1).ecx % U32) i) ∧
    (handle_cpuid cpuid tf ilen).2.tf_rip = (tf.tf_rip + ilen) % U64 ∧
    (handle_cpuid cpuid tf ilen).2.tf_regs.reg_rsi = tf.tf_regs.reg_rsi ∧
    (handle_cpuid cpuid tf ilen).2.tf_rsp = tf.tf_rsp ∧
    (handle_cpuid cpuid tf ilen).2.tf_eflags = tf.tf_eflags ∧
    (handle_cpuid cpuid tf ilen).2.tf_cs = tf.tf_cs ∧
    (handle_cpuid cpuid tf ilen).2.tf_ss = tf.tf_ss ∧
    (handle_cpuid cpuid tf ilen).2.tf_ds = tf.tf_ds ∧
    (handle_cpuid cpuid tf ilen).2.tf_es = tf.tf_es := by
  refine ⟨rfl, rfl, rfl, rfl, ?_, ?_, rfl, rfl, rfl, rfl, rfl, rfl, rfl, rfl⟩
  · intro h
    simp only [handle_cpuid, advance_rip, if_neg h]
  · intro h
    simp only [handle_cpuid, advance_rip, h, if_true]
    refine ⟨?_, ?_, ?_⟩
    · exact Nat.lt_of_le_of_lt Nat.and_le_left (Nat.mod_lt _ (by decide))
    · rw [Nat.testBit_and, testBit_not_bit5]
      simp
    · intro i hi
      rw [Nat.testBit_and, testBit_not_bit5, testBit_mod_U32]
      by_cases h1 : i < 32 <;> simp [h1, hi]

/-- Witness for `handle_cpuid_spec`: a processor that answers every leaf with
all bits of `ecx` set, queried for leaf 1 by an instruction of two bytes at
`0x1000`. -/
theorem handle_cpuid_spec_witness :
    (handle_cpuid (fun _ => { eax := 0x306a9, ebx := 0, ecx := 0xFFFFFFFF, edx := 0 })
      { Trapframe.zero with
        tf_regs := { Trapframe.zero.tf_regs with reg_rax := 1 }, tf_rip := 0x1000 } 2).1 = true ∧
    (handle_cpuid (fun _ => { eax := 0x306a9, ebx := 0, ecx := 0xFFFFFFFF, edx := 0 })
      { Trapframe.zero with
        tf_regs := { Trapframe.zero.tf_regs with reg_rax := 1 }, tf_rip := 0x1000 } 2).2.tf_rip
      = 0x1002 ∧
    Nat.testBit (handle_cpuid (fun _ => { eax := 0x306a9, ebx := 0, ecx := 0xFFFFFFFF, edx := 0 })
      { Trapframe.zero with
        tf_regs := { Trapframe.zero.tf_regs with reg_rax := 1 }, tf_rip := 0x1000 }
        2).2.tf_regs.reg_rcx 5 = false := by
  have h := handle_cpuid_spec (fun _ => { eax := 0x306a9, ebx := 0, ecx := 0xFFFFFFFF, edx := 0 })
    { Trapframe.zero with
      tf_regs := { Trapframe.zero.tf_regs with reg_rax := 1 }, tf_rip := 0x1000 } 2
  exact ⟨h.1, h.2.2.2.2.2.2.1.trans (by decide), (h.2.2.2.2.2.1 (by decide)).2.1⟩

/-! ## Advance of the instruction pointer -/

/-- The case labels of the `switch` of `handle_vmcall`, pairwise distinct. -/
theorem vmcall_labels (c : VmmCfg) :
    (¬c.VMX_VMCALL_MBMAP = c.VMX_VMCALL_IPCSEND ∧
      ¬c.VMX_VMCALL_MBMAP = c.VMX_VMCALL_IPCRECV ∧
      ¬c.VMX_VMCALL_MBMAP = c.VMX_VMCALL_LAPICEOI ∧
      ¬c.VMX_VMCALL_MBMAP = c.VMX_VMCALL_BACKTOHOST ∧
      ¬c.VMX_VMCALL_MBMAP = c.VMX_VMCALL_GETDISKIMGNUM) ∧
    (¬c.VMX_VMCALL_IPCSEND = c.VMX_VMCALL_IPCRECV ∧
      ¬c.VMX_VMCALL_IPCSEND = c.VMX_VMCALL_LAPICEOI ∧
      ¬c.VMX_VMCALL_IPCSEND = c.VMX_VMCALL_BACKTOHOST ∧
      ¬c.VMX_VMCALL_IPCSEND = c.VMX_VMCALL_GETDISKIMGNUM) ∧
    (¬c.VMX_VMCALL_IPCRECV = c.VMX_VMCALL_LAPICEOI ∧
      ¬c.VMX_VMCALL_IPCRECV = c.VMX_VMCALL_BACKTOHOST ∧
      ¬c.VMX_VMCALL_IPCRECV = c.VMX_VMCALL_GETDISKIMGNUM) ∧
    (¬c.VMX_VMCALL_LAPICEOI = c.VMX_VMCALL_BACKTOHOST ∧
      ¬c.VMX_VMCALL_LAPICEOI = c.VMX_VMCALL_GETDISKIMGNUM) ∧
    ¬c.VMX_VMCALL_BACKTOHOST = c.VMX_VMCALL_GETDISKIMGNUM := by
  have hd := c.vmcall_distinct
  simp only [List.nodup_cons, List.mem_cons, List.mem_singleton, not_or] at hd
  exact ⟨⟨hd.1.1, hd.1.2.1, hd.1.2.2.1, hd.1.2.2.2.1, hd.1.2.2.2.2.1⟩,
    ⟨hd.2.1.1, hd.2.1.2.1, hd.2.1.2.2.1, hd.2.1.2.2.2.1⟩,
    ⟨hd.2.2.1.1, hd.2.2.1.2.1, hd.2.2.1.2.2.1⟩,
    ⟨hd.2.2.2.1.1, hd.2.2.2.1.2.1⟩, hd.2.2.2.2.1.1⟩

/-- The handlers other than `handle_vmcall` add the instruction length to
`tf_rip` once when they return true. -/
theorem handled_rip_once (c : VmmCfg) (tf : Trapframe) (ginfo : VmxGuestInfo) (ilen : Nat) :
    (∀ cpuid, (handle_cpuid cpuid tf ilen).2.tf_rip = (tf.tf_rip + ilen) % U64) ∧
    (∀ area tf', handle_rdmsr c tf ginfo area ilen = some (true, tf') →
      tf'.tf_rip = (tf.tf_rip + ilen) % U64) ∧
    (∀ area tf' area', handle_wrmsr c tf ginfo area ilen = some (true, tf', area') →
      tf'.tf_rip = (tf.tf_rip + ilen) % U64) ∧
    (∀ s qualification, (handle_ioinstr c s tf ginfo qualification ilen).1 = true →
      (handle_ioinstr c s tf ginfo qualification ilen).2.1.tf_rip = (tf.tf_rip + ilen) % U64) := by
  refine ⟨fun _ => rfl, ?_, ?_, ?_⟩
  · intro area tf' h
    unfold handle_rdmsr at h
    simp only at h
    split_ifs at h
    · split at h
      · exact absurd h (by simp)
      · simp only [Option.some.injEq, Prod.mk.injEq, true_and] at h
        subst h
        rfl
    · simp at h
  · intro area tf' area' h
    unfold handle_wrmsr at h
    simp only at h
    split_ifs at h
    · split at h
      · exact absurd h (by simp)
      · simp only [Option.some.injEq, Prod.mk.injEq, true_and] at h
        rw [← h.1]
        rfl
    · simp at h
  · intro s qualification h
    have hr : (ioinstr_emulate c s tf ginfo qualification).2.1.tf_rip = tf.tf_rip := by
      unfold ioinstr_emulate
      simp only
      split_ifs <;> rfl
    unfold handle_ioinstr at h ⊢
    simp only at h ⊢
    split_ifs at h ⊢
    simp only [advance_rip, hr]

/-- Outside the case `VMX_VMCALL_IPCRECV` the `switch` statement leaves `tf_rip`
as it is. -/
theorem vmcall_switch_rip (kc : Cfg) (c : VmmCfg) (s : VmmState) (tf : Trapframe)
    (gInfo : VmxGuestInfo) (ilen : Nat) (o : VmcallServices)
    (hne : tf.tf_regs.reg_rax ≠ c.VMX_VMCALL_IPCRECV) :
    (vmcall_switch kc c s tf gInfo ilen o).tf.tf_rip = tf.tf_rip := by
  unfold vmcall_switch
  simp only
  split_ifs <;> first
    | contradiction
    | ((repeat' split) <;> first
        | contradiction
        | simp only [VmcallSwitch.tf, vmcall_ipc_send])

/-- A `return` inside the `switch` statement returns false. -/
theorem vmcall_switch_early (kc : Cfg) (c : VmmCfg) (s : VmmState) (tf : Trapframe)
    (gInfo : VmxGuestInfo) (ilen : Nat) (o : VmcallServices) (r : Bool) (tf' : Trapframe)
    (s' : VmmState) (h : vmcall_switch kc c s tf gInfo ilen o = VmcallSwitch.early r tf' s') :
    r = false ∧ tf' = tf ∧ s' = s := by
  unfold vmcall_switch at h
  simp only at h
  split_ifs at h <;> first
    | exact VmcallSwitch.noConfusion h
    | ((repeat' split at h) <;> first
        | exact VmcallSwitch.noConfusion h
        | (injection h with h1 h2 h3; exact ⟨h1.symm, h2.symm, h3.symm⟩))

/-- The hypercalls other than `VMX_VMCALL_IPCRECV` add the instruction length
to `tf_rip` once when `handle_vmcall` returns true. -/
theorem vmcall_rip_once (kc : Cfg) (c : VmmCfg) (s : VmmState) (tf : Trapframe)
    (gInfo : VmxGuestInfo) (ilen : Nat) (o : VmcallServices)
    (hne : tf.tf_regs.reg_rax ≠ c.VMX_VMCALL_IPCRECV)
    (h : (handle_vmcall kc c s tf gInfo ilen o).handled = some true) :
    (handle_vmcall kc c s tf gInfo ilen o).tf.tf_rip = (tf.tf_rip + ilen) % U64 := by
  have hrip := vmcall_switch_rip kc c s tf gInfo ilen o hne
  have hearly := vmcall_switch_early kc c s tf gInfo ilen o
  unfold handle_vmcall at h ⊢
  cases hsw : vmcall_switch kc c s tf gInfo ilen o with
  | done handled tf1 s1 =>
    rw [hsw] at h hrip
    simp only [VmcallOutcome.handled, Option.some.injEq] at h
    subst h
    simp only [VmcallSwitch.tf] at hrip
    simp only [VmcallOutcome.tf, if_true, advance_rip, hrip]
  | early r tf1 s1 =>
    rw [hsw] at h
    simp only [VmcallOutcome.handled, Option.some.injEq] at h
    have := (hearly r tf1 s1 hsw).1
    rw [h] at this
    exact absurd this (by decide)
  | stuck tf1 s1 =>
    rw [hsw] at h
    exact absurd h (by simp [VmcallOutcome.handled])

/-- Claim C16 (divergence).  For the hypercall `VMX_VMCALL_IPCRECV`, when the
system call returns, `handle_vmcall` returns true having added the
instruction length to `tf_rip` twice: once before the system call and once
more in the common exit path. -/
theorem vmcall_ipcrecv_rip_twice (kc : Cfg) (c : VmmCfg) (s : VmmState) (tf : Trapframe)
    (gInfo : VmxGuestInfo) (ilen : Nat) (o : VmcallServices) (ret : Nat)
    (hrax : tf.tf_regs.reg_rax = c.VMX_VMCALL_IPCRECV)
    (hret : (o.ipc_recv s.k tf.tf_regs.reg_rbx).2 = some ret) :
    (handle_vmcall kc c s tf gInfo ilen o).handled = some true ∧
    (handle_vmcall kc c s tf gInfo ilen o).tf.tf_rip
      = ((tf.tf_rip + ilen) % U64 + ilen) % U64 ∧
    (handle_vmcall kc c s tf gInfo ilen o).tf.tf_regs.reg_rax = ret % U64 := by
  obtain ⟨⟨-, h1, -⟩, ⟨h2, -⟩, -⟩ := vmcall_labels c
  have h1 : ¬ tf.tf_regs.reg_rax = c.VMX_VMCALL_MBMAP := fun h => h1 (h.symm.trans hrax)
  have h2 : ¬ tf.tf_regs.reg_rax = c.VMX_VMCALL_IPCSEND := fun h => h2 (h.symm.trans hrax)
  have hsw : vmcall_switch kc c s tf gInfo ilen o
      = VmcallSwitch.done true
          { advance_rip tf ilen with
            tf_regs := { (advance_rip tf ilen).tf_regs with reg_rax := ret % U64 } }
          { s with k := (o.ipc_recv s.k tf.tf_regs.reg_rbx).1 } := by
    unfold vmcall_switch
    simp only [if_neg h1, if_neg h2, if_pos hrax, advance_rip]
    cases hr : o.ipc_recv s.k tf.tf_regs.reg_rbx with
    | mk k r =>
      rw [hr] at hret
      simp only at hret
      subst hret
      rfl
  unfold handle_vmcall
  rw [hsw]
  simp only [VmcallOutcome.handled, VmcallOutcome.tf, if_true, advance_rip, and_self]

/-- Witness for `vmcall_ipcrecv_rip_twice`: the hypercall `VMX_VMCALL_IPCRECV`
issued by an instruction of three bytes at `0x1000`, the system call
returning 0. -/
theorem vmcall_ipcrecv_rip_twice_witness :
    (handle_vmcall cfg4 vmmCfg vmmBoot
      { Trapframe.zero with
        tf_regs := { Trapframe.zero.tf_regs with reg_rax := 3 }, tf_rip := 0x1000 }
      guest64M 3 idleServices).handled = some true ∧
    (handle_vmcall cfg4 vmmCfg vmmBoot
      { Trapframe.zero with
        tf_regs := { Trapframe.zero.tf_regs with reg_rax := 3 }, tf_rip := 0x1000 }
      guest64M 3 idleServices).tf.tf_rip = 0x1006 := by
  have h := vmcall_ipcrecv_rip_twice cfg4 vmmCfg vmmBoot
    { Trapframe.zero with
      tf_regs := { Trapframe.zero.tf_regs with reg_rax := 3 }, tf_rip := 0x1000 }
    guest64M 3 idleServices 0 rfl rfl
  exact ⟨h.1, h.2.1.trans (by decide)⟩

/-! ## The real-time clock ports -/

theorem and_255 (x : Nat) : x &&& 0xFF = x % 256 :=
  Nat.and_pow_two_sub_one_eq_mod x 8

theorem shiftRight_8 (x : Nat) : x >>> 8 = x / 256 :=
  Nat.shiftRight_eq_div_pow x 8

/-- An OUT exit to port `IO_RTC` records the low 32 bits of `reg_rax`. -/
theorem handle_ioinstr_out (c : VmmCfg) (s : VmmState) (tf : Trapframe) (ginfo : VmxGuestInfo)
    (qualification ilen : Nat)
    (hport : (qualification >>> 16) &&& 0xFFFF = c.IO_RTC)
    (hdir : BIT qualification 3 = false) :
    handle_ioinstr c s tf ginfo qualification ilen
      = (true, advance_rip tf ilen,
          { s with port_iortc := ofU32 (tf.tf_regs.reg_rax % U32) }) := by
  have he : ioinstr_emulate c s tf ginfo qualification
      = (true, tf, { s with port_iortc := ofU32 (tf.tf_regs.reg_rax % U32) }) := by
    unfold ioinstr_emulate
    simp only [hport, hdir, if_true, Bool.false_eq_true, not_false_eq_true]
  unfold handle_ioinstr
  simp only [he, if_true]

/-- An IN exit from port `IO_RTC + 1` while the recorded index is
`NVRAM_EXTLO` or `NVRAM_EXTHI`. -/
theorem handle_ioinstr_in_ext (c : VmmCfg) (s : VmmState) (tf : Trapframe)
    (ginfo : VmxGuestInfo) (qualification ilen : Nat)
    (hport : (qualification >>> 16) &&& 0xFFFF = c.IO_RTC + 1)
    (hdir : BIT qualification 3 = true)
    (h1 : s.port_iortc ≠ (c.NVRAM_BASELO : Int)) (h2 : s.port_iortc ≠ (c.NVRAM_BASEHI : Int)) :
    (s.port_iortc = (c.NVRAM_EXTLO : Int) →
      handle_ioinstr c s tf ginfo qualification ilen
        = (true, advance_rip { tf with tf_regs := { tf.tf_regs with
            reg_rax := (sub64 (ginfo.phys_sz / 1024) 1024) &&& 0xFF } } ilen, s)) ∧
    (s.port_iortc ≠ (c.NVRAM_EXTLO : Int) → s.port_iortc = (c.NVRAM_EXTHI : Int) →
      handle_ioinstr c s tf ginfo qualification ilen
        = (true, advance_rip { tf with tf_regs := { tf.tf_regs with
            reg_rax := ((sub64 (ginfo.phys_sz / 1024) 1024) >>> 8) &&& 0xFF } } ilen, s)) := by
  have hne : ¬ (c.IO_RTC + 1 = c.IO_RTC) := by omega
  constructor
  · intro h3
    have he : ioinstr_emulate c s tf ginfo qualification
        = (true, { tf with tf_regs := { tf.tf_regs with
            reg_rax := (sub64 (ginfo.phys_sz / 1024) 1024) &&& 0xFF } }, s) := by
      unfold ioinstr_emulate
      simp only [hport, hdir, if_true, if_neg hne, if_neg h1, if_neg h2, if_pos h3]
    unfold handle_ioinstr
    simp only [he, if_true]
  · intro h3 h4
    have he : ioinstr_emulate c s tf ginfo qualification
        = (true, { tf with tf_regs := { tf.tf_regs with
            reg_rax := ((sub64 (ginfo.phys_sz / 1024) 1024) >>> 8) &&& 0xFF } }, s) := by
      unfold ioinstr_emulate
      simp only [hport, hdir, if_true, if_neg hne, if_neg h1, if_neg h2, if_neg h3, if_pos h4]
    unfold handle_ioinstr
    simp only [he, if_true]

theorem sub64_1024_bytes (a : Nat) :
    (((sub64 a 1024) &&& 0xFF : Nat) : Int) = ((a : Int) - 1024) % 256 ∧
    ((((sub64 a 1024) >>> 8) &&& 0xFF : Nat) : Int) = (((a : Int) - 1024) / 256) % 256 ∧
    ((((sub64 a 1024) &&& 0xFF) + 256 * (((sub64 a 1024) >>> 8) &&& 0xFF) : Nat) : Int)
      = ((a : Int) - 1024) % 65536 := by
  rw [and_255, and_255, shiftRight_8]
  unfold sub64 U64
  refine ⟨?_, ?_, ?_⟩ <;> omega

/-- Claim C17.  An OUT exit to port `IO_RTC` is handled; when its `reg_rax`
selects `NVRAM_EXTLO`, an IN exit from port `IO_RTC + 1` that follows it is
handled and leaves in `reg_rax` the low byte of `phys_sz / 1024 - 1024`;
when it selects `NVRAM_EXTHI`, the IN exit leaves the next byte,
`((phys_sz / 1024 - 1024) >> 8) & 0xFF`; the two bytes recombine to
`phys_sz / 1024 - 1024` modulo `2^16`.  The four NVRAM indices are
parameters: those of the extended memory size are taken to be `int`
constants different from each other and from the two of the base memory
size. -/
theorem rtc_extended_memory (c : VmmCfg) (s : VmmState) (ginfo : VmxGuestInfo)
    (tf_lo tf_hi tf_in : Trapframe) (q_out q_in ilen_out ilen_in : Nat)
    (hq_out : (q_out >>> 16) &&& 0xFFFF = c.IO_RTC) (hd_out : BIT q_out 3 = false)
    (hq_in : (q_in >>> 16) &&& 0xFFFF = c.IO_RTC + 1) (hd_in : BIT q_in 3 = true)
    (hrax_lo : tf_lo.tf_regs.reg_rax = c.NVRAM_EXTLO)
    (hrax_hi : tf_hi.tf_regs.reg_rax = c.NVRAM_EXTHI)
    (hlo : c.NVRAM_EXTLO < 2147483648) (hhi : c.NVRAM_EXTHI < 2147483648)
    (hlb : c.NVRAM_EXTLO ≠ c.NVRAM_BASELO) (hlh : c.NVRAM_EXTLO ≠ c.NVRAM_BASEHI)
    (hhb : c.NVRAM_EXTHI ≠ c.NVRAM_BASELO) (hhh : c.NVRAM_EXTHI ≠ c.NVRAM_BASEHI)
    (hhl : c.NVRAM_EXTHI ≠ c.NVRAM_EXTLO) :
    (handle_ioinstr c s tf_lo ginfo q_out ilen_out).1 = true ∧
    (handle_ioinstr c s tf_hi ginfo q_out ilen_out).1 = true ∧
    (handle_ioinstr c (handle_ioinstr c s tf_lo ginfo q_out ilen_out).2.2 tf_in ginfo q_in
      ilen_in).1 = true ∧
    (handle_ioinstr c (handle_ioinstr c s tf_hi ginfo q_out ilen_out).2.2 tf_in ginfo q_in
      ilen_in).1 = true ∧
    (((handle_ioinstr c (handle_ioinstr c s tf_lo ginfo q_out ilen_out).2.2 tf_in ginfo q_in
      ilen_in).2.1.tf_regs.reg_rax : Nat) : Int)
      = (((ginfo.phys_sz / 1024 : Nat) : Int) - 1024) % 256 ∧
    (((handle_ioinstr c (handle_ioinstr c s tf_hi ginfo q_out ilen_out).2.2 tf_in ginfo q_in
      ilen_in).2.1.tf_regs.reg_rax : Nat) : Int)
      = ((((ginfo.phys_sz / 1024 : Nat) : Int) - 1024) / 256) % 256 ∧
    ((((handle_ioinstr c (handle_ioinstr c s tf_lo ginfo q_out ilen_out).2.2 tf_in ginfo q_in
        ilen_in).2.1.tf_regs.reg_rax
      + 256 * (handle_ioinstr c (handle_ioinstr c s tf_hi ginfo q_out ilen_out).2.2 tf_in ginfo
        q_in ilen_in).2.1.tf_regs.reg_rax : Nat) : Int)
      = (((ginfo.phys_sz / 1024 : Nat) : Int) - 1024) % 65536) ∧
    (1024 ≤ ginfo.phys_sz / 1024 →
      (handle_ioinstr c (handle_ioinstr c s tf_lo ginfo q_out ilen_out).2.2 tf_in ginfo q_in
        ilen_in).2.1.tf_regs.reg_rax = (ginfo.phys_sz / 1024 - 1024) % 256 ∧
      (handle_ioinstr c (handle_ioinstr c s tf_hi ginfo q_out ilen_out).2.2 tf_in ginfo q_in
        ilen_in).2.1.tf_regs.reg_rax = (ginfo.phys_sz / 1024 - 1024) / 256 % 256) := by
  have hU : U32 = 4294967296 := rfl
  have hplo : ofU32 (tf_lo.tf_regs.reg_rax % U32) = (c.NVRAM_EXTLO : Int) := by
    rw [hrax_lo, hU, Nat.mod_eq_of_lt (by omega)]
    exact ofU32_of_lt _ hlo
  have hphi : ofU32 (tf_hi.tf_regs.reg_rax % U32) = (c.NVRAM_EXTHI : Int) := by
    rw [hrax_hi, hU, Nat.mod_eq_of_lt (by omega)]
    exact ofU32_of_lt _ hhi
  have e1 := handle_ioinstr_out c s tf_lo ginfo q_out ilen_out hq_out hd_out
  have e2 := handle_ioinstr_out c s tf_hi ginfo q_out ilen_out hq_out hd_out
  rw [hplo] at e1
  rw [hphi] at e2
  have e3 := (handle_ioinstr_in_ext c { s with port_iortc := (c.NVRAM_EXTLO : Int) } tf_in ginfo
    q_in ilen_in hq_in hd_in (fun h => hlb (Int.ofNat.inj h))
    (fun h => hlh (Int.ofNat.inj h))).1 rfl
  have e4 := (handle_ioinstr_in_ext c { s with port_iortc := (c.NVRAM_EXTHI : Int) } tf_in ginfo
    q_in ilen_in hq_in hd_in (fun h => hhb (Int.ofNat.inj h))
    (fun h => hhh (Int.ofNat.inj h))).2 (fun h => hhl (Int.ofNat.inj h)) rfl
  rw [e1, e2]
  simp only [e3, e4, advance_rip, true_and]
  obtain ⟨b1, b2, b3⟩ := sub64_1024_bytes (ginfo.phys_sz / 1024)
  refine ⟨b1, b2, b3, ?_⟩
  intro hge
  constructor <;> omega

/-- Witness for `rtc_extended_memory`: a guest of 64 MiB selects the indices
`0x17` and `0x18` through port `0x70` and reads the bytes `0x00` and `0xFC`
of `0xFC00 = 65536 - 1024` from port `0x71`. -/
theorem rtc_extended_memory_witness :
    (handle_ioinstr vmmCfg (handle_ioinstr vmmCfg vmmBoot tfSelectExtLo guest64M 0x700000 2).2.2
      Trapframe.zero guest64M 0x710008 2).1 = true ∧
    (handle_ioinstr vmmCfg (handle_ioinstr vmmCfg vmmBoot tfSelectExtLo guest64M 0x700000 2).2.2
      Trapframe.zero guest64M 0x710008 2).2.1.tf_regs.reg_rax = 0x00 ∧
    (handle_ioinstr vmmCfg (handle_ioinstr vmmCfg vmmBoot tfSelectExtHi guest64M 0x700000 2).2.2
      Trapframe.zero guest64M 0x710008 2).2.1.tf_regs.reg_rax = 0xFC := by
  have h := rtc_extended_memory vmmCfg vmmBoot guest64M tfSelectExtLo tfSelectExtHi
    Trapframe.zero 0x700000 0x710008 2 2 (by decide) (by decide) (by decide) (by decide)
    rfl rfl (by decide) (by decide) (by decide) (by decide) (by decide) (by decide) (by decide)
  have h8 := h.2.2.2.2.2.2.2 (by decide)
  exact ⟨h.2.2.1, h8.1.trans (by decide), h8.2.trans (by decide)⟩

/-! ## EPT violations -/

/-- The demand-paged branch of `handle_eptviolation`. -/
theorem handle_eptviolation_ram (c : VmmCfg) (s : VmmState) (ginfo : VmxGuestInfo) (gpa : Nat)
    (hram : gpa < 0xA0000 ∨ (gpa ≥ 0x100000 ∧ gpa < ginfo.phys_sz)) :
    (∀ r, handle_eptviolation c s ginfo gpa none r = some (false, s)) ∧
    (∀ p r, 0 ≤ r →
      handle_eptviolation c s ginfo gpa (some p) r
        = some (true,
            { s with
              k := page_incref s.k p,
              ept := Function.update s.ept (ROUNDDOWN gpa PGSIZE)
                (some (page2kva c p, c.EPTE_FULL)) })) ∧
    (∀ p r, r < 0 → handle_eptviolation c s ginfo gpa (some p) r = none) := by
  refine ⟨fun r => ?_, fun p r hr => ?_, fun p r hr => ?_⟩
  · unfold handle_eptviolation
    rw [if_pos hram]
  · unfold handle_eptviolation
    rw [if_pos hram]
    simp only [ept_map_hva2gpa, if_pos hr]
  · unfold handle_eptviolation
    rw [if_pos hram]
    simp only [ept_map_hva2gpa, if_neg (not_le.mpr hr)]

/-- The branches of `handle_eptviolation` outside the demand-paged ranges. -/
theorem handle_eptviolation_other (c : VmmCfg) (s : VmmState) (ginfo : VmxGuestInfo) (gpa : Nat)
    (pg : Option Nat) (r : Int)
    (hram : ¬ (gpa < 0xA0000 ∨ (gpa ≥ 0x100000 ∧ gpa < ginfo.phys_sz))) :
    (gpa ≥ c.CGA_BUF ∧ gpa < c.CGA_BUF + PGSIZE → 0 ≤ r →
      handle_eptviolation c s ginfo gpa pg r
        = some (true,
            { s with
              ept := Function.update s.ept c.CGA_BUF
                (some (c.KERNBASE + c.CGA_BUF, c.EPTE_FULL)) })) ∧
    (¬ (gpa ≥ c.CGA_BUF ∧ gpa < c.CGA_BUF + PGSIZE) →
      handle_eptviolation c s ginfo gpa pg r = some (false, s)) := by
  constructor
  · intro hcga hr
    unfold handle_eptviolation
    rw [if_neg hram, if_pos hcga]
    simp only [ept_map_hva2gpa, if_pos hr]
  · intro hcga
    unfold handle_eptviolation
    rw [if_neg hram, if_neg hcga]

/-- Claim C18.  When `page_alloc` yields a page `p` and `ept_map_hva2gpa` succeeds,
`handle_eptviolation` returns, and returns true exactly when `gpa < 0xA0000`, or
`0x100000 <= gpa < phys_sz`, or `CGA_BUF <= gpa < CGA_BUF + PGSIZE`.  In the
first two cases the page `p` gets one more reference and is mapped at
`ROUNDDOWN(gpa, PGSIZE)` with the bits `__EPTE_FULL`; in the third the host
address `KERNBASE + CGA_BUF` is mapped at `CGA_BUF` and the result does not
depend on the allocator; otherwise the state is unchanged, whatever the
allocator and the mapping service would answer.  In particular `0x50000` is
handled and mapped, and `0xA5000`, when outside the page of the CGA buffer,
is unhandled with the state unchanged. -/
theorem handle_eptviolation_spec (c : VmmCfg) (s : VmmState) (ginfo : VmxGuestInfo) (gpa : Nat)
    (p : Nat) (r : Int) (hr : 0 ≤ r) :
    (∃ b s', handle_eptviolation c s ginfo gpa (some p) r = some (b, s') ∧
      (b = true ↔ (gpa < 0xA0000 ∨ (0x100000 ≤ gpa ∧ gpa < ginfo.phys_sz) ∨
        (c.CGA_BUF ≤ gpa ∧ gpa < c.CGA_BUF + PGSIZE)))) ∧
    (gpa < 0xA0000 ∨ (0x100000 ≤ gpa ∧ gpa < ginfo.phys_sz) →
      ∃ s', handle_eptviolation c s ginfo gpa (some p) r = some (true, s') ∧
        s'.ept (ROUNDDOWN gpa PGSIZE) = some (page2kva c p, c.EPTE_FULL) ∧
        (∀ g, g ≠ ROUNDDOWN gpa PGSIZE → s'.ept g = s.ept g) ∧
        s'.k.pp_ref p = s.k.pp_ref p + 1 ∧
        (∀ x, x ≠ p → s'.k.pp_ref x = s.k.pp_ref x)) ∧
    (¬ (gpa < 0xA0000 ∨ (0x100000 ≤ gpa ∧ gpa < ginfo.phys_sz)) →
      c.CGA_BUF ≤ gpa ∧ gpa < c.CGA_BUF + PGSIZE →
      ∀ pg, ∃ s', handle_eptviolation c s ginfo gpa pg r = some (true, s') ∧
        s'.ept c.CGA_BUF = some (c.KERNBASE + c.CGA_BUF, c.EPTE_FULL) ∧
        (∀ g, g ≠ c.CGA_BUF → s'.ept g = s.ept g) ∧
        s'.k = s.k) ∧
    (¬ (gpa < 0xA0000 ∨ (0x100000 ≤ gpa ∧ gpa < ginfo.phys_sz)) →
      ¬ (c.CGA_BUF ≤ gpa ∧ gpa < c.CGA_BUF + PGSIZE) →
      ∀ pg r', handle_eptviolation c s ginfo gpa pg r' = some (false, s)) ∧
    (∃ s', handle_eptviolation c s ginfo 0x50000 (some p) r = some (true, s') ∧
      s'.ept 0x50000 = some (page2kva c p, c.EPTE_FULL)) ∧
    (¬ (c.CGA_BUF ≤ 0xA5000 ∧ 0xA5000 < c.CGA_BUF + PGSIZE) →
      ∀ pg r', handle_eptviolation c s ginfo 0xA5000 pg r' = some (false, s)) := by
  have hmapped : (gpa < 0xA0000 ∨ (0x100000 ≤ gpa ∧ gpa < ginfo.phys_sz)) →
      ∃ s', handle_eptviolation c s ginfo gpa (some p) r = some (true, s') ∧
        s'.ept (ROUNDDOWN gpa PGSIZE) = some (page2kva c p, c.EPTE_FULL) ∧
        (∀ g, g ≠ ROUNDDOWN gpa PGSIZE → s'.ept g = s.ept g) ∧
        s'.k.pp_ref p = s.k.pp_ref p + 1 ∧
        (∀ x, x ≠ p → s'.k.pp_ref x = s.k.pp_ref x) := by
    intro hram
    refine ⟨_, (handle_eptviolation_ram c s ginfo gpa hram).2.1 p r hr, ?_, ?_, ?_, ?_⟩
    · simp only [Function.update_same]
    · intro g hg
      simp only [Function.update_noteq hg]
    · rw [page_incref_pp_ref, if_pos rfl]
    · intro x hx
      rw [page_incref_pp_ref, if_neg hx]
      rfl
  refine ⟨?_, hmapped, ?_, ?_, ?_, ?_⟩
  · by_cases hram : gpa < 0xA0000 ∨ (0x100000 ≤ gpa ∧ gpa < ginfo.phys_sz)
    · refine ⟨true, _, (handle_eptviolation_ram c s ginfo gpa hram).2.1 p r hr, ?_⟩
      constructor
      · intro _
        rcases hram with h | h
        · exact Or.inl h
        · exact Or.inr (Or.inl h)
      · intro _
        rfl
    · by_cases hcga : c.CGA_BUF ≤ gpa ∧ gpa < c.CGA_BUF + PGSIZE
      · refine ⟨true, _, (handle_eptviolation_other c s ginfo gpa (some p) r hram).1 hcga hr, ?_⟩
        exact ⟨fun _ => Or.inr (Or.inr hcga), fun _ => rfl⟩
      · refine ⟨false, _, (handle_eptviolation_other c s ginfo gpa (some p) r hram).2 hcga, ?_⟩
        constructor
        · intro h
          exact absurd h (by decide)
        · intro h
          rcases h with h | h | h
          · exact absurd (Or.inl h) hram
          · exact absurd (Or.inr h) hram
          · exact absurd h hcga
  · intro hram hcga pg
    refine ⟨_, (handle_eptviolation_other c s ginfo gpa pg r hram).1 hcga hr, ?_, ?_, rfl⟩
    · simp only [Function.update_same]
    · intro g hg
      simp only [Function.update_noteq hg]
  · intro hram hcga pg r'
    exact (handle_eptviolation_other c s ginfo gpa pg r' hram).2 hcga
  · have hram : (0x50000 : Nat) < 0xA0000 ∨ ((0x50000 : Nat) ≥ 0x100000 ∧ 0x50000 < ginfo.phys_sz) :=
      Or.inl (by decide)
    refine ⟨_, (handle_eptviolation_ram c s ginfo 0x50000 hram).2.1 p r hr, ?_⟩
    have h0 : ROUNDDOWN 0x50000 PGSIZE = 0x50000 := by decide
    show Function.update s.ept (ROUNDDOWN 0x50000 PGSIZE) _ 0x50000 = _
    rw [h0]
    exact Function.update_same _ _ _
  · intro hcga pg r'
    have hram : ¬ ((0xA5000 : Nat) < 0xA0000 ∨
        ((0xA5000 : Nat) ≥ 0x100000 ∧ 0xA5000 < ginfo.phys_sz)) := by
      intro h
      rcases h with h | h
      · exact absurd h (by decide)
      · exact absurd h.1 (by decide)
    exact (handle_eptviolation_other c s ginfo 0xA5000 pg r' hram).2 hcga

/-- Witness for `handle_eptviolation_spec`: a guest of 64 MiB faults at `0x50000`,
page 7 is allocated and mapped; a fault at `0xA5000` is unhandled. -/
theorem handle_eptviolation_spec_witness :
    (∃ s', handle_eptviolation vmmCfg vmmBoot guest64M 0x50000 (some 7) 0 = some (true, s') ∧
      s'.ept 0x50000 = some (page2kva vmmCfg 7, vmmCfg.EPTE_FULL)) ∧
    handle_eptviolation vmmCfg vmmBoot guest64M 0xA5000 (some 7) 0 = some (false, vmmBoot) := by
  have h := handle_eptviolation_spec vmmCfg vmmBoot guest64M 0x50000 7 0 (by decide)
  exact ⟨h.2.2.2.2.1, h.2.2.2.2.2 (by decide) (some 7) 0⟩

/-- Claim C19 fails: after the fault at `0x50000` of a guest of 64 MiB has been
handled with page 7, a second call of `handle_eptviolation` for `0x50000` is
unhandled when the allocator has no page, and when the allocator yields
page 8 it takes a reference on that page and maps it in place of page 7. -/
theorem eptviolation_not_idempotent :
    ∃ s1, handle_eptviolation vmmCfg vmmBoot guest64M 0x50000 (some 7) 0 = some (true, s1) ∧
      s1.ept 0x50000 = some (page2kva vmmCfg 7, vmmCfg.EPTE_FULL) ∧
      handle_eptviolation vmmCfg s1 guest64M 0x50000 none 0 = some (false, s1) ∧
      ∃ s2, handle_eptviolation vmmCfg s1 guest64M 0x50000 (some 8) 0 = some (true, s2) ∧
        s1.k.pp_ref 8 = 0 ∧ s2.k.pp_ref 8 = 1 ∧
        s2.ept 0x50000 = some (page2kva vmmCfg 8, vmmCfg.EPTE_FULL) ∧
        s2.ept 0x50000 ≠ s1.ept 0x50000 :=
  ⟨_, (handle_eptviolation_ram vmmCfg vmmBoot guest64M 0x50000 (Or.inl (by decide))).2.1 7 0
      (by decide),
    by decide,
    (handle_eptviolation_ram vmmCfg _ guest64M 0x50000 (Or.inl (by decide))).1 0,
    _, (handle_eptviolation_ram vmmCfg _ guest64M 0x50000 (Or.inl (by decide))).2.1 8 0
      (by decide),
    by decide, by decide, by decide, by decide⟩

/-- Claim C19, amended.  Once `handle_eptviolation` has handled a fault at `gpa` in a
demand-paged range with page `p1`, so that `ROUNDDOWN(gpa, PGSIZE)` is
mapped to it, a second call for the same `gpa` does not look for the
existing mapping: it is unhandled, with the state unchanged, when the
allocator has no page; with a page `p2` from the allocator it takes a
reference on `p2`, leaving every other reference count as it was, and
requests the mapping of `ROUNDDOWN(gpa, PGSIZE)` to `p2`: it returns true
with that mapping installed when the request succeeds and stops on the
assertion when it fails. -/
theorem eptviolation_repeat (c : VmmCfg) (s0 s1 : VmmState) (ginfo : VmxGuestInfo) (gpa : Nat)
    (p1 : Nat) (r1 : Int)
    (hram : gpa < 0xA0000 ∨ (0x100000 ≤ gpa ∧ gpa < ginfo.phys_sz))
    (h1 : handle_eptviolation c s0 ginfo gpa (some p1) r1 = some (true, s1)) :
    s1.ept (ROUNDDOWN gpa PGSIZE) = some (page2kva c p1, c.EPTE_FULL) ∧
    (∀ r, handle_eptviolation c s1 ginfo gpa none r = some (false, s1)) ∧
    (∀ p2 r, 0 ≤ r →
      ∃ s2, handle_eptviolation c s1 ginfo gpa (some p2) r = some (true, s2) ∧
        s2.k.pp_ref p2 = s1.k.pp_ref p2 + 1 ∧
        (∀ x, x ≠ p2 → s2.k.pp_ref x = s1.k.pp_ref x) ∧
        s2.ept (ROUNDDOWN gpa PGSIZE) = some (page2kva c p2, c.EPTE_FULL) ∧
        (∀ g, g ≠ ROUNDDOWN gpa PGSIZE → s2.ept g = s1.ept g)) ∧
    (∀ p2 r, r < 0 → handle_eptviolation c s1 ginfo gpa (some p2) r = none) := by
  obtain ⟨hnone, hok, hfail⟩ := handle_eptviolation_ram c s1 ginfo gpa hram
  refine ⟨?_, hnone, ?_, hfail⟩
  · obtain ⟨-, hok0, hfail0⟩ := handle_eptviolation_ram c s0 ginfo gpa hram
    by_cases hr1 : 0 ≤ r1
    · rw [hok0 p1 r1 hr1] at h1
      simp only [Option.some.injEq, Prod.mk.injEq, true_and] at h1
      rw [← h1]
      exact Function.update_same _ _ _
    · rw [hfail0 p1 r1 (not_le.mp hr1)] at h1
      exact absurd h1 (by simp)
  · intro p2 r hr
    refine ⟨_, hok p2 r hr, ?_, ?_, ?_, ?_⟩
    · rw [page_incref_pp_ref, if_pos rfl]
    · intro x hx
      rw [page_incref_pp_ref, if_neg hx]
      rfl
    · exact Function.update_same _ _ _
    · intro g hg
      exact Function.update_noteq hg _ _

/-- Witness for `eptviolation_repeat`: the fault at `0x50000` of a guest of
64 MiB handled with page 7, then raised again with page 8 on offer. -/
theorem eptviolation_repeat_witness :
    ∃ s1 s2, handle_eptviolation vmmCfg vmmBoot guest64M 0x50000 (some 7) 0 = some (true, s1) ∧
      handle_eptviolation vmmCfg s1 guest64M 0x50000 (some 8) 0 = some (true, s2) ∧
      s2.k.pp_ref 8 = s1.k.pp_ref 8 + 1 := by
  have h0 := (handle_eptviolation_ram vmmCfg vmmBoot guest64M 0x50000
    (Or.inl (by decide))).2.1 7 0 (by decide)
  obtain ⟨s2, h2, h3, -⟩ := (eptviolation_repeat vmmCfg vmmBoot _ guest64M 0x50000 7 0
    (Or.inl (by decide)) h0).2.2.1 8 0 (by decide)
  exact ⟨_, s2, h0, h2, h3⟩

/-! ## The disk image counter -/

theorem vmcall_switch_vmdisk_number (kc : Cfg) (c : VmmCfg) (s : VmmState) (tf : Trapframe)
    (gInfo : VmxGuestInfo) (ilen : Nat) (o : VmcallServices) :
    (vmcall_switch kc c s tf gInfo ilen o).state.vmdisk_number = s.vmdisk_number := by
  unfold vmcall_switch
  simp only
  split_ifs <;> ((repeat' split) <;> simp only [VmcallSwitch.state, vmcall_ipc_send])

theorem handle_vmcall_vmdisk_number (kc : Cfg) (c : VmmCfg) (s : VmmState) (tf : Trapframe)
    (gInfo : VmxGuestInfo) (ilen : Nat) (o : VmcallServices) :
    (handle_vmcall kc c s tf gInfo ilen o).state.vmdisk_number = s.vmdisk_number := by
  have h := vmcall_switch_vmdisk_number kc c s tf gInfo ilen o
  unfold handle_vmcall
  cases hsw : vmcall_switch kc c s tf gInfo ilen o with
  | done handled tf1 s1 =>
    rw [hsw] at h
    exact h
  | early r tf1 s1 =>
    rw [hsw] at h
    exact h
  | stuck tf1 s1 =>
    rw [hsw] at h
    exact h

/-- The hypercall `VMX_VMCALL_GETDISKIMGNUM`. -/
theorem vmcall_getdiskimgnum (kc : Cfg) (c : VmmCfg) (s : VmmState) (tf : Trapframe)
    (gInfo : VmxGuestInfo) (ilen : Nat) (o : VmcallServices)
    (hrax : tf.tf_regs.reg_rax = c.VMX_VMCALL_GETDISKIMGNUM) :
    handle_vmcall kc c s tf gInfo ilen o
      = VmcallOutcome.returned true
          (advance_rip
            { tf with tf_regs := { tf.tf_regs with reg_rax := int_to_u64 s.vmdisk_number } }
            ilen) s := by
  obtain ⟨⟨-, -, -, -, h1⟩, ⟨-, -, -, h2⟩, ⟨-, -, h3⟩, ⟨-, h4⟩, h5⟩ := vmcall_labels c
  have g1 : ¬ tf.tf_regs.reg_rax = c.VMX_VMCALL_MBMAP := fun h => h1 (h.symm.trans hrax)
  have g2 : ¬ tf.tf_regs.reg_rax = c.VMX_VMCALL_IPCSEND := fun h => h2 (h.symm.trans hrax)
  have g3 : ¬ tf.tf_regs.reg_rax = c.VMX_VMCALL_IPCRECV := fun h => h3 (h.symm.trans hrax)
  have g4 : ¬ tf.tf_regs.reg_rax = c.VMX_VMCALL_LAPICEOI := fun h => h4 (h.symm.trans hrax)
  have g5 : ¬ tf.tf_regs.reg_rax = c.VMX_VMCALL_BACKTOHOST := fun h => h5 (h.symm.trans hrax)
  have hsw : vmcall_switch kc c s tf gInfo ilen o
      = VmcallSwitch.done true
          { tf with tf_regs := { tf.tf_regs with reg_rax := int_to_u64 s.vmdisk_number } } s := by
    unfold vmcall_switch
    simp only [if_neg g1, if_neg g2, if_neg g3, if_neg g4, if_neg g5, if_pos hrax]
  unfold handle_vmcall
  rw [hsw]
  simp only [if_true]

theorem int_to_u64_natCast (n : Nat) (h : n < 2147483648) : int_to_u64 (n : Int) = n := by
  unfold int_to_u64 U64
  omega

theorem wrap32_succ (n : Nat) (h : n + 1 < 2147483648) : wrap32 ((n : Int) + 1) = ((n + 1 : Nat) : Int) := by
  unfold wrap32
  rw [ofU32_toU32 _ (by omega) (by omega)]
  omega

/-- The disk image counter after a sequence of operations. -/
theorem run_ops_vmdisk_number (kc : Cfg) (c : VmmCfg) (ops : List VmmOp) :
    ∀ (s : VmmState) (n : Nat), s.vmdisk_number = (n : Int) →
      n + incr_count ops < 2147483648 →
      (run_ops kc c s ops).vmdisk_number = ((n + incr_count ops : Nat) : Int) := by
  induction ops with
  | nil =>
    intro s n h _
    simpa [run_ops, incr_count] using h
  | cons op ops ih =>
    intro s n h hb
    cases op with
    | env k =>
      simp only [run_ops, incr_count] at hb ⊢
      exact ih _ n h hb
    | incr_vmdisk =>
      simp only [run_ops, incr_count] at hb ⊢
      have h1 : (VmmOp.incr_vmdisk.apply kc c s).vmdisk_number = ((n + 1 : Nat) : Int) := by
        simp only [VmmOp.apply, vmx_incr_vmdisk_number, h]
        exact wrap32_succ n (by omega)
      rw [ih _ (n + 1) h1 (by omega)]
      congr 1
      omega
    | vmcall tf gInfo ilen o =>
      simp only [run_ops, incr_count] at hb ⊢
      refine ih _ n ?_ hb
      simp only [VmmOp.apply]
      rw [handle_vmcall_vmdisk_number]
      exact h

/-- Claim C20 fails: after `env_init`, a successful `env_guest_alloc` creates a
guest in record 0, and the hypercall `VMX_VMCALL_GETDISKIMGNUM` still returns 0 in
`reg_rax`, the counter being 0 as before the guest was created. -/
theorem vmdisk_number_not_per_guest :
    (Call.guest_alloc 0 (some 1) (some 2) (some 3) (some 4) (some 5)).guest_created cfg4
      vmmInit.k = some 0 ∧
    (run_ops cfg4 vmmCfg vmmInit
      [VmmOp.env (Call.guest_alloc 0 (some 1) (some 2) (some 3) (some 4) (some 5))]).vmdisk_number
      = 0 ∧
    (handle_vmcall cfg4 vmmCfg
      (run_ops cfg4 vmmCfg vmmInit
        [VmmOp.env (Call.guest_alloc 0 (some 1) (some 2) (some 3) (some 4) (some 5))])
      tfGetDiskImgNum guest64M 3 idleServices).handled = some true ∧
    (handle_vmcall cfg4 vmmCfg
      (run_ops cfg4 vmmCfg vmmInit
        [VmmOp.env (Call.guest_alloc 0 (some 1) (some 2) (some 3) (some 4) (some 5))])
      tfGetDiskImgNum guest64M 3 idleServices).tf.tf_regs.reg_rax = 0 := by
  refine ⟨by decide, rfl, ?_, ?_⟩
  · rw [vmcall_getdiskimgnum cfg4 vmmCfg _ tfGetDiskImgNum guest64M 3 idleServices rfl]
    rfl
  · rw [vmcall_getdiskimgnum cfg4 vmmCfg _ tfGetDiskImgNum guest64M 3 idleServices rfl]
    rfl

/-- Claim C20, amended.  The counter `vmdisk_number` starts at 0.  Across every
sequence of lifecycle operations of `kern/env.c`, calls of
`vmx_incr_vmdisk_number` and hypercalls, with fewer than `2^31` calls of
`vmx_incr_vmdisk_number`, the counter equals the number of those calls: each of
them increases it by one, and `env_guest_alloc`, `env_alloc`, the other
lifecycle operations and the hypercalls leave it unchanged.  The hypercall
`VMX_VMCALL_GETDISKIMGNUM` then returns true with the counter in `reg_rax` and
leaves the state, the counter included, as it was. -/
theorem vmdisk_number_counter (kc : Cfg) (c : VmmCfg) (s : VmmState) (ops : List VmmOp)
    (tf : Trapframe) (gInfo : VmxGuestInfo) (ilen : Nat) (o : VmcallServices)
    (h0 : s.vmdisk_number = 0) (hb : incr_count ops < 2147483648)
    (hrax : tf.tf_regs.reg_rax = c.VMX_VMCALL_GETDISKIMGNUM) :
    vmmBoot.vmdisk_number = 0 ∧
    (run_ops kc c s ops).vmdisk_number = ((incr_count ops : Nat) : Int) ∧
    handle_vmcall kc c (run_ops kc c s ops) tf gInfo ilen o
      = VmcallOutcome.returned true
          (advance_rip { tf with tf_regs := { tf.tf_regs with reg_rax := incr_count ops } } ilen)
          (run_ops kc c s ops) ∧
    (∀ t : VmmState, t.vmdisk_number + 1 < 2147483648 → 0 ≤ t.vmdisk_number →
      (VmmOp.incr_vmdisk.apply kc c t).vmdisk_number = t.vmdisk_number + 1) ∧
    (∀ (t : VmmState) (k : Call), ((VmmOp.env k).apply kc c t).vmdisk_number = t.vmdisk_number) ∧
    (∀ (t : VmmState) tf1 g1 l1 o1,
      ((VmmOp.vmcall tf1 g1 l1 o1).apply kc c t).vmdisk_number = t.vmdisk_number) := by
  have hn : (run_ops kc c s ops).vmdisk_number = ((0 + incr_count ops : Nat) : Int) :=
    run_ops_vmdisk_number kc c ops s 0 (by rw [h0]; rfl) (by omega)
  rw [Nat.zero_add] at hn
  refine ⟨rfl, hn, ?_, ?_, fun _ _ => rfl, ?_⟩
  · rw [vmcall_getdiskimgnum kc c _ tf gInfo ilen o hrax, hn, int_to_u64_natCast _ hb]
  · intro t h1 h2
    simp only [VmmOp.apply, vmx_incr_vmdisk_number]
    unfold wrap32
    rw [ofU32_toU32 _ (by omega) (by omega)]
  · intro t tf1 g1 l1 o1
    exact handle_vmcall_vmdisk_number kc c t tf1 g1 l1 o1

/-- Witness for `vmdisk_number_counter`: a guest and an ordinary environment
are created, with two calls of `vmx_incr_vmdisk_number` in between; the hypercall
returns 2. -/
theorem vmdisk_number_counter_witness :
    (handle_vmcall cfg4 vmmCfg
      (run_ops cfg4 vmmCfg vmmInit
        [VmmOp.env (Call.guest_alloc 0 (some 1) (some 2) (some 3) (some 4) (some 5)),
         VmmOp.incr_vmdisk, VmmOp.env (Call.alloc 0 (some 9)), VmmOp.incr_vmdisk])
      tfGetDiskImgNum guest64M 3 idleServices).handled = some true ∧
    (handle_vmcall cfg4 vmmCfg
      (run_ops cfg4 vmmCfg vmmInit
        [VmmOp.env (Call.guest_alloc 0 (some 1) (some 2) (some 3) (some 4) (some 5)),
         VmmOp.incr_vmdisk, VmmOp.env (Call.alloc 0 (some 9)), VmmOp.incr_vmdisk])
      tfGetDiskImgNum guest64M 3 idleServices).tf.tf_regs.reg_rax = 2 := by
  have h := (vmdisk_number_counter cfg4 vmmCfg vmmInit
    [VmmOp.env (Call.guest_alloc 0 (some 1) (some 2) (some 3) (some 4) (some 5)),
     VmmOp.incr_vmdisk, VmmOp.env (Call.alloc 0 (some 9)), VmmOp.incr_vmdisk]
    tfGetDiskImgNum guest64M 3 idleServices rfl (by decide) rfl).2.2.1
  rw [h]
  exact ⟨rfl, rfl⟩

/-! ## Identities after `env_init` -/

/-- Claim C29 (divergence).  The function `env_init` leaves the `env_id` of every record
as it was before the call: it assigns `env_status` and `env_link` only. -/
theorem env_init_keeps_env_id (c : Cfg) (s0 : KState) (i : Nat) :
    ((env_init c s0).envs i).env_id = (s0.envs i).env_id := by
  rw [env_init_envs]
  split <;> rfl

/-- Evaluation of `env_init_keeps_env_id`: run on the sample table, `env_init` marks
record 1 free and leaves its identity `0x1001` in place. -/
theorem env_init_keeps_env_id_witness :
    ((env_init cfg4 sampleState).envs 1).env_id = 0x1001 ∧
    ((env_init cfg4 sampleState).envs 1).env_status = EnvStatus.ENV_FREE :=
  ⟨env_init_keeps_env_id cfg4 sampleState 1, by decide⟩

/-! ## Lookup in the MSR area -/

theorem find_msr_in_region_loop_eq (msr_idx : Nat) (area : Nat → MsrEntry) (entry n : Nat) :
    find_msr_in_region_loop msr_idx area entry n
      = if 0 < n ∧ (area entry).msr_index = msr_idx then some entry else none := by
  induction n with
  | zero => simp [find_msr_in_region_loop]
  | succ n ih =>
    unfold find_msr_in_region_loop
    by_cases h : (area entry).msr_index = msr_idx
    · simp [h]
    · rw [if_neg h, ih]
      simp [h]

/-- The value of `find_msr_in_region`. -/
theorem find_msr_in_region_eq (msr_idx : Nat) (area : Nat → MsrEntry) (area_sz : Int) :
    find_msr_in_region msr_idx area area_sz
      = if 0 < area_sz ∧ (area 0).msr_index = msr_idx then some 0 else none := by
  unfold find_msr_in_region
  rw [find_msr_in_region_loop_eq]
  by_cases h : 0 < area_sz
  · have h1 : 0 < area_sz.toNat := by omega
    simp only [h, h1, true_and]
  · have h1 : ¬ 0 < area_sz.toNat := by omega
    simp only [h, h1, false_and, if_false]

/-- Claim C30 (divergence).  The function `find_msr_in_region` compares entry 0 of the
area only: it returns true exactly when `area_sz` is positive and entry 0
has the index asked for, whatever the other entries are, and the pointer it
stores is the one to entry 0. -/
theorem find_msr_in_region_first_only (msr_idx : Nat) (area : Nat → MsrEntry) (area_sz : Int) :
    ((find_msr_in_region msr_idx area area_sz).isSome = true ↔
      (0 < area_sz ∧ (area 0).msr_index = msr_idx)) ∧
    (∀ i, find_msr_in_region msr_idx area area_sz = some i → i = 0) := by
  rw [find_msr_in_region_eq]
  by_cases h : 0 < area_sz ∧ (area 0).msr_index = msr_idx
  · rw [if_pos h]
    refine ⟨⟨fun _ => h, fun _ => rfl⟩, fun i hi => ?_⟩
    exact (Option.some.inj hi).symm
  · rw [if_neg h]
    refine ⟨⟨fun h1 => absurd h1 (by simp), fun h1 => absurd h1 h⟩, fun i hi => ?_⟩
    exact absurd hi (by simp)

/-- Evaluation of `find_msr_in_region_first_only`: in an area of two entries whose
entry 1 describes EFER, the lookup of EFER returns false. -/
theorem find_msr_in_region_first_only_witness :
    (msrAreaEferSecond 1).msr_index = 0xC0000080 ∧
    find_msr_in_region 0xC0000080 msrAreaEferSecond 2 = none :=
  ⟨rfl, Option.not_isSome_iff_eq_none.mp (fun h =>
    absurd ((find_msr_in_region_first_only 0xC0000080 msrAreaEferSecond 2).1.mp h).2
      (by decide))⟩

/-! ## Emulation of EFER -/

/-- The call `handle_wrmsr` for EFER when entry 0 of the MSR area describes it. -/
theorem handle_wrmsr_efer (c : VmmCfg) (tf : Trapframe) (ginfo : VmxGuestInfo)
    (area : Nat → MsrEntry) (ilen : Nat)
    (hrcx : tf.tf_regs.reg_rcx = c.EFER_MSR) (hcount : 0 < ginfo.msr_count)
    (h0 : (area 0).msr_index = c.EFER_MSR % U32) :
    handle_wrmsr c tf ginfo area ilen
      = some (true, advance_rip tf ilen,
          Function.update area 0
            { area 0 with
              msr_value := ((tf.tf_regs.reg_rdx <<< 32) % U64) ||| tf.tf_regs.reg_rax }) := by
  unfold handle_wrmsr
  simp only [hrcx, if_true]
  rw [find_msr_in_region_eq, if_pos ⟨hcount, h0⟩]

/-- The call `handle_rdmsr` for EFER when entry 0 of the MSR area describes it. -/
theorem handle_rdmsr_efer (c : VmmCfg) (tf : Trapframe) (ginfo : VmxGuestInfo)
    (area : Nat → MsrEntry) (ilen : Nat)
    (hrcx : tf.tf_regs.reg_rcx = c.EFER_MSR) (hcount : 0 < ginfo.msr_count)
    (h0 : (area 0).msr_index = c.EFER_MSR % U32) :
    handle_rdmsr c tf ginfo area ilen
      = some (true, advance_rip
          { tf with tf_regs := { tf.tf_regs with
              reg_rdx := ((area 0).msr_value <<< 32) % U64,
              reg_rax := (area 0).msr_value &&& 0xFFFFFFFF } } ilen) := by
  unfold handle_rdmsr
  simp only [hrcx, if_true]
  rw [find_msr_in_region_eq, if_pos ⟨hcount, h0⟩]

theorem join_halves (v : Nat) (hv : v < U64) :
    (((v >>> 32) <<< 32) % U64) ||| (v &&& 0xFFFFFFFF) = v := by
  have h1 : v &&& 0xFFFFFFFF = v % 2 ^ 32 := Nat.and_pow_two_sub_one_eq_mod v 32
  have h2 : (v >>> 32) <<< 32 = 2 ^ 32 * (v / 2 ^ 32) := by
    rw [Nat.shiftLeft_eq, Nat.shiftRight_eq_div_pow, Nat.mul_comm]
  have h3 : 2 ^ 32 * (v / 2 ^ 32) % U64 = 2 ^ 32 * (v / 2 ^ 32) := by
    apply Nat.mod_eq_of_lt
    unfold U64 at hv ⊢
    omega
  rw [h1, h2, h3, ← Nat.mul_add_lt_is_or (Nat.mod_lt _ (by decide))]
  omega

/-- Claim C22 (divergence).  With EFER described by entry 0 of the MSR area,
`handle_wrmsr` with `rdx = v >> 32`, `rax = v & 0xFFFFFFFF` stores `v` in the
entry, and a following `handle_rdmsr` returns true with `rax = v & 0xFFFFFFFF`
but with `rdx = v << 32` (in 64-bit arithmetic) instead of `v >> 32`. -/
theorem rdmsr_after_wrmsr (c : VmmCfg) (tf tf2 : Trapframe) (ginfo : VmxGuestInfo)
    (area : Nat → MsrEntry) (ilen ilen2 v : Nat) (hv : v < U64)
    (hcount : 0 < ginfo.msr_count) (h0 : (area 0).msr_index = c.EFER_MSR % U32)
    (hrcx : tf.tf_regs.reg_rcx = c.EFER_MSR) (hrdx : tf.tf_regs.reg_rdx = v >>> 32)
    (hrax : tf.tf_regs.reg_rax = v &&& 0xFFFFFFFF)
    (hrcx2 : tf2.tf_regs.reg_rcx = c.EFER_MSR) :
    ∃ tf1 area1 tf3,
      handle_wrmsr c tf ginfo area ilen = some (true, tf1, area1) ∧
      (area1 0).msr_value = v ∧ (area1 0).msr_index = (area 0).msr_index ∧
      handle_rdmsr c tf2 ginfo area1 ilen2 = some (true, tf3) ∧
      tf3.tf_regs.reg_rax = v &&& 0xFFFFFFFF ∧
      tf3.tf_regs.reg_rdx = (v <<< 32) % U64 := by
  have hw := handle_wrmsr_efer c tf ginfo area ilen hrcx hcount h0
  rw [hrdx, hrax, join_halves v hv] at hw
  have h1 : (Function.update area 0 { area 0 with msr_value := v } 0).msr_index
      = c.EFER_MSR % U32 := by
    rw [Function.update_same]
    exact h0
  have hr := handle_rdmsr_efer c tf2 ginfo _ ilen2 hrcx2 hcount h1
  refine ⟨_, _, _, hw, ?_, ?_, hr, ?_, ?_⟩
  · rw [Function.update_same]
  · rw [Function.update_same]
  · simp only [advance_rip, Function.update_same]
  · simp only [advance_rip, Function.update_same]

/-- Evaluation of `rdmsr_after_wrmsr`: the value `0x500` is written to EFER and
read back; `rdx` comes back as `0x50000000000`, while `0x500 >> 32` is 0. -/
theorem rdmsr_after_wrmsr_witness :
    ∃ tf1 area1 tf3,
      handle_wrmsr vmmCfg tfWrmsrEfer guestOneMsr msrAreaEfer 2 = some (true, tf1, area1) ∧
      (area1 0).msr_value = 0x500 ∧
      handle_rdmsr vmmCfg tfRdmsrEfer guestOneMsr area1 2 = some (true, tf3) ∧
      tf3.tf_regs.reg_rax = 0x500 ∧
      tf3.tf_regs.reg_rdx = 0x50000000000 ∧ 0x500 >>> 32 = 0 := by
  obtain ⟨tf1, area1, tf3, h1, h2, -, h4, h5, h6⟩ :=
    rdmsr_after_wrmsr vmmCfg tfWrmsrEfer tfRdmsrEfer guestOneMsr msrAreaEfer 2 2 0x500
      (by decide) (by decide) (by decide) rfl (by decide) (by decide) rfl
  exact ⟨tf1, area1, tf3, h1, h2, h4, h5.trans (by decide), h6.trans (by decide), by decide⟩

/-! ## Which port accesses are handled -/

/-- The emulation of a port access that is not an IN from port `IO_RTC + 1`
and not an OUT to port `IO_RTC`. -/
theorem ioinstr_emulate_unhandled (c : VmmCfg) (s : VmmState) (tf : Trapframe)
    (ginfo : VmxGuestInfo) (qualification : Nat)
    (h : ((qualification >>> 16) &&& 0xFFFF ≠ c.IO_RTC ∧
          (qualification >>> 16) &&& 0xFFFF ≠ c.IO_RTC + 1) ∨
         ((qualification >>> 16) &&& 0xFFFF = c.IO_RTC ∧ BIT qualification 3 = true) ∨
         ((qualification >>> 16) &&& 0xFFFF = c.IO_RTC + 1 ∧ BIT qualification 3 = false)) :
    ioinstr_emulate c s tf ginfo qualification = (false, tf, s) := by
  have hne : ¬ (c.IO_RTC + 1 = c.IO_RTC) := by omega
  unfold ioinstr_emulate
  rcases h with ⟨h1, h2⟩ | ⟨h1, h2⟩ | ⟨h1, h2⟩
  · simp only [if_neg h1, if_neg h2]
  · simp only [h1, h2, if_true, not_true_eq_false, if_false]
  · simp only [h1, h2, if_neg hne, if_true, Bool.false_eq_true, if_false]

/-- The emulation of an IN from port `IO_RTC + 1`, by recorded index. -/
theorem ioinstr_emulate_data (c : VmmCfg) (s : VmmState) (tf : Trapframe)
    (ginfo : VmxGuestInfo) (qualification : Nat)
    (hp : (qualification >>> 16) &&& 0xFFFF = c.IO_RTC + 1)
    (hd : BIT qualification 3 = true) :
    (s.port_iortc = (c.NVRAM_BASELO : Int) →
      ioinstr_emulate c s tf ginfo qualification
        = (true, { tf with tf_regs := { tf.tf_regs with reg_rax := 640 &&& 0xFF } }, s)) ∧
    (s.port_iortc ≠ (c.NVRAM_BASELO : Int) → s.port_iortc = (c.NVRAM_BASEHI : Int) →
      ioinstr_emulate c s tf ginfo qualification
        = (true, { tf with tf_regs := { tf.tf_regs with reg_rax := (640 >>> 8) &&& 0xFF } }, s)) ∧
    (s.port_iortc ≠ (c.NVRAM_BASELO : Int) → s.port_iortc ≠ (c.NVRAM_BASEHI : Int) →
      s.port_iortc = (c.NVRAM_EXTLO : Int) →
      (ioinstr_emulate c s tf ginfo qualification).1 = true) ∧
    (s.port_iortc ≠ (c.NVRAM_BASELO : Int) → s.port_iortc ≠ (c.NVRAM_BASEHI : Int) →
      s.port_iortc ≠ (c.NVRAM_EXTLO : Int) → s.port_iortc = (c.NVRAM_EXTHI : Int) →
      (ioinstr_emulate c s tf ginfo qualification).1 = true) ∧
    (s.port_iortc ≠ (c.NVRAM_BASELO : Int) → s.port_iortc ≠ (c.NVRAM_BASEHI : Int) →
      s.port_iortc ≠ (c.NVRAM_EXTLO : Int) → s.port_iortc ≠ (c.NVRAM_EXTHI : Int) →
      ioinstr_emulate c s tf ginfo qualification = (false, tf, s)) := by
  have hne : ¬ (c.IO_RTC + 1 = c.IO_RTC) := by omega
  unfold ioinstr_emulate
  simp only [hp, hd, if_neg hne, if_true]
  refine ⟨fun h1 => ?_, fun h1 h2 => ?_, fun h1 h2 h3 => ?_, fun h1 h2 h3 h4 => ?_,
    fun h1 h2 h3 h4 => ?_⟩
  · rw [if_pos h1]
  · rw [if_neg h1, if_pos h2]
  · rw [if_neg h1, if_neg h2, if_pos h3]
  · rw [if_neg h1, if_neg h2, if_neg h3, if_pos h4]
  · rw [if_neg h1, if_neg h2, if_neg h3, if_neg h4]

/-- The function `handle_ioinstr` in terms of the emulation. -/
theorem handle_ioinstr_eq (c : VmmCfg) (s : VmmState) (tf : Trapframe) (ginfo : VmxGuestInfo)
    (qualification ilen : Nat) :
    (handle_ioinstr c s tf ginfo qualification ilen).1
      = (ioinstr_emulate c s tf ginfo qualification).1 ∧
    (handle_ioinstr c s tf ginfo qualification ilen).2.2
      = (ioinstr_emulate c s tf ginfo qualification).2.2 ∧
    ((ioinstr_emulate c s tf ginfo qualification).1 = false →
      (handle_ioinstr c s tf ginfo qualification ilen).2.1
        = (ioinstr_emulate c s tf ginfo qualification).2.1) ∧
    ((ioinstr_emulate c s tf ginfo qualification).1 = true →
      (handle_ioinstr c s tf ginfo qualification ilen).2.1
        = advance_rip (ioinstr_emulate c s tf ginfo qualification).2.1 ilen) := by
  unfold handle_ioinstr
  simp only
  cases h : (ioinstr_emulate c s tf ginfo qualification).1 <;> simp

/-- Claim C24.  The function `handle_ioinstr` returns true exactly when the exit is an
OUT to port `IO_RTC`, which records the low 32 bits of `reg_rax` as the index,
or an IN from port `IO_RTC + 1` while the recorded index is one of
`NVRAM_BASELO`, `NVRAM_BASEHI`, `NVRAM_EXTLO`, `NVRAM_EXTHI`.  For
`NVRAM_BASELO` the IN leaves `640 & 0xFF` in `reg_rax`, for `NVRAM_BASEHI`
`(640 >> 8) & 0xFF`.  An access to another port, an IN from `IO_RTC`, an OUT
to `IO_RTC + 1` and an IN from `IO_RTC + 1` with another index are unhandled. -/
theorem handle_ioinstr_handled_iff (c : VmmCfg) (s : VmmState) (tf : Trapframe)
    (ginfo : VmxGuestInfo) (qualification ilen : Nat) :
    ((handle_ioinstr c s tf ginfo qualification ilen).1 = true ↔
      (((qualification >>> 16) &&& 0xFFFF = c.IO_RTC ∧ BIT qualification 3 = false) ∨
       ((qualification >>> 16) &&& 0xFFFF = c.IO_RTC + 1 ∧ BIT qualification 3 = true ∧
        (s.port_iortc = (c.NVRAM_BASELO : Int) ∨ s.port_iortc = (c.NVRAM_BASEHI : Int) ∨
         s.port_iortc = (c.NVRAM_EXTLO : Int) ∨ s.port_iortc = (c.NVRAM_EXTHI : Int))))) ∧
    ((qualification >>> 16) &&& 0xFFFF = c.IO_RTC → BIT qualification 3 = false →
      (handle_ioinstr c s tf ginfo qualification ilen).2.2.port_iortc
        = ofU32 (tf.tf_regs.reg_rax % U32)) ∧
    ((qualification >>> 16) &&& 0xFFFF = c.IO_RTC + 1 → BIT qualification 3 = true →
      s.port_iortc = (c.NVRAM_BASELO : Int) →
      (handle_ioinstr c s tf ginfo qualification ilen).2.1.tf_regs.reg_rax = 640 &&& 0xFF) ∧
    ((qualification >>> 16) &&& 0xFFFF = c.IO_RTC + 1 → BIT qualification 3 = true →
      s.port_iortc ≠ (c.NVRAM_BASELO : Int) → s.port_iortc = (c.NVRAM_BASEHI : Int) →
      (handle_ioinstr c s tf ginfo qualification ilen).2.1.tf_regs.reg_rax
        = (640 >>> 8) &&& 0xFF) ∧
    (((qualification >>> 16) &&& 0xFFFF ≠ c.IO_RTC ∧
      (qualification >>> 16) &&& 0xFFFF ≠ c.IO_RTC + 1) →
      (handle_ioinstr c s tf ginfo qualification ilen).1 = false) ∧
    ((qualification >>> 16) &&& 0xFFFF = c.IO_RTC → BIT qualification 3 = true →
      (handle_ioinstr c s tf ginfo qualification ilen).1 = false) ∧
    ((qualification >>> 16) &&& 0xFFFF = c.IO_RTC + 1 → BIT qualification 3 = false →
      (handle_ioinstr c s tf ginfo qualification ilen).1 = false) ∧
    ((qualification >>> 16) &&& 0xFFFF = c.IO_RTC + 1 → BIT qualification 3 = true →
      s.port_iortc ≠ (c.NVRAM_BASELO : Int) → s.port_iortc ≠ (c.NVRAM_BASEHI : Int) →
      s.port_iortc ≠ (c.NVRAM_EXTLO : Int) → s.port_iortc ≠ (c.NVRAM_EXTHI : Int) →
      (handle_ioinstr c s tf ginfo qualification ilen).1 = false) := by
  have hne : ¬ (c.IO_RTC + 1 = c.IO_RTC) := by omega
  obtain ⟨e1, e2, e3, e4⟩ := handle_ioinstr_eq c s tf ginfo qualification ilen
  have hun := ioinstr_emulate_unhandled c s tf ginfo qualification
  refine ⟨?_, ?_, ?_, ?_, ?_, ?_, ?_, ?_⟩
  · rw [e1]
    by_cases hp : (qualification >>> 16) &&& 0xFFFF = c.IO_RTC
    · cases hd : BIT qualification 3 with
      | false =>
        have := handle_ioinstr_out c s tf ginfo qualification ilen hp hd
        rw [← e1, this]
        exact ⟨fun _ => Or.inl ⟨hp, rfl⟩, fun _ => rfl⟩
      | true =>
        rw [hun (Or.inr (Or.inl ⟨hp, hd⟩))]
        constructor
        · intro h
          exact absurd h Bool.false_ne_true
        · intro h
          rcases h with ⟨-, h⟩ | ⟨h, -⟩
          · exact absurd h (by decide)
          · exact absurd (h.symm.trans hp) hne
    · by_cases hp1 : (qualification >>> 16) &&& 0xFFFF = c.IO_RTC + 1
      · cases hd : BIT qualification 3 with
        | false =>
          rw [hun (Or.inr (Or.inr ⟨hp1, hd⟩))]
          constructor
          · intro h
            exact absurd h Bool.false_ne_true
          · intro h
            rcases h with ⟨h, -⟩ | ⟨-, h, -⟩
            · exact absurd h hp
            · exact absurd h (by decide)
        | true =>
          obtain ⟨d1, d2, d3, d4, d5⟩ := ioinstr_emulate_data c s tf ginfo qualification hp1 hd
          by_cases h1 : s.port_iortc = (c.NVRAM_BASELO : Int)
          · rw [d1 h1]
            exact ⟨fun _ => Or.inr ⟨hp1, rfl, Or.inl h1⟩, fun _ => rfl⟩
          · by_cases h2 : s.port_iortc = (c.NVRAM_BASEHI : Int)
            · rw [d2 h1 h2]
              exact ⟨fun _ => Or.inr ⟨hp1, rfl, Or.inr (Or.inl h2)⟩, fun _ => rfl⟩
            · by_cases h3 : s.port_iortc = (c.NVRAM_EXTLO : Int)
              · rw [d3 h1 h2 h3]
                exact ⟨fun _ => Or.inr ⟨hp1, rfl, Or.inr (Or.inr (Or.inl h3))⟩, fun _ => rfl⟩
              · by_cases h4 : s.port_iortc = (c.NVRAM_EXTHI : Int)
                · rw [d4 h1 h2 h3 h4]
                  exact ⟨fun _ => Or.inr ⟨hp1, rfl, Or.inr (Or.inr (Or.inr h4))⟩, fun _ => rfl⟩
                · rw [d5 h1 h2 h3 h4]
                  constructor
                  · intro h
                    exact absurd h Bool.false_ne_true
                  · intro h
                    rcases h with ⟨h, -⟩ | ⟨-, -, h | h | h | h⟩
                    · exact absurd h hp
                    · exact absurd h h1
                    · exact absurd h h2
                    · exact absurd h h3
                    · exact absurd h h4
      · rw [hun (Or.inl ⟨hp, hp1⟩)]
        constructor
        · intro h
          exact absurd h Bool.false_ne_true
        · intro h
          rcases h with ⟨h, -⟩ | ⟨h, -⟩
          · exact absurd h hp
          · exact absurd h hp1
  · intro hp hd
    rw [handle_ioinstr_out c s tf ginfo qualification ilen hp hd]
  · intro hp hd h1
    have he := (ioinstr_emulate_data c s tf ginfo qualification hp hd).1 h1
    rw [e4 (by rw [he]), he]
    rfl
  · intro hp hd h1 h2
    have he := (ioinstr_emulate_data c s tf ginfo qualification hp hd).2.1 h1 h2
    rw [e4 (by rw [he]), he]
    rfl
  · intro h
    rw [e1, hun (Or.inl h)]
  · intro hp hd
    rw [e1, hun (Or.inr (Or.inl ⟨hp, hd⟩))]
  · intro hp hd
    rw [e1, hun (Or.inr (Or.inr ⟨hp, hd⟩))]
  · intro hp hd h1 h2 h3 h4
    rw [e1, (ioinstr_emulate_data c s tf ginfo qualification hp hd).2.2.2.2 h1 h2 h3 h4]

/-- Witness for `handle_ioinstr_handled_iff`: with the index `0x15` of the low byte of
the base memory size recorded, an IN from port `0x71` returns `0x80`; an IN
from port `0x70` is unhandled. -/
theorem handle_ioinstr_handled_iff_witness :
    (handle_ioinstr vmmCfg { vmmBoot with port_iortc := 0x15 } Trapframe.zero guest64M
      0x710008 2).1 = true ∧
    (handle_ioinstr vmmCfg { vmmBoot with port_iortc := 0x15 } Trapframe.zero guest64M
      0x710008 2).2.1.tf_regs.reg_rax = 0x80 ∧
    (handle_ioinstr vmmCfg { vmmBoot with port_iortc := 0x15 } Trapframe.zero guest64M
      0x700008 2).1 = false := by
  have h := handle_ioinstr_handled_iff vmmCfg { vmmBoot with port_iortc := 0x15 } Trapframe.zero
    guest64M 0x710008 2
  have h2 := handle_ioinstr_handled_iff vmmCfg { vmmBoot with port_iortc := 0x15 } Trapframe.zero
    guest64M 0x700008 2
  exact ⟨h.1.mpr (Or.inr ⟨by decide, by decide, Or.inl (by decide)⟩),
    (h.2.2.1 (by decide) (by decide) (by decide)).trans (by decide),
    h2.2.2.2.2.2.1 (by decide) (by decide)⟩

/-! ## Unhandled exits -/

/-- An emulation of a port access that ends unhandled changes nothing. -/
theorem ioinstr_emulate_false (c : VmmCfg) (s : VmmState) (tf : Trapframe)
    (ginfo : VmxGuestInfo) (qualification : Nat) :
    (ioinstr_emulate c s tf ginfo qualification).1 = false →
    (ioinstr_emulate c s tf ginfo qualification).2.1 = tf ∧
    (ioinstr_emulate c s tf ginfo qualification).2.2 = s := by
  unfold ioinstr_emulate
  simp only
  split_ifs <;> first
    | (intro _; exact ⟨rfl, rfl⟩)
    | (intro h; exact h.elim)

/-- The `switch` statement of `handle_vmcall` leaves `handled` unset only with the
trapframe and the state untouched. -/
theorem vmcall_switch_done_false (kc : Cfg) (c : VmmCfg) (s : VmmState) (tf : Trapframe)
    (gInfo : VmxGuestInfo) (ilen : Nat) (o : VmcallServices) (tf1 : Trapframe) (s1 : VmmState)
    (h : vmcall_switch kc c s tf gInfo ilen o = VmcallSwitch.done false tf1 s1) :
    tf1 = tf ∧ s1 = s := by
  unfold vmcall_switch at h
  simp only [vmcall_ipc_send] at h
  split_ifs at h <;> first
    | exact VmcallSwitch.noConfusion h
    | (injection h with h1 h2 h3
       first
         | exact absurd h1 (by decide)
         | exact ⟨h2.symm, h3.symm⟩)
    | ((repeat' split at h) <;> first
        | exact VmcallSwitch.noConfusion h
        | (injection h with h1 h2 h3; exact absurd h1 (by decide)))

/-- The `switch` statement of `handle_vmcall` for a number that is none of the case
labels. -/
theorem vmcall_switch_default (kc : Cfg) (c : VmmCfg) (s : VmmState) (tf : Trapframe)
    (gInfo : VmxGuestInfo) (ilen : Nat) (o : VmcallServices)
    (h1 : tf.tf_regs.reg_rax ≠ c.VMX_VMCALL_MBMAP)
    (h2 : tf.tf_regs.reg_rax ≠ c.VMX_VMCALL_IPCSEND)
    (h3 : tf.tf_regs.reg_rax ≠ c.VMX_VMCALL_IPCRECV)
    (h4 : tf.tf_regs.reg_rax ≠ c.VMX_VMCALL_LAPICEOI)
    (h5 : tf.tf_regs.reg_rax ≠ c.VMX_VMCALL_BACKTOHOST)
    (h6 : tf.tf_regs.reg_rax ≠ c.VMX_VMCALL_GETDISKIMGNUM) :
    vmcall_switch kc c s tf gInfo ilen o = VmcallSwitch.done false tf s := by
  unfold vmcall_switch
  simp only [if_neg h1, if_neg h2, if_neg h3, if_neg h4, if_neg h5, if_neg h6]

/-- Claim C25.  When `handle_rdmsr`, `handle_wrmsr`, `handle_ioinstr` or `handle_vmcall` returns
false, the trapframe it leaves is the one it was given (`tf_rip` included),
and so are the MSR area and the state of the monitor.  For an MSR other
than `EFER_MSR`, `handle_rdmsr` and `handle_wrmsr` return false; for a number that is
none of the six supported ones, `handle_vmcall` returns false. -/
theorem unhandled_frame (kc : Cfg) (c : VmmCfg) (s : VmmState) (tf : Trapframe)
    (ginfo : VmxGuestInfo) (area : Nat → MsrEntry) (ilen : Nat) :
    (∀ tf1, handle_rdmsr c tf ginfo area ilen = some (false, tf1) → tf1 = tf) ∧
    (tf.tf_regs.reg_rcx ≠ c.EFER_MSR →
      handle_rdmsr c tf ginfo area ilen = some (false, tf)) ∧
    (∀ tf1 area1, handle_wrmsr c tf ginfo area ilen = some (false, tf1, area1) →
      tf1 = tf ∧ area1 = area) ∧
    (tf.tf_regs.reg_rcx ≠ c.EFER_MSR →
      handle_wrmsr c tf ginfo area ilen = some (false, tf, area)) ∧
    (∀ qualification, (handle_ioinstr c s tf ginfo qualification ilen).1 = false →
      (handle_ioinstr c s tf ginfo qualification ilen).2.1 = tf ∧
      (handle_ioinstr c s tf ginfo qualification ilen).2.2 = s) ∧
    (∀ o, (handle_vmcall kc c s tf ginfo ilen o).handled = some false →
      (handle_vmcall kc c s tf ginfo ilen o).tf = tf ∧
      (handle_vmcall kc c s tf ginfo ilen o).state = s) ∧
    (tf.tf_regs.reg_rax ≠ c.VMX_VMCALL_MBMAP → tf.tf_regs.reg_rax ≠ c.VMX_VMCALL_IPCSEND →
      tf.tf_regs.reg_rax ≠ c.VMX_VMCALL_IPCRECV → tf.tf_regs.reg_rax ≠ c.VMX_VMCALL_LAPICEOI →
      tf.tf_regs.reg_rax ≠ c.VMX_VMCALL_BACKTOHOST →
      tf.tf_regs.reg_rax ≠ c.VMX_VMCALL_GETDISKIMGNUM →
      ∀ o, handle_vmcall kc c s tf ginfo ilen o = VmcallOutcome.returned false tf s) := by
  refine ⟨?_, ?_, ?_, ?_, ?_, ?_, ?_⟩
  · intro tf1 h
    unfold handle_rdmsr at h
    simp only at h
    split_ifs at h
    · split at h
      · exact absurd h (by simp)
      · simp at h
    · simp only [Option.some.injEq, Prod.mk.injEq, true_and] at h
      exact h.symm
  · intro hne
    unfold handle_rdmsr
    simp only [if_neg hne]
  · intro tf1 area1 h
    unfold handle_wrmsr at h
    simp only at h
    split_ifs at h
    · split at h
      · exact absurd h (by simp)
      · simp at h
    · simp only [Option.some.injEq, Prod.mk.injEq, true_and] at h
      exact ⟨h.1.symm, h.2.symm⟩
  · intro hne
    unfold handle_wrmsr
    simp only [if_neg hne]
  · intro qualification h
    obtain ⟨e1, e2, e3, -⟩ := handle_ioinstr_eq c s tf ginfo qualification ilen
    rw [e1] at h
    rw [e2, e3 h]
    exact ioinstr_emulate_false c s tf ginfo qualification h
  · intro o h
    unfold handle_vmcall at h ⊢
    cases hsw : vmcall_switch kc c s tf ginfo ilen o with
    | done handled tf1 s1 =>
      rw [hsw] at h
      simp only [VmcallOutcome.handled, Option.some.injEq] at h
      subst h
      obtain ⟨h1, h2⟩ := vmcall_switch_done_false kc c s tf ginfo ilen o tf1 s1 hsw
      simp only [VmcallOutcome.tf, VmcallOutcome.state, Bool.false_eq_true, if_false, h1, h2,
        and_self]
    | early r tf1 s1 =>
      obtain ⟨-, h1, h2⟩ := vmcall_switch_early kc c s tf ginfo ilen o r tf1 s1 hsw
      simp only [VmcallOutcome.tf, VmcallOutcome.state, h1, h2, and_self]
    | stuck tf1 s1 =>
      rw [hsw] at h
      exact absurd h (by simp [VmcallOutcome.handled])
  · intro h1 h2 h3 h4 h5 h6 o
    unfold handle_vmcall
    rw [vmcall_switch_default kc c s tf ginfo ilen o h1 h2 h3 h4 h5 h6]
    simp only [Bool.false_eq_true, if_false]

/-- Witness for `unhandled_frame`: the hypercall number 7 is none of the
supported ones. -/
theorem unhandled_frame_witness :
    handle_vmcall cfg4 vmmCfg vmmBoot
      { Trapframe.zero with tf_regs := { Trapframe.zero.tf_regs with reg_rax := 7 } }
      guest64M 3 idleServices
      = VmcallOutcome.returned false
          { Trapframe.zero with tf_regs := { Trapframe.zero.tf_regs with reg_rax := 7 } }
          vmmBoot :=
  (unhandled_frame cfg4 vmmCfg vmmBoot
    { Trapframe.zero with tf_regs := { Trapframe.zero.tf_regs with reg_rax := 7 } }
    guest64M msrAreaEfer 3).2.2.2.2.2.2 (by decide) (by decide) (by decide) (by decide)
    (by decide) (by decide) idleServices

/-! ## The index register of the real-time clock -/

/-- The result of `handle_ioinstr` depends on the state through `port_iortc` only. -/
theorem handle_ioinstr_congr (c : VmmCfg) (s1 s2 : VmmState) (tf : Trapframe)
    (ginfo : VmxGuestInfo) (qualification ilen : Nat) (h : s1.port_iortc = s2.port_iortc) :
    (handle_ioinstr c s1 tf ginfo qualification ilen).1
      = (handle_ioinstr c s2 tf ginfo qualification ilen).1 ∧
    (handle_ioinstr c s1 tf ginfo qualification ilen).2.1
      = (handle_ioinstr c s2 tf ginfo qualification ilen).2.1 := by
  have he : (ioinstr_emulate c s1 tf ginfo qualification).1
        = (ioinstr_emulate c s2 tf ginfo qualification).1 ∧
      (ioinstr_emulate c s1 tf ginfo qualification).2.1
        = (ioinstr_emulate c s2 tf ginfo qualification).2.1 := by
    unfold ioinstr_emulate
    simp only [h]
    split_ifs <;> exact ⟨rfl, rfl⟩
  unfold handle_ioinstr
  simp only [he.1, he.2]
  split_ifs <;> exact ⟨rfl, rfl⟩

/-- Claim C26 fails: a guest of 64 MiB selects the index `0x17`; read at once,
port `0x71` gives it the byte `0x00` of its extended memory size; read after
another guest has selected the index `0x15`, the port gives it `0x80`, the
low byte of the base memory size. -/
theorem rtc_index_not_per_guest :
    (handle_ioinstr vmmCfg
      (handle_ioinstr vmmCfg vmmBoot tfSelectExtLo guest64M 0x700000 2).2.2
      Trapframe.zero guest64M 0x710008 2).2.1.tf_regs.reg_rax = 0x00 ∧
    (handle_ioinstr vmmCfg
      (handle_ioinstr vmmCfg
        (handle_ioinstr vmmCfg vmmBoot tfSelectExtLo guest64M 0x700000 2).2.2
        tfSelectBaseLo guest128M 0x700000 2).2.2
      Trapframe.zero guest64M 0x710008 2).2.1.tf_regs.reg_rax = 0x80 := by
  constructor <;> decide

/-- Claim C26, amended.  The recorded index is one variable for all guests: an
OUT to port `IO_RTC` by any guest replaces it by the low 32 bits of that
guest's `reg_rax`, whatever was recorded before, and the result of an IN
from port `IO_RTC + 1` by a guest `A` that follows is determined by that
index, the trapframe of `A` and the guest control block of `A`. -/
theorem rtc_index_shared (c : VmmCfg) (s1 s2 : VmmState) (tfB1 tfB2 tfA : Trapframe)
    (gB1 gB2 gA : VmxGuestInfo) (q_out q_in ilen1 ilen2 ilenA : Nat)
    (hq_out : (q_out >>> 16) &&& 0xFFFF = c.IO_RTC) (hd_out : BIT q_out 3 = false)
    (hsame : tfB1.tf_regs.reg_rax % U32 = tfB2.tf_regs.reg_rax % U32) :
    (handle_ioinstr c s1 tfB1 gB1 q_out ilen1).2.2.port_iortc
      = ofU32 (tfB1.tf_regs.reg_rax % U32) ∧
    (handle_ioinstr c (handle_ioinstr c s1 tfB1 gB1 q_out ilen1).2.2 tfA gA q_in ilenA).1
      = (handle_ioinstr c (handle_ioinstr c s2 tfB2 gB2 q_out ilen2).2.2 tfA gA q_in ilenA).1 ∧
    (handle_ioinstr c (handle_ioinstr c s1 tfB1 gB1 q_out ilen1).2.2 tfA gA q_in ilenA).2.1
      = (handle_ioinstr c (handle_ioinstr c s2 tfB2 gB2 q_out ilen2).2.2 tfA gA q_in
          ilenA).2.1 := by
  have e1 := handle_ioinstr_out c s1 tfB1 gB1 q_out ilen1 hq_out hd_out
  have e2 := handle_ioinstr_out c s2 tfB2 gB2 q_out ilen2 hq_out hd_out
  rw [e1, e2]
  refine ⟨rfl, ?_⟩
  exact handle_ioinstr_congr c _ _ tfA gA q_in ilenA (by simp only [hsame])

/-- Witness for `rtc_index_shared`: whether the index `0x15` was selected from
the boot state or after another index had been recorded, the read that
follows gives `0x80`. -/
theorem rtc_index_shared_witness :
    (handle_ioinstr vmmCfg
      (handle_ioinstr vmmCfg { vmmBoot with port_iortc := 0x17 } tfSelectBaseLo guest128M
        0x700000 2).2.2
      Trapframe.zero guest64M 0x710008 2).2.1.tf_regs.reg_rax = 0x80 :=
  (congrArg (fun t => t.tf_regs.reg_rax)
    (rtc_index_shared vmmCfg { vmmBoot with port_iortc := 0x17 } vmmBoot tfSelectBaseLo
      tfSelectBaseLo Trapframe.zero guest128M guest128M guest64M 0x700000 0x710008 2 2 2
      (by decide) (by decide) rfl).2.2).trans (by decide)

/-! ## One running environment -/

/-- The predicate carries over to a state with the same `curenv` and no new
running record. -/
theorem RunningIsCurrent_frame (c : Cfg) (s t : KState) (h : RunningIsCurrent c s)
    (hcur : t.curenv = s.curenv)
    (hst : ∀ j, j < NENV c → (t.envs j).env_status = EnvStatus.ENV_RUNNING →
      (s.envs j).env_status = EnvStatus.ENV_RUNNING) :
    RunningIsCurrent c t := by
  intro i hi hrun
  rw [hcur]
  exact h i hi (hst i hi hrun)

theorem RunningIsCurrent_env_alloc (c : Cfg) (s : KState) (parent_id : Int) (pg : Option Nat)
    (h : RunningIsCurrent c s) : RunningIsCurrent c (env_alloc c s parent_id pg).2 := by
  cases hfl : s.env_free_list with
  | none =>
    rw [env_alloc_none c s parent_id pg hfl]
    exact h
  | some e =>
    cases pg with
    | none =>
      rw [env_alloc_nomem c s parent_id e hfl]
      exact h
    | some p =>
      rw [env_alloc_ok c s parent_id e p hfl]
      refine RunningIsCurrent_frame c s _ h ?_ ?_
      · rfl
      intro j _ hj
      simp only at hj
      by_cases hje : j = e
      · rw [hje, Function.update_same] at hj
        simp [env_alloc_record] at hj
      · rw [Function.update_noteq hje] at hj
        exact hj

theorem RunningIsCurrent_env_guest_alloc (c : Cfg) (s : KState) (parent_id : Int)
    (p q r a b : Option Nat) (h : RunningIsCurrent c s) :
    RunningIsCurrent c (env_guest_alloc c s parent_id p q r a b).2 := by
  cases hfl : s.env_free_list with
  | none =>
    rw [env_guest_alloc_none c s parent_id p q r a b hfl]
    exact h
  | some e =>
    by_cases hf : p = none ∨ q = none ∨ r = none ∨ a = none ∨ b = none
    · obtain ⟨-, -, h3, -, h5, -, h7, -⟩ := env_guest_alloc_fail c s parent_id e p q r a b hfl hf
      apply RunningIsCurrent_frame c s _ h h3
      intro j _ hj
      by_cases hje : j = e
      · rw [hje, h7] at hj
        rw [hje]
        exact hj
      · rw [h5 j hje] at hj
        exact hj
    · simp only [not_or] at hf
      obtain ⟨hp, hq, hr, ha, hb⟩ := hf
      obtain ⟨p, rfl⟩ := Option.ne_none_iff_exists'.mp hp
      obtain ⟨q, rfl⟩ := Option.ne_none_iff_exists'.mp hq
      obtain ⟨r, rfl⟩ := Option.ne_none_iff_exists'.mp hr
      obtain ⟨a, rfl⟩ := Option.ne_none_iff_exists'.mp ha
      obtain ⟨b, rfl⟩ := Option.ne_none_iff_exists'.mp hb
      obtain ⟨-, h2, -, h4, -⟩ := env_guest_alloc_ok c s parent_id e p q r a b hfl
      apply RunningIsCurrent_frame c s _ h h4
      intro j _ hj
      rw [h2] at hj
      by_cases hje : j = e
      · rw [hje, Function.update_same] at hj
        simp [env_guest_alloc_record] at hj
      · rw [Function.update_noteq hje] at hj
        exact hj

theorem RunningIsCurrent_env_free (c : Cfg) (s : KState) (e : Nat) (walk : List Nat)
    (pdpt : Nat) (h : RunningIsCurrent c s) : RunningIsCurrent c (env_free s e walk pdpt) := by
  obtain ⟨h1, -, h3, -⟩ := env_free_effect s e walk pdpt
  apply RunningIsCurrent_frame c s _ h h3
  intro j _ hj
  rw [h1] at hj
  by_cases hje : j = e
  · rw [hje, Function.update_same] at hj
    simp [env_free_record] at hj
  · rw [Function.update_noteq hje] at hj
    exact hj

theorem RunningIsCurrent_env_destroy (c : Cfg) (s : KState) (e : Nat) (walk : List Nat)
    (pdpt : Nat) (h : RunningIsCurrent c s) :
    RunningIsCurrent c (env_destroy s e walk pdpt) := by
  obtain ⟨hA, hB⟩ := env_destroy_effect s e walk pdpt
  by_cases hcond : (s.envs e).env_status = EnvStatus.ENV_RUNNING ∧ s.curenv ≠ some e
  · obtain ⟨h1, -, h3⟩ := hA hcond
    apply RunningIsCurrent_frame c s _ h h3
    intro j _ hj
    rw [h1] at hj
    by_cases hje : j = e
    · rw [hje, Function.update_same] at hj
      simp at hj
    · rw [Function.update_noteq hje] at hj
      exact hj
  · obtain ⟨h1, -, h3⟩ := hB hcond
    intro j hjn hj
    rw [h1] at hj
    by_cases hje : j = e
    · rw [hje, Function.update_same] at hj
      simp [env_free_record] at hj
    · rw [Function.update_noteq hje] at hj
      have hcur := h j hjn hj
      rw [h3, hcur, if_neg (fun hh => hje (Option.some.inj hh))]

theorem RunningIsCurrent_env_run (c : Cfg) (s : KState) (e : Nat) (cpu : Int) (s' : KState)
    (h : RunningIsCurrent c s) (hrun : env_run s e cpu = some s') :
    RunningIsCurrent c s' := by
  obtain ⟨-, h2, -, -, h5⟩ := env_run_effect s e cpu s' hrun
  intro j hjn hj
  by_cases hje : j = e
  · rw [hje, h2]
  · rw [h5 j hje] at hj
    by_cases hc : s.curenv = some j ∧ (s.envs j).env_status = EnvStatus.ENV_RUNNING
    · rw [if_pos hc] at hj
      exact absurd hj (by decide)
    · rw [if_neg hc] at hj
      exact absurd ⟨h j hjn hj, hj⟩ hc

/-- The function `env_run` reaches the dispatch when it switches to `e` or `e` is
running. -/
theorem env_run_returns (s : KState) (e : Nat) (cpu : Int)
    (h : s.curenv ≠ some e ∨ (s.envs e).env_status = EnvStatus.ENV_RUNNING) :
    (env_run s e cpu).isSome = true := by
  by_cases hcur : s.curenv = some e
  · have hrun : (s.envs e).env_status = EnvStatus.ENV_RUNNING := by
      rcases h with h | h
      · exact absurd hcur h
      · exact h
    by_cases hty : (s.envs e).env_type = EnvType.ENV_TYPE_GUEST
    · simp [env_run, hcur, hty, hrun]
    · simp [env_run, hcur, hty, hrun, KState.setEnv]
  · by_cases hty : (s.envs e).env_type = EnvType.ENV_TYPE_GUEST
    · cases hc : s.curenv with
      | none => simp [env_run, hc, hty, KState.setEnv]
      | some cur =>
        have hce : cur ≠ e := fun h => hcur (by rw [hc, h])
        have hec : e ≠ cur := fun h => hce h.symm
        by_cases hr : (s.envs cur).env_status = EnvStatus.ENV_RUNNING
        · simp [env_run, hc, hty, hce, hec, hr, KState.setEnv]
        · simp [env_run, hc, hty, hce, hec, hr, KState.setEnv]
    · cases hc : s.curenv with
      | none => simp [env_run, hc, hty, KState.setEnv]
      | some cur =>
        have hce : cur ≠ e := fun h => hcur (by rw [hc, h])
        have hec : e ≠ cur := fun h => hce h.symm
        by_cases hr : (s.envs cur).env_status = EnvStatus.ENV_RUNNING
        · simp [env_run, hc, hty, hce, hec, hr, KState.setEnv]
        · simp [env_run, hc, hty, hce, hec, hr, KState.setEnv]

/-- Claim C27.  The predicate "every record of the table with status
`ENV_RUNNING` is `curenv`" holds after `env_init` and is preserved by
`env_alloc`, `env_guest_alloc`, `env_free`, `env_destroy` and by `env_run(e)` for every
target `e`, which reaches the dispatch whenever it switches to `e` or `e` is
running; under the predicate at most one record of the table is running. -/
theorem running_is_current (c : Cfg) :
    (∀ s0, RunningIsCurrent c (env_init c s0)) ∧
    (∀ s, RunningIsCurrent c s →
      (∀ parent_id pg, RunningIsCurrent c (env_alloc c s parent_id pg).2) ∧
      (∀ parent_id p q r a b, RunningIsCurrent c (env_guest_alloc c s parent_id p q r a b).2) ∧
      (∀ e walk pdpt, RunningIsCurrent c (env_free s e walk pdpt)) ∧
      (∀ e walk pdpt, RunningIsCurrent c (env_destroy s e walk pdpt)) ∧
      (∀ e cpu s', env_run s e cpu = some s' → RunningIsCurrent c s') ∧
      (∀ e cpu, s.curenv ≠ some e ∨ (s.envs e).env_status = EnvStatus.ENV_RUNNING →
        ∃ s', env_run s e cpu = some s' ∧ RunningIsCurrent c s') ∧
      (∀ i j, i < NENV c → j < NENV c →
        (s.envs i).env_status = EnvStatus.ENV_RUNNING →
        (s.envs j).env_status = EnvStatus.ENV_RUNNING → i = j)) := by
  refine ⟨fun s0 => ?_, fun s h => ⟨?_, ?_, ?_, ?_, ?_, ?_, ?_⟩⟩
  · intro i hi hrun
    rw [(env_init_free_chain c s0).1 i hi] at hrun
    exact absurd hrun (by decide)
  · exact fun parent_id pg => RunningIsCurrent_env_alloc c s parent_id pg h
  · exact fun parent_id p q r a b => RunningIsCurrent_env_guest_alloc c s parent_id p q r a b h
  · exact fun e walk pdpt => RunningIsCurrent_env_free c s e walk pdpt h
  · exact fun e walk pdpt => RunningIsCurrent_env_destroy c s e walk pdpt h
  · exact fun e cpu s' hrun => RunningIsCurrent_env_run c s e cpu s' h hrun
  · intro e cpu hc
    obtain ⟨s', hs'⟩ := Option.isSome_iff_exists.mp (env_run_returns s e cpu hc)
    exact ⟨s', hs', RunningIsCurrent_env_run c s e cpu s' h hs'⟩
  · intro i j hi hj h1 h2
    have e1 := h i hi h1
    rw [h j hj h2] at e1
    exact (Option.some.inj e1).symm

/-- Witness for `running_is_current`: in the sample state record 1 is running
and current; after `env_run` of record 2 the predicate holds again. -/
theorem running_is_current_witness :
    RunningIsCurrent cfg4 sampleState ∧
    ∃ s', env_run sampleState 2 0 = some s' ∧ RunningIsCurrent cfg4 s' :=
  ⟨by decide,
    ((running_is_current cfg4).2 sampleState (by decide)).2.2.2.2.2.1 2 0 (Or.inl (by decide))⟩

/-! ## Order of release in a failing `env_guest_alloc` -/

/-- The traced function computes what `env_guest_alloc` computes. -/
theorem env_guest_alloc_trace_fst (c : Cfg) (s : KState) (parent_id : Int)
    (p q r a b : Option Nat) :
    (env_guest_alloc_trace c s parent_id p q r a b).1 = env_guest_alloc c s parent_id p q r a b := by
  unfold env_guest_alloc_trace env_guest_alloc
  cases s.env_free_list with
  | none => rfl
  | some e =>
    cases p with
    | none => rfl
    | some p =>
      cases q with
      | none => rfl
      | some q =>
        cases r with
        | none => rfl
        | some r =>
          cases a with
          | none => rfl
          | some a =>
            cases b with
            | none => rfl
            | some b => rfl

/-- The pages a failing `env_guest_alloc` hands to `page_decref`, in order. -/
theorem env_guest_alloc_trace_snd (c : Cfg) (s : KState) (parent_id : Int) (e : Nat)
    (p q r a b : Option Nat) (h : s.env_free_list = some e)
    (hf : p = none ∨ q = none ∨ r = none ∨ a = none ∨ b = none) :
    (env_guest_alloc_trace c s parent_id p q r a b).2 = pages_acquired [p, q, r, a, b] := by
  unfold env_guest_alloc_trace
  rw [h]
  cases p with
  | none => rfl
  | some p =>
    cases q with
    | none => rfl
    | some q =>
      cases r with
      | none => rfl
      | some r =>
        cases a with
        | none => rfl
        | some a =>
          cases b with
          | none => rfl
          | some b => simp at hf

/-- Claim C28 fails: when the EPT root (page 5) and the VMCS (page 6) have been
obtained and the page for the MSR area is refused, `env_guest_alloc` releases
page 5 first and page 6 second, the order of acquisition, not the reverse. -/
theorem guest_alloc_release_not_reversed :
    (env_guest_alloc_trace cfg4 sampleState 0x1001 (some 5) (some 6) none (some 7) (some 8)).1.1
      = Except.error Errno.E_NO_MEM ∧
    pages_acquired [some 5, some 6, none, some 7, some 8] = [5, 6] ∧
    (env_guest_alloc_trace cfg4 sampleState 0x1001 (some 5) (some 6) none (some 7) (some 8)).2
      = [5, 6] ∧
    (env_guest_alloc_trace cfg4 sampleState 0x1001 (some 5) (some 6) none (some 7) (some 8)).2
      ≠ (pages_acquired [some 5, some 6, none, some 7, some 8]).reverse :=
  ⟨rfl, rfl, rfl, by decide⟩

/-- Claim C28, amended.  When `env_guest_alloc` fails part-way through acquiring its
pages, it returns `-E_NO_MEM` and hands to `page_decref` exactly the pages
obtained in this call before the failure, each once, in the order in which
they were acquired (the EPT root first). -/
theorem guest_alloc_release_order (c : Cfg) (s : KState) (parent_id : Int) (e : Nat)
    (p q r a b : Option Nat) (h : s.env_free_list = some e)
    (hf : p = none ∨ q = none ∨ r = none ∨ a = none ∨ b = none) :
    (env_guest_alloc_trace c s parent_id p q r a b).1 = env_guest_alloc c s parent_id p q r a b ∧
    (env_guest_alloc c s parent_id p q r a b).1 = Except.error Errno.E_NO_MEM ∧
    (env_guest_alloc_trace c s parent_id p q r a b).2 = pages_acquired [p, q, r, a, b] :=
  ⟨env_guest_alloc_trace_fst c s parent_id p q r a b,
    (env_guest_alloc_fail c s parent_id e p q r a b h hf).1,
    env_guest_alloc_trace_snd c s parent_id e p q r a b h hf⟩

/-- Witness for `guest_alloc_release_order`: with the bitmap B refused, the four
pages obtained before are released in the order 5, 6, 7, 8. -/
theorem guest_alloc_release_order_witness :
    (env_guest_alloc_trace cfg4 sampleState 0x1001 (some 5) (some 6) (some 7) (some 8) none).2
      = [5, 6, 7, 8] :=
  (guest_alloc_release_order cfg4 sampleState 0x1001 0 (some 5) (some 6) (some 7) (some 8) none
    rfl (Or.inr (Or.inr (Or.inr (Or.inr rfl))))).2.2

/-! ## The multiboot memory map -/

theorem and_u32 (x : Nat) : x &&& 0xffffffff = x % 4294967296 :=
  Nat.and_pow_two_sub_one_eq_mod x 32

theorem shiftRight_32 (x : Nat) : x >>> 32 = x / 4294967296 :=
  Nat.shiftRight_eq_div_pow x 32

theorem sub64_of_le (a b : Nat) (hb : b ≤ a) (ha : a < U64) : sub64 a b = a - b := by
  unfold sub64
  unfold U64 at ha ⊢
  omega

/-- The hypercall `VMX_VMCALL_MBMAP` when the allocator yields a page. -/
theorem vmcall_mbmap_eq (kc : Cfg) (c : VmmCfg) (s : VmmState) (tf : Trapframe)
    (gInfo : VmxGuestInfo) (ilen : Nat) (o : VmcallServices) (temp_page : Nat)
    (hrax : tf.tf_regs.reg_rax = c.VMX_VMCALL_MBMAP) (hpage : o.page = some temp_page) :
    handle_vmcall kc c s tf gInfo ilen o
      = VmcallOutcome.returned true
          (advance_rip { tf with tf_regs := { tf.tf_regs with reg_rbx := 0x6000 } } ilen)
          { s with
            k := page_incref s.k temp_page,
            mbmem := Function.update s.mbmem temp_page
              (some
                ({ flags := c.MB_FLAG_MMAP % U32, mmap_length := (3 * c.SIZEOF_MMAP) % U32,
                   mmap_addr := (0x6000 + c.SIZEOF_MBINFO) % U32 },
                 [ { size := 20, base_addr_low := 0x0, base_addr_high := 0x0,
                     length_low := c.IOPHYSMEM % U32, length_high := 0x0,
                     type := c.MB_TYPE_USABLE % U32 },
                   { size := 20, base_addr_low := c.IOPHYSMEM % U32, base_addr_high := 0x0,
                     length_low := 0x60000, length_high := 0x0,
                     type := c.MB_TYPE_RESERVED % U32 },
                   { size := 20, base_addr_low := c.EXTPHYSMEM % U32, base_addr_high := 0x0,
                     length_low := ((sub64 gInfo.phys_sz c.EXTPHYSMEM) % U32) &&& 0xffffffff,
                     length_high :=
                       (((sub64 gInfo.phys_sz c.EXTPHYSMEM) >>> 32) % U32) &&& 0xffffffff,
                     type := c.MB_TYPE_USABLE % U32 } ])),
            ept := ept_map_hva2gpa s.ept (page2kva c temp_page) 0x6000 c.EPTE_FULL 1
              o.map_result } := by
  unfold handle_vmcall vmcall_switch
  simp only [if_pos hrax, hpage, if_true]

/-- Claim C21.  For the hypercall `VMX_VMCALL_MBMAP` on a guest with
`0x100000 <= phys_sz` (a 64-bit quantity), the allocator yielding a page,
`handle_vmcall` returns true with `reg_rbx = 0x6000`; it requests the mapping of
that page at guest-physical `0x6000`, in place when the request succeeds, and
has written to the page a multiboot block with
`mmap_addr = 0x6000 + sizeof(multiboot_info_t)` followed by three descriptors:
usable `[0, 0xA0000)`, reserved `[0xA0000, 0x100000)` and usable
`[0x100000, phys_sz)`, the 64-bit length of the third being
`phys_sz - 0x100000`; each region starts where the one before ends and the
last ends at `phys_sz`.  `IOPHYSMEM` and `EXTPHYSMEM` are taken with their
values `0xA0000` and `0x100000`. -/
theorem vmcall_mbmap_spec (kc : Cfg) (c : VmmCfg) (s : VmmState) (tf : Trapframe)
    (gInfo : VmxGuestInfo) (ilen : Nat) (o : VmcallServices) (temp_page : Nat)
    (hrax : tf.tf_regs.reg_rax = c.VMX_VMCALL_MBMAP) (hpage : o.page = some temp_page)
    (hio : c.IOPHYSMEM = 0xA0000) (hext : c.EXTPHYSMEM = 0x100000)
    (hsz : 0x6000 + c.SIZEOF_MBINFO < U32)
    (hphys : 0x100000 ≤ gInfo.phys_sz) (hphys64 : gInfo.phys_sz < U64) :
    (handle_vmcall kc c s tf gInfo ilen o).handled = some true ∧
    (handle_vmcall kc c s tf gInfo ilen o).tf.tf_regs.reg_rbx = 0x6000 ∧
    (handle_vmcall kc c s tf gInfo ilen o).tf.tf_rip = (tf.tf_rip + ilen) % U64 ∧
    (0 ≤ o.map_result →
      (handle_vmcall kc c s tf gInfo ilen o).state.ept 0x6000
        = some (page2kva c temp_page, c.EPTE_FULL)) ∧
    ∃ mbi d0 d1 d2,
      (handle_vmcall kc c s tf gInfo ilen o).state.mbmem temp_page = some (mbi, [d0, d1, d2]) ∧
      mbi.mmap_addr = 0x6000 + c.SIZEOF_MBINFO ∧
      mbi.mmap_length = (3 * c.SIZEOF_MMAP) % U32 ∧
      mbi.flags = c.MB_FLAG_MMAP % U32 ∧
      d0.type = c.MB_TYPE_USABLE % U32 ∧ d0.base = 0 ∧ d0.length = 0xA0000 ∧
      d1.type = c.MB_TYPE_RESERVED % U32 ∧ d1.base = 0xA0000 ∧ d1.length = 0x60000 ∧
      d2.type = c.MB_TYPE_USABLE % U32 ∧ d2.base = 0x100000 ∧
      d2.length = gInfo.phys_sz - 0x100000 ∧
      d0.base + d0.length = d1.base ∧ d1.base + d1.length = d2.base ∧
      d2.base + d2.length = gInfo.phys_sz := by
  have hU : U32 = 4294967296 := rfl
  have hlen : ((sub64 gInfo.phys_sz c.EXTPHYSMEM) % U32 &&& 0xffffffff)
      + 4294967296 * (((sub64 gInfo.phys_sz c.EXTPHYSMEM) >>> 32) % U32 &&& 0xffffffff)
      = gInfo.phys_sz - 0x100000 := by
    rw [hext, sub64_of_le _ _ hphys hphys64, and_u32, and_u32, shiftRight_32, hU]
    unfold U64 at hphys64
    omega
  rw [vmcall_mbmap_eq kc c s tf gInfo ilen o temp_page hrax hpage]
  refine ⟨rfl, rfl, rfl, ?_,
    { flags := c.MB_FLAG_MMAP % U32, mmap_length := (3 * c.SIZEOF_MMAP) % U32,
      mmap_addr := (0x6000 + c.SIZEOF_MBINFO) % U32 },
    { size := 20, base_addr_low := 0x0, base_addr_high := 0x0,
      length_low := c.IOPHYSMEM % U32, length_high := 0x0, type := c.MB_TYPE_USABLE % U32 },
    { size := 20, base_addr_low := c.IOPHYSMEM % U32, base_addr_high := 0x0,
      length_low := 0x60000, length_high := 0x0, type := c.MB_TYPE_RESERVED % U32 },
    { size := 20, base_addr_low := c.EXTPHYSMEM % U32, base_addr_high := 0x0,
      length_low := ((sub64 gInfo.phys_sz c.EXTPHYSMEM) % U32) &&& 0xffffffff,
      length_high := (((sub64 gInfo.phys_sz c.EXTPHYSMEM) >>> 32) % U32) &&& 0xffffffff,
      type := c.MB_TYPE_USABLE % U32 },
    ?_, ?_, ?_, ?_, ?_, ?_, ?_, ?_, ?_, ?_, ?_, ?_, ?_, ?_, ?_, ?_⟩
  · intro hr
    simp only [VmcallOutcome.state, ept_map_hva2gpa, if_pos hr, Function.update_same]
  · exact Function.update_same _ _ _
  · exact Nat.mod_eq_of_lt hsz
  · rfl
  · rfl
  · rfl
  · simp only [MemoryMap.base]
  · simp only [MemoryMap.length, hio, hU]
  · rfl
  · simp only [MemoryMap.base, hio, hU]
  · simp only [MemoryMap.length]
  · rfl
  · simp only [MemoryMap.base, hext, hU]
  · simp only [MemoryMap.length]
    exact hlen
  · simp only [MemoryMap.base, MemoryMap.length, hio, hU]
  · simp only [MemoryMap.base, MemoryMap.length, hio, hext, hU]
  · simp only [MemoryMap.base, MemoryMap.length]
    rw [hlen, hext, hU]
    omega

/-- Witness for `vmcall_mbmap_spec`: a guest of 64 MiB, page 9 from the allocator:
the third descriptor has length `0x3F00000`. -/
theorem vmcall_mbmap_spec_witness :
    (handle_vmcall cfg4 vmmCfg vmmBoot tfMbmap guest64M 3 page9Services).handled = some true ∧
    (handle_vmcall cfg4 vmmCfg vmmBoot tfMbmap guest64M 3 page9Services).tf.tf_regs.reg_rbx
      = 0x6000 ∧
    (handle_vmcall cfg4 vmmCfg vmmBoot tfMbmap guest64M 3 page9Services).state.ept 0x6000
      = some (page2kva vmmCfg 9, 7) ∧
    ∃ mbi d0 d1 d2,
      (handle_vmcall cfg4 vmmCfg vmmBoot tfMbmap guest64M 3 page9Services).state.mbmem 9
        = some (mbi, [d0, d1, d2]) ∧
      d2.base = 0x100000 ∧ d2.length = 0x3F00000 := by
  have h := vmcall_mbmap_spec cfg4 vmmCfg vmmBoot tfMbmap guest64M 3 page9Services 9
    rfl rfl rfl rfl (by decide) (by decide) (by decide)
  obtain ⟨h1, h2, -, h4, mbi, d0, d1, d2, h5, -, -, -, -, -, -, -, -, -, -, h6, h7, -⟩ := h
  exact ⟨h1, h2, h4 (by decide), mbi, d0, d1, d2, h5, h6, h7.trans (by decide)⟩

/-! ## Mapping a file region into the guest -/

/-- One iteration of the loop of `map_in_guest` when every call succeeds. -/
theorem map_in_guest_body_ok (sv : LoaderServices) (file : Nat → Nat)
    (gpa_start filesz i : Nat) (st : LoaderState)
    (halloc : 0 ≤ sv.page_alloc i) (hmap : 0 ≤ sv.ept_map i)
    (hread : i < filesz →
      sv.readn i = ((if filesz - i < PGSIZE then filesz - i else PGSIZE : Nat) : Int)) :
    ∃ page, map_in_guest_body sv file gpa_start filesz i st
        = LoopStep.next
            { pos := st.pos + (if i < filesz then
                        (if filesz - i < PGSIZE then filesz - i else PGSIZE) else 0),
              guest := Function.update st.guest ((gpa_start + i) % U64) (some page) } ∧
      ∀ b, b < PGSIZE → page b = if i + b < filesz then file (st.pos + b) else 0 := by
  have hP : PGSIZE = 4096 := rfl
  by_cases hi : i < filesz
  · have hr := hread hi
    by_cases hlt : filesz - i < PGSIZE
    · rw [if_pos hlt] at hr
      have hpos : filesz - i > 0 := by omega
      have hu : int_to_u64 (sv.readn i) = filesz - i := by
        rw [hr]
        unfold int_to_u64 U64
        rw [hP] at hlt
        omega
      refine ⟨fun b => if filesz - i ≤ b ∧ b < PGSIZE then 0 else
          (if b < filesz - i then file (st.pos + b) else sv.fresh i b), ?_, ?_⟩
      · unfold map_in_guest_body
        simp only [if_neg (not_lt.mpr halloc), if_pos hi, if_pos hlt, if_pos hpos, hu,
          ne_eq, not_true_eq_false, if_false, if_neg (not_lt.mpr hmap)]
      · intro b hb
        simp only
        by_cases hb1 : b < filesz - i
        · have : ¬ (filesz - i ≤ b ∧ b < PGSIZE) := by omega
          rw [if_neg this, if_pos hb1, if_pos (by omega)]
        · have : filesz - i ≤ b ∧ b < PGSIZE := by omega
          rw [if_pos this, if_neg (by omega)]
    · rw [if_neg hlt] at hr
      have hu : int_to_u64 (sv.readn i) = PGSIZE := by
        rw [hr]
        unfold int_to_u64 U64
        rw [hP]
        omega
      have hpos : PGSIZE > 0 := by decide
      have hnn : ¬ PGSIZE < PGSIZE := by omega
      refine ⟨fun b => if b < PGSIZE then file (st.pos + b) else sv.fresh i b, ?_, ?_⟩
      · unfold map_in_guest_body
        simp only [if_neg (not_lt.mpr halloc), if_pos hi, if_neg hlt, if_pos hpos, hu,
          ne_eq, not_true_eq_false, if_false, if_neg (not_lt.mpr hmap), if_neg hnn]
      · intro b hb
        simp only
        rw [if_pos hb, if_pos (by omega)]
  · have hz : ¬ (0 : Nat) < 0 := by omega
    have h0 : (0 : Nat) < PGSIZE := by decide
    refine ⟨fun b => if 0 ≤ b ∧ b < PGSIZE then 0 else sv.fresh i b, ?_, ?_⟩
    · unfold map_in_guest_body
      simp only [if_neg (not_lt.mpr halloc), if_neg hi, if_pos h0, gt_iff_lt, if_neg hz,
        if_neg (not_lt.mpr hmap), Nat.add_zero]
    · intro b hb
      simp only
      have : 0 ≤ b ∧ b < PGSIZE := ⟨Nat.zero_le _, hb⟩
      rw [if_pos this, if_neg (by omega)]

/-- The loop of `map_in_guest` from page `j` on, when every call succeeds and the
counter cannot wrap: it ends with 0, installs the pages `j`, `j + 1`, ... of
the region with the content of the file, zero-filled, and leaves every other
guest page as it was. -/
theorem map_in_guest_loop_ok (sv : LoaderServices) (file : Nat → Nat)
    (gpa memsz filesz fileoffset : Nat)
    (halloc : ∀ i, 0 ≤ sv.page_alloc i) (hmap : ∀ i, 0 ≤ sv.ept_map i)
    (hread : ∀ i, i < filesz →
      sv.readn i = ((if filesz - i < PGSIZE then filesz - i else PGSIZE : Nat) : Int))
    (hmem : memsz ≤ U64 - PGSIZE) :
    ∀ (k j fuel : Nat) (st : LoaderState), j + k = (memsz + PGSIZE - 1) / PGSIZE → k < fuel →
      st.pos = fileoffset + (if j * PGSIZE < filesz then j * PGSIZE else filesz) →
      ∃ st1, map_in_guest_loop sv file gpa memsz filesz fuel (j * PGSIZE) st = some (0, st1) ∧
        (∀ a, (∀ m, j ≤ m → m < (memsz + PGSIZE - 1) / PGSIZE → a ≠ (gpa + m * PGSIZE) % U64) →
          st1.guest a = st.guest a) ∧
        (∀ m, j ≤ m → m < (memsz + PGSIZE - 1) / PGSIZE →
          ∃ page, st1.guest ((gpa + m * PGSIZE) % U64) = some page ∧
            ∀ b, b < PGSIZE →
              page b = if m * PGSIZE + b < filesz then file (fileoffset + (m * PGSIZE + b))
                else 0) := by
  have hP : PGSIZE = 4096 := rfl
  have hU : U64 = 18446744073709551616 := rfl
  intro k
  induction k with
  | zero =>
    intro j fuel st hj hfuel _
    obtain ⟨f, rfl⟩ : ∃ f, fuel = f + 1 := ⟨fuel - 1, by omega⟩
    have hnot : ¬ j * PGSIZE < memsz := by
      simp only [hP, hU] at *
      omega
    refine ⟨st, ?_, fun a _ => rfl, ?_⟩
    · rw [map_in_guest_loop, if_neg hnot]
    · intro m h1 h2
      omega
  | succ k ih =>
    intro j fuel st hj hfuel hpos
    obtain ⟨f, rfl⟩ : ∃ f, fuel = f + 1 := ⟨fuel - 1, by omega⟩
    have hlt : j * PGSIZE < memsz := by
      simp only [hP, hU] at *
      omega
    have hnext : (j * PGSIZE + PGSIZE) % U64 = (j + 1) * PGSIZE := by
      simp only [hP, hU] at *
      omega
    obtain ⟨page, hbody, hpage⟩ := map_in_guest_body_ok sv file gpa filesz (j * PGSIZE) st
      (halloc _) (hmap _) (hread _)
    have hpos1 : st.pos + (if j * PGSIZE < filesz then
          (if filesz - j * PGSIZE < PGSIZE then filesz - j * PGSIZE else PGSIZE) else 0)
        = fileoffset + (if (j + 1) * PGSIZE < filesz then (j + 1) * PGSIZE else filesz) := by
      rw [hpos, hP]
      split_ifs <;> omega
    obtain ⟨st1, hloop, hother, hpages⟩ := ih (j + 1) f
      { pos := st.pos + (if j * PGSIZE < filesz then
          (if filesz - j * PGSIZE < PGSIZE then filesz - j * PGSIZE else PGSIZE) else 0),
        guest := Function.update st.guest ((gpa + j * PGSIZE) % U64) (some page) }
      (by omega) (by omega) hpos1
    have hdist : ∀ m, j + 1 ≤ m → m < (memsz + PGSIZE - 1) / PGSIZE →
        (gpa + j * PGSIZE) % U64 ≠ (gpa + m * PGSIZE) % U64 := by
      intro m h1 h2
      simp only [hP, hU] at *
      omega
    refine ⟨st1, ?_, ?_, ?_⟩
    · rw [map_in_guest_loop, if_pos hlt, hbody]
      simp only
      rw [hnext]
      exact hloop
    · intro a ha
      rw [hother a (fun m h1 h2 => ha m (by omega) h2)]
      exact Function.update_noteq (ha j (Nat.le_refl _) (by omega)) _ _
    · intro m h1 h2
      by_cases hm : m = j
      · subst hm
        refine ⟨page, ?_, ?_⟩
        · rw [hother _ hdist]
          exact Function.update_same _ _ _
        · intro b hb
          rw [hpage b hb, hpos]
          by_cases hb1 : m * PGSIZE + b < filesz
          · have : m * PGSIZE < filesz := by omega
            rw [if_pos hb1, if_pos this, Nat.add_assoc, if_pos hb1]
          · rw [if_neg hb1, if_neg hb1]
      · exact hpages m (by omega) h2

/-- With a size above `2^64 - PGSIZE` the counter of the loop of `map_in_guest`
wraps to 0 before it reaches the size: no number of steps ends the loop. -/
theorem map_in_guest_loop_wraps (sv : LoaderServices) (file : Nat → Nat) (gpa memsz : Nat)
    (halloc : ∀ i, 0 ≤ sv.page_alloc i) (hmap : ∀ i, 0 ≤ sv.ept_map i)
    (hmem : U64 - PGSIZE < memsz) :
    ∀ (fuel i : Nat) (st : LoaderState), i % PGSIZE = 0 → i < U64 →
      map_in_guest_loop sv file gpa memsz 0 fuel i st = none := by
  have hP : PGSIZE = 4096 := rfl
  have hU : U64 = 18446744073709551616 := rfl
  intro fuel
  induction fuel with
  | zero =>
    intro i st _ _
    rfl
  | succ f ih =>
    intro i st h1 h2
    have hlt : i < memsz := by
      simp only [hP, hU] at *
      omega
    obtain ⟨page, hbody, -⟩ := map_in_guest_body_ok sv file gpa 0 i st
      (halloc _) (hmap _) (fun h => absurd h (Nat.not_lt_zero _))
    rw [map_in_guest_loop, if_pos hlt, hbody]
    simp only
    apply ih
    · simp only [hP, hU] at *
      omega
    · exact Nat.mod_lt _ (by rw [hU]; omega)

/-- The page and the offset within it of the byte `k` of a region that starts at
the page-aligned address `gpa`. -/
theorem region_byte_addr (gpa k : Nat) (hgpa : gpa % PGSIZE = 0) :
    ROUNDDOWN ((gpa + k) % U64) PGSIZE = (gpa + k / PGSIZE * PGSIZE) % U64 ∧
      (gpa + k) % U64 % PGSIZE = k % PGSIZE := by
  have hP : PGSIZE = 4096 := rfl
  have hU : U64 = 18446744073709551616 := rfl
  unfold ROUNDDOWN
  simp only [hP, hU] at *
  omega

/-- CLAIM C23, counterexample: with `memsz = 2^64 - 1`, a value of `size_t`, and every
call succeeding, `map_in_guest` does not return, however many steps it is
given: the counter `i` wraps to 0 at `2^64` and never reaches `memsz`. -/
theorem map_in_guest_large_memsz_diverges :
    U64 - 1 < U64 ∧
      ∀ fuel, map_in_guest (loaderOk 0) sampleFile fuel loaderBoot 0 (U64 - 1) 0 0 = none := by
  refine ⟨by decide, fun fuel => ?_⟩
  unfold map_in_guest
  simp only
  rw [if_neg (by decide)]
  exact map_in_guest_loop_wraps (loaderOk 0) sampleFile 0 (U64 - 1)
    (fun _ => Int.le_refl _) (fun _ => Int.le_refl _) (by decide) fuel 0 _ rfl (by decide)

/-- CLAIM C23, amended: for a page-aligned guest-physical address `gpa` and a size
`memsz` of at most `2^64 - PGSIZE`, when `seek`, every `sys_page_alloc`, every
`readn` (which reads what was asked for) and every `sys_ept_map` succeed,
`map_in_guest` returns 0, given more steps than the region has pages.  It has
then installed a page at each of the `ceil(memsz / PGSIZE)` addresses `gpa`,
`gpa + PGSIZE`, ... (modulo `2^64`), which are distinct, and changed no
other guest page; the guest byte at `gpa + k` is the file byte at
`fileoffset + k` for every `k < filesz` below the rounded-up size, and 0 for
every `k` from `filesz` up to the rounded-up size; with `memsz = 0` no page of
the guest changes. -/
theorem map_in_guest_spec (sv : LoaderServices) (file : Nat → Nat) (fuel : Nat)
    (st : LoaderState) (gpa memsz filesz fileoffset : Nat)
    (hseek : 0 ≤ sv.seek)
    (halloc : ∀ i, 0 ≤ sv.page_alloc i) (hmap : ∀ i, 0 ≤ sv.ept_map i)
    (hread : ∀ i, i < filesz →
      sv.readn i = ((if filesz - i < PGSIZE then filesz - i else PGSIZE : Nat) : Int))
    (hgpa : gpa % PGSIZE = 0) (hmem : memsz ≤ U64 - PGSIZE)
    (hfuel : (memsz + PGSIZE - 1) / PGSIZE < fuel) :
    ∃ st1, map_in_guest sv file fuel st gpa memsz filesz fileoffset = some (0, st1) ∧
      (∀ j, j < (memsz + PGSIZE - 1) / PGSIZE →
        (st1.guest ((gpa + j * PGSIZE) % U64)).isSome = true) ∧
      (∀ j1 j2, j1 < (memsz + PGSIZE - 1) / PGSIZE → j2 < (memsz + PGSIZE - 1) / PGSIZE →
        (gpa + j1 * PGSIZE) % U64 = (gpa + j2 * PGSIZE) % U64 → j1 = j2) ∧
      (∀ a, (∀ j, j < (memsz + PGSIZE - 1) / PGSIZE → a ≠ (gpa + j * PGSIZE) % U64) →
        st1.guest a = st.guest a) ∧
      (∀ k, k < filesz → k < (memsz + PGSIZE - 1) / PGSIZE * PGSIZE →
        guest_byte st1 ((gpa + k) % U64) = some (file (fileoffset + k))) ∧
      (∀ k, filesz ≤ k → k < (memsz + PGSIZE - 1) / PGSIZE * PGSIZE →
        guest_byte st1 ((gpa + k) % U64) = some 0) ∧
      (memsz = 0 → st1.guest = st.guest) := by
  have hP : PGSIZE = 4096 := rfl
  have hU : U64 = 18446744073709551616 := rfl
  obtain ⟨st1, hloop, hother, hpages⟩ :=
    map_in_guest_loop_ok sv file gpa memsz filesz fileoffset halloc hmap hread hmem
      ((memsz + PGSIZE - 1) / PGSIZE) 0 fuel { st with pos := fileoffset }
      (Nat.zero_add _) hfuel (by simp only [Nat.zero_mul]; split_ifs <;> omega)
  have hbyte : ∀ k, k < (memsz + PGSIZE - 1) / PGSIZE * PGSIZE →
      guest_byte st1 ((gpa + k) % U64)
        = some (if k < filesz then file (fileoffset + k) else 0) := by
    intro k hk
    obtain ⟨h1, h2⟩ := region_byte_addr gpa k hgpa
    have hm : k / PGSIZE < (memsz + PGSIZE - 1) / PGSIZE := by
      simp only [hP] at *
      omega
    obtain ⟨page, hp1, hp2⟩ := hpages (k / PGSIZE) (Nat.zero_le _) hm
    have hk2 : k / PGSIZE * PGSIZE + k % PGSIZE = k := by
      simp only [hP]
      omega
    unfold guest_byte
    rw [h1, hp1]
    simp only
    rw [h2, hp2 _ (Nat.mod_lt _ (by decide)), hk2]
  refine ⟨st1, ?_, ?_, ?_, ?_, ?_, ?_, ?_⟩
  · unfold map_in_guest
    simp only
    rw [if_neg (not_lt.mpr hseek)]
    rw [Nat.zero_mul] at hloop
    exact hloop
  · intro j hj
    obtain ⟨page, hp1, -⟩ := hpages j (Nat.zero_le _) hj
    rw [hp1]
    rfl
  · intro j1 j2 h1 h2 h
    simp only [hP, hU] at *
    omega
  · intro a ha
    exact hother a (fun m _ h2 => ha m h2)
  · intro k h1 h2
    rw [hbyte k h2, if_pos h1]
  · intro k h1 h2
    rw [hbyte k h2, if_neg (by omega)]
  · intro h0
    funext a
    refine hother a (fun m _ h2 => ?_)
    subst h0
    simp only [hP] at h2
    omega

/-- Witness for C23: the region of the boot loader, 512 bytes of the
file from offset 0, mapped at the guest-physical address `0x7000`. -/
theorem map_in_guest_spec_witness :
    ∃ st1, map_in_guest (loaderOk 512) sampleFile 2 loaderBoot 0x7000 512 512 0 = some (0, st1) ∧
      (∀ j, j < (512 + PGSIZE - 1) / PGSIZE →
        (st1.guest ((0x7000 + j * PGSIZE) % U64)).isSome = true) ∧
      (∀ j1 j2, j1 < (512 + PGSIZE - 1) / PGSIZE → j2 < (512 + PGSIZE - 1) / PGSIZE →
        (0x7000 + j1 * PGSIZE) % U64 = (0x7000 + j2 * PGSIZE) % U64 → j1 = j2) ∧
      (∀ a, (∀ j, j < (512 + PGSIZE - 1) / PGSIZE → a ≠ (0x7000 + j * PGSIZE) % U64) →
        st1.guest a = loaderBoot.guest a) ∧
      (∀ k, k < 512 → k < (512 + PGSIZE - 1) / PGSIZE * PGSIZE →
        guest_byte st1 ((0x7000 + k) % U64) = some (sampleFile (0 + k))) ∧
      (∀ k, 512 ≤ k → k < (512 + PGSIZE - 1) / PGSIZE * PGSIZE →
        guest_byte st1 ((0x7000 + k) % U64) = some 0) ∧
      ((512 : Nat) = 0 → st1.guest = loaderBoot.guest) :=
  map_in_guest_spec (loaderOk 512) sampleFile 2 loaderBoot 0x7000 512 512 0
    (by decide) (fun _ => Int.le_refl _) (fun _ => Int.le_refl _) (fun _ _ => rfl)
    (by decide) (by decide) (by decide)

end Jos
